import Mathlib

/-!
# LED display animation engine (libleddisplay.c)

A shallow embedding of the frame queue, the scheduler loop, the frame dispatch,
the overlay operation and the device protocol encoder of
`src/libleddisplay.c` and of the Game-of-Life step of `src/conway_clock.c`, and
theorems about them.

Conventions of the embedding.

* A `uint32_t`, `uint16_t` or `unsigned char` is a `Nat`; where C truncates on
  assignment the embedding reduces modulo `2^32`, `65536` or `256`.
* A pointer to a frame is an `Option Nat` (`none` is `NULL`); the heap is a
  total map from addresses to frame records.
* `calloc` is a bump allocator: it hands out the address `brk` and advances
  `brk`; `free` does not recycle addresses.
* The constants of the header `libleddisplay.h` are not part of the sources;
  they are the fields of `Config`.
-/

namespace LedDisplay

/-! ## Data model -/

/-- The numeric constants that `libleddisplay.c` takes from the header
`libleddisplay.h`; the header is not among the sources, so every definition
that uses one of them takes the configuration as a parameter. -/
structure Config where
  LDISPLAY_DIM : Nat
  LDISPLAY_MEDIUM : Nat
  LDISPLAY_BRIGHT : Nat
  LDISPLAY_NOCHANGE : Nat
  MAX_FRAME_LENGTH_MS : Nat
  SUCCESS : Int

/-- The frame kinds named by the `switch` of `_anim_frame_dispatch`.  Their
numeric values live in the missing header; C case labels are pairwise distinct,
and `other v` stands for a `type` byte that is none of the six labels (the
`default:` branch). -/
inductive FrameType where
  | LDISPLAY_INVERT
  | LDISPLAY_CLEAR
  | LDISPLAY_SET
  | LDISPLAY_LOOP
  | LDISPLAY_BRK_IF_LAST
  | LDISPLAY_NOOP
  | other (v : Nat)
  deriving DecidableEq, Repr

/-- The C type `ldisplay_buffer_t`, i.e. `uint32_t[7]`: seven row words. -/
abbrev ldisplay_buffer_t := Fin 7 → Nat

/-- A frame pointer: `none` is `NULL`, `some a` the frame at address `a`. -/
abbrev Ptr := Option Nat

/-- The C struct `ldisplay_frame_t`, with the fields the code reads and
writes. -/
structure ldisplay_frame_t where
  type : FrameType
  duration : Nat
  brightness : Nat
  buffer : ldisplay_buffer_t
  next : Ptr

/-- The C struct `ldisplay_animq_t`: head and tail pointers of the queue. -/
structure ldisplay_animq_t where
  first : Ptr
  last : Ptr
  deriving DecidableEq, Repr

/-- The process-wide state of the library together with the two observable
logs of the scheduler: the durations handed to the timed wait and the
`(buffer, brightness)` pairs seen by `_ldisplay_update`. -/
structure Engine where
  heap : Nat → ldisplay_frame_t
  brk : Nat
  animq : ldisplay_animq_t
  _buffer : ldisplay_buffer_t
  _brightness : Nat
  slept : List Nat
  updates : List (ldisplay_buffer_t × Nat)

/-! ## The frame queue (lines 358-398) -/

/-- The function `ldisplay_enqueue(frame)` for a non-null `frame`. -/
def ldisplay_enqueue (frame : Nat) (s : Engine) : Engine :=
  match s.animq.last with
  | some l =>
      { s with
        heap := Function.update s.heap l { s.heap l with next := some frame }
        animq := { first := s.animq.first, last := some frame } }
  | none =>
      { s with animq := { first := some frame, last := some frame } }

/-- The function `_ldisplay_queue_prepend(frame)` for a non-null `frame`. -/
def _ldisplay_queue_prepend (frame : Nat) (s : Engine) : Engine :=
  match s.animq.first with
  | some f =>
      { s with
        heap := Function.update s.heap frame { s.heap frame with next := some f }
        animq := { first := some frame, last := s.animq.last } }
  | none =>
      { s with animq := { first := some frame, last := some frame } }

/-- The function `_ldisplay_dequeue()`: the returned pointer and the new
state. -/
def _ldisplay_dequeue (s : Engine) : Ptr × Engine :=
  match s.animq.first with
  | none => (none, s)
  | some cur =>
      if s.animq.first = s.animq.last then
        (some cur, { s with animq := { first := none, last := none } })
      else
        (some cur, { s with animq := { first := (s.heap cur).next, last := s.animq.last } })

/-- Enqueue the frames of a list, first element first. -/
def enqueueAll : List Nat → Engine → Engine
  | [], s => s
  | f :: fs, s => enqueueAll fs (ldisplay_enqueue f s)

/-- Call `_ldisplay_dequeue` `n` times and collect the returned pointers. -/
def dequeueN : Nat → Engine → List Ptr × Engine
  | 0, s => ([], s)
  | n + 1, s =>
      let r := _ldisplay_dequeue s
      let rest := dequeueN n r.2
      (r.1 :: rest.1, rest.2)

/-! ### The list a pointer structure stands for -/

/-- Consecutive members of the list are linked by their `next` fields. -/
def Linked (heap : Nat → ldisplay_frame_t) : List Nat → Prop
  | [] => True
  | [_] => True
  | a :: b :: rest => (heap a).next = some b ∧ Linked heap (b :: rest)

/-- The queue of `s` holds exactly the frames of `l`, head first. -/
def Holds (s : Engine) (l : List Nat) : Prop :=
  l.Nodup ∧ s.animq.first = l.head? ∧ s.animq.last = l.getLast? ∧ Linked s.heap l

/-! ## Display state and frame dispatch (lines 110-168) -/

/-- The function `_ldisplay_setBrightness(brightness)`. -/
def _ldisplay_setBrightness (cfg : Config) (brightness : Nat) (s : Engine) : Engine :=
  if brightness ≠ cfg.LDISPLAY_NOCHANGE then
    if brightness > cfg.LDISPLAY_BRIGHT then
      { s with _brightness := cfg.LDISPLAY_BRIGHT }
    else
      { s with _brightness := brightness }
  else s

/-- The function `_ldisplay_reset()`: every row of `_buffer` becomes 0. -/
def _ldisplay_reset (s : Engine) : Engine :=
  { s with _buffer := fun _ => 0 }

/-- The function `_ldisplay_invert()`: every row is xor-ed with `0xffffffff`. -/
def _ldisplay_invert (s : Engine) : Engine :=
  { s with _buffer := fun i => s._buffer i ^^^ 0xffffffff }

/-- The function `_ldisplay_set(data)`: every row is copied from `data`. -/
def _ldisplay_set (data : ldisplay_buffer_t) (s : Engine) : Engine :=
  { s with _buffer := fun i => data i }

/-- The function `_anim_frame_dispatch(frame)`, on the record `*frame`. -/
def _anim_frame_dispatch (cfg : Config) (frame : ldisplay_frame_t) (s : Engine) : Engine :=
  match frame.type with
  | FrameType.LDISPLAY_INVERT =>
      _ldisplay_invert (_ldisplay_setBrightness cfg frame.brightness s)
  | FrameType.LDISPLAY_CLEAR =>
      _ldisplay_reset (_ldisplay_setBrightness cfg frame.brightness s)
  | FrameType.LDISPLAY_SET =>
      _ldisplay_set frame.buffer (_ldisplay_setBrightness cfg frame.brightness s)
  | FrameType.LDISPLAY_LOOP => s
  | FrameType.LDISPLAY_BRK_IF_LAST => s
  | FrameType.LDISPLAY_NOOP => s
  | FrameType.other _ => s

/-! ## The scheduler loop (lines 179-223) -/

/-- Lines 182-189: dequeue, or build the filler NOOP frame in fresh memory.
Returns the address `cur_frame` and the new state. -/
def fetch_frame (cfg : Config) (s : Engine) : Nat × Engine :=
  let r := _ldisplay_dequeue s
  match r.1 with
  | some cur => (cur, r.2)
  | none =>
      (r.2.brk,
        { r.2 with
          heap := Function.update r.2.heap r.2.brk
            { type := FrameType.LDISPLAY_NOOP
              duration := cfg.MAX_FRAME_LENGTH_MS % 65536
              brightness := cfg.LDISPLAY_NOCHANGE
              buffer := fun _ => 0
              next := none }
          brk := r.2.brk + 1 })

/-- Lines 190-196: the duration split.  The subtraction is only reached when
`duration > MAX_FRAME_LENGTH_MS`, so it does not go below zero. -/
def split_frame (cfg : Config) (cur : Nat) (s : Engine) : Engine :=
  if (s.heap cur).duration > cfg.MAX_FRAME_LENGTH_MS then
    -- cur_frame->duration -= MAX_FRAME_LENGTH_MS;
    let s1 : Engine :=
      { s with
        heap := Function.update s.heap cur
          { s.heap cur with
            duration := ((s.heap cur).duration - cfg.MAX_FRAME_LENGTH_MS) % 65536 } }
    -- tmp = calloc(...); memcpy(tmp, cur_frame, ...);
    let tmp := s1.brk
    let s2 : Engine :=
      { s1 with heap := Function.update s1.heap tmp (s1.heap cur), brk := s1.brk + 1 }
    -- _ldisplay_queue_prepend(tmp);
    let s3 := _ldisplay_queue_prepend tmp s2
    -- cur_frame->duration = MAX_FRAME_LENGTH_MS;
    { s3 with
      heap := Function.update s3.heap cur
        { s3.heap cur with duration := cfg.MAX_FRAME_LENGTH_MS % 65536 } }
  else s

/-- The state in which a pass through the body of the `while` loop of
`anim_thread_func` ends when its timed wait (lines 198-210) returns: fetch,
split, the wait (logged in `slept`), dispatch, `_ldisplay_update` (logged in
`updates`), free.  The wait itself is `wait_frame` and need not return; the
pass with the wait in it is `anim_thread_pass`. -/
def anim_thread_iter (cfg : Config) (s : Engine) : Engine :=
  let r := fetch_frame cfg s
  let cur := r.1
  let s2 := split_frame cfg cur r.2
  let s3 : Engine := { s2 with slept := s2.slept ++ [(s2.heap cur).duration] }
  let s4 := _anim_frame_dispatch cfg (s3.heap cur) s3
  { s4 with updates := s4.updates ++ [(s4._buffer, s4._brightness)] }

/-- The loop of `anim_thread_func` run for `n` passes whose timed waits all
return; `anim_thread_passes` is the loop with the waits in it. -/
def anim_thread_func (cfg : Config) : Nat → Engine → Engine
  | 0, s => s
  | n + 1, s => anim_thread_func cfg n (anim_thread_iter cfg s)

/-! ### The timed wait (lines 198-210) -/

/-- The return codes of `pthread_cond_timedwait` that lines 203-210 tell
apart: 0, `ETIMEDOUT` and `EINVAL`. -/
inductive WaitRc where
  | zero
  | ETIMEDOUT
  | EINVAL
  deriving DecidableEq, Repr

/-- The call `pthread_cond_timedwait(&cond, &mutex, &ts)` as a function of
`ts.tv_nsec`.  POSIX makes it fail with `EINVAL` when the nanosecond field is
1000 million or more; otherwise, the condition variable being local to the
thread and never signalled, the wait ends with `ETIMEDOUT`. -/
def pthread_cond_timedwait (tv_nsec : Nat) : WaitRc :=
  if 1000000000 ≤ tv_nsec then WaitRc.EINVAL else WaitRc.ETIMEDOUT

/-- The loop `do { ... } while (rc == EINVAL)` of lines 200-210, from its round
number `k` on with the current value of `rc`.  `clock k` is the `tv_nsec` that
the `clock_gettime` of round `k` returns; `tv_nsec` is not carried into
`tv_sec` after the addition, and `rc` is not reset between rounds.  The result
is `some rc` when the loop is left and `none` when it has not been left within
the number of rounds given by the first argument. -/
def wait_loop (clock : Nat → Nat) (duration : Nat) : Nat → Nat → WaitRc → Option WaitRc
  | 0, _, _ => none
  | fuel + 1, k, rc =>
      -- clock_gettime(CLOCK_REALTIME, &ts); ts.tv_nsec += cur_frame->duration * 1e6;
      let tv_nsec := clock k + duration * 1000000
      -- while (rc == 0) { rc = pthread_cond_timedwait(&cond, &mutex, &ts); }
      let rc1 := if rc = WaitRc.zero then pthread_cond_timedwait tv_nsec else rc
      -- if (rc == ETIMEDOUT) { break; }
      if rc1 = WaitRc.ETIMEDOUT then some rc1
      -- } while (rc == EINVAL);
      else if rc1 = WaitRc.EINVAL then wait_loop clock duration fuel (k + 1) rc1
      else some rc1

/-- Lines 198-210: `int rc = 0;` and the loop. -/
def wait_frame (clock : Nat → Nat) (duration fuel : Nat) : Option WaitRc :=
  wait_loop clock duration fuel 0 WaitRc.zero

/-- The duration handed to the timed wait in the pass that starts in `s`:
`cur_frame->duration` after lines 182-196. -/
def paced_duration (cfg : Config) (s : Engine) : Nat :=
  ((split_frame cfg (fetch_frame cfg s).1 (fetch_frame cfg s).2).heap
    (fetch_frame cfg s).1).duration

/-- One pass through the body of the `while` loop of `anim_thread_func` (lines
180-222) with its timed wait: `none` when the wait loop has not been left
within `fuel` rounds, so that lines 212-220 are not reached. -/
def anim_thread_pass (cfg : Config) (clock : Nat → Nat) (fuel : Nat) (s : Engine) :
    Option Engine :=
  let r := fetch_frame cfg s
  let cur := r.1
  let s2 := split_frame cfg cur r.2
  match wait_frame clock (s2.heap cur).duration fuel with
  | none => none
  | some _ =>
      let s3 : Engine := { s2 with slept := s2.slept ++ [(s2.heap cur).duration] }
      let s4 := _anim_frame_dispatch cfg (s3.heap cur) s3
      some { s4 with updates := s4.updates ++ [(s4._buffer, s4._brightness)] }

/-- The loop of `anim_thread_func` for `n` passes, numbered from `p` on, with
the timed waits; `clock p k` is the `tv_nsec` read in round `k` of the wait of
pass `p`.  `none` when one of the passes does not end. -/
def anim_thread_passes (cfg : Config) (clock : Nat → Nat → Nat) (fuel : Nat) :
    Nat → Nat → Engine → Option Engine
  | 0, _, s => some s
  | n + 1, p, s =>
      match anim_thread_pass cfg (clock p) fuel s with
      | none => none
      | some t => anim_thread_passes cfg clock fuel n (p + 1) t

/-! ## The producer entry points (lines 403-427) -/

/-- The function `_ldisplay_make_frame(type, duration, brightness)`: a zeroed
frame with the three fields set; returns its address and the new state. -/
def _ldisplay_make_frame (type : FrameType) (duration brightness : Nat) (s : Engine) :
    Nat × Engine :=
  (s.brk,
    { s with
      heap := Function.update s.heap s.brk
        { type := type
          duration := duration
          brightness := brightness
          buffer := fun _ => 0
          next := none }
      brk := s.brk + 1 })

/-- The function `ldisplay_reset(duration)`. -/
def ldisplay_reset (cfg : Config) (duration : Nat) (s : Engine) : Engine :=
  let r := _ldisplay_make_frame FrameType.LDISPLAY_CLEAR duration cfg.LDISPLAY_NOCHANGE s
  ldisplay_enqueue r.1 r.2

/-- The function `ldisplay_invert(duration)`. -/
def ldisplay_invert (cfg : Config) (duration : Nat) (s : Engine) : Engine :=
  let r := _ldisplay_make_frame FrameType.LDISPLAY_INVERT duration cfg.LDISPLAY_NOCHANGE s
  ldisplay_enqueue r.1 r.2

/-- The function `ldisplay_set(duration, buffer, brightness)`. -/
def ldisplay_set (duration : Nat) (buffer : ldisplay_buffer_t) (brightness : Nat)
    (s : Engine) : Engine :=
  let r := _ldisplay_make_frame FrameType.LDISPLAY_SET duration brightness s
  let s1 : Engine :=
    { r.2 with heap := Function.update r.2.heap r.1 { r.2.heap r.1 with buffer := buffer } }
  ldisplay_enqueue r.1 s1

/-! ## Sample data for the concrete instances -/

/-- An all-zero frame record. -/
def zeroFrame : ldisplay_frame_t :=
  { type := FrameType.LDISPLAY_NOOP, duration := 0, brightness := 0,
    buffer := fun _ => 0, next := none }

/-- A start state: empty queue, blank buffer, nothing allocated, and
`_brightness` as given. -/
def startEngine (brightness : Nat) : Engine :=
  { heap := fun _ => zeroFrame, brk := 0, animq := { first := none, last := none },
    _buffer := fun _ => 0, _brightness := brightness, slept := [], updates := [] }

/-- One possible set of header values, used only for concrete instances. -/
def sampleConfig : Config :=
  { LDISPLAY_DIM := 0, LDISPLAY_MEDIUM := 1, LDISPLAY_BRIGHT := 2,
    LDISPLAY_NOCHANGE := 255, MAX_FRAME_LENGTH_MS := 100, SUCCESS := 0 }

/-- A queue holding one INVERT frame of 150 ms, at address 0. -/
def sampleInvert : Engine := ldisplay_invert sampleConfig 150 (startEngine 2)

/-- A queue holding a SET frame of 250 ms (address 0) followed by a CLEAR frame
of 50 ms (address 1). -/
def sampleTwo : Engine :=
  ldisplay_reset sampleConfig 50 (ldisplay_set 250 (fun _ => 5) 0 (startEngine 2))

/-- A queue holding one SET frame of 250 ms, at address 0. -/
def sampleLong : Engine := ldisplay_set 250 (fun _ => 5) 0 (startEngine 2)

/-! ## The device protocol encoder (lines 73-87 and 287-315) -/

/-- The function `_swapbits(v)` on a 32-bit word. -/
def _swapbits (v : Nat) : Nat :=
  let v1 := ((v &&& 0xaaaaaaaa) >>> 1) ||| (((v &&& 0x55555555) <<< 1) % 2 ^ 32)
  let v2 := ((v1 &&& 0xcccccccc) >>> 2) ||| (((v1 &&& 0x33333333) <<< 2) % 2 ^ 32)
  ((v2 &&& 0xf0f0f0f0) >>> 4) ||| (((v2 &&& 0x0f0f0f0f) <<< 4) % 2 ^ 32)

/-- The read `_buffer[i]`; the loop only reads rows 0 to 6. -/
def row (b : ldisplay_buffer_t) (i : Nat) : Nat :=
  if h : i < 7 then b ⟨i, h⟩ else 0

/-- The C expression `~x` on a 32-bit unsigned value. -/
def not32 (x : Nat) : Nat := x ^^^ 0xffffffff

/-- Lines 292-303: the assignments to `msg[2]` ... `msg[7]`, each truncated to
an `unsigned char`.  `msg` is the 8-byte array, `msg[1]` the row index. -/
def hw_fields (b : ldisplay_buffer_t) (msg : List Nat) : List Nat :=
  let m1 := msg.set 4 (not32 ((row b (msg.getD 1 0) &&& 0x00ffffff) >>> 0x0d) % 256)
  let m2 := m1.set 3 (not32 ((row b (msg.getD 1 0) &&& 0x0000ffff) >>> 0x05) % 256)
  let m3 := m2.set 2 (not32 ((row b (msg.getD 1 0) &&& 0x000000ff) <<< 0x03) % 256)
  if msg.getD 1 0 < 6 then
    let m4 := m3.set 7 (not32 ((row b (msg.getD 1 0 + 1) &&& 0x00ffffff) >>> 0x0d) % 256)
    let m5 := m4.set 6 (not32 ((row b (msg.getD 1 0 + 1) &&& 0x0000ffff) >>> 0x05) % 256)
    m5.set 5 ((not32 ((row b (msg.getD 1 0 + 1) &&& 0x000000ff) <<< 0x03) ||| 0x07) % 256)
  else
    ((m3.set 5 0).set 6 0).set 7 0

/-- Lines 304-306: `for (i=2; i<8; ++i) msg[i] = _swapbits(msg[i]);`. -/
def hw_swap (msg : List Nat) : List Nat :=
  [2, 3, 4, 5, 6, 7].foldl (fun m i => m.set i (_swapbits (m.getD i 0) % 256)) msg

/-- The `for` loop of `_ldisplay_update_hw`, with the transport `send` as a
function from the message to the result of `_control_msg`.  Returns the
messages sent, in order, and the return value.  The first argument bounds the
number of passes; the loop leaves through its condition after four. -/
def hw_loop (send : List Nat → Int) (success : Int) (b : ldisplay_buffer_t) :
    Nat → List Nat → List (List Nat) → List (List Nat) × Int
  | 0, _, sent => (sent, success)
  | fuel + 1, msg, sent =>
      if msg.getD 1 0 < 7 then
        let m := hw_swap (hw_fields b msg)
        let ret := send m
        if ret < 0 then (sent ++ [m], ret)
        else hw_loop send success b fuel (m.set 1 ((m.getD 1 0 + 2) % 256)) (sent ++ [m])
      else (sent, success)

/-- The function `_ldisplay_update_hw()`: `msg` starts as
`{ _brightness, 0, 0, 0, 0, 0, 0, 0 }` and `msg[1]` as 0. -/
def _ldisplay_update_hw (cfg : Config) (send : List Nat → Int) (s : Engine) :
    List (List Nat) × Int :=
  hw_loop send cfg.SUCCESS s._buffer 5 [s._brightness, 0, 0, 0, 0, 0, 0, 0] []

/-- The array `msg` after lines 292-303 in the pass for row index `r`, i.e.
before the bit reversal. -/
def hw_prefields (b : ldisplay_buffer_t) (brightness r : Nat) : List Nat :=
  hw_fields b [brightness, r, 0, 0, 0, 0, 0, 0]

/-- The message handed to `_control_msg` in the pass for row index `r`. -/
def hw_message (b : ldisplay_buffer_t) (brightness r : Nat) : List Nat :=
  hw_swap (hw_prefields b brightness r)

/-- The bit-inverted low 8 bits of `x`. -/
def inv8 (x : Nat) : Nat := 255 - x % 256

/-- A display state with rows 0-5 blank and row 6 equal to `0x1`, at the
brightness given. -/
def sampleRow6 (brightness : Nat) : Engine :=
  { startEngine brightness with _buffer := fun i => if i = 6 then 1 else 0 }

/-- A buffer with only bit 0 of row 0 set. -/
def sampleBit0 : ldisplay_buffer_t := fun i => if i = 0 then 1 else 0

/-! ## Overlay (lines 89-106) -/

/-- The write `background[i] = v`. -/
def setRow (b : ldisplay_buffer_t) (i v : Nat) : ldisplay_buffer_t :=
  fun j => if j.val = i then v else b j

/-- The `for` loop of `_overlay` (lines 96-99 and 101-104) from the counter
value `i` on; `shift` is the shift applied to the glyph row, the first argument
bounds the number of passes.  The counter is never negative, so it is a
`Nat`. -/
def overlay_loop (shift : Nat → Nat) (foreground : ldisplay_buffer_t) (yOff : Int) :
    Nat → Nat → ldisplay_buffer_t → ldisplay_buffer_t
  | 0, _, background => background
  | fuel + 1, i, background =>
      if i < 7 then
        if (i : Int) - yOff < 0 ∨ (i : Int) - yOff > 6 then
          overlay_loop shift foreground yOff fuel (i + 1) background
        else
          overlay_loop shift foreground yOff fuel (i + 1)
            (setRow background i
              (row background i ||| shift (row foreground ((i : Int) - yOff).toNat)))
      else background

/-- The function `_overlay(foreground, background, xOff, yOff)`; the offsets
are C `char` values.  The left shift is a 32-bit shift. -/
def _overlay (foreground background : ldisplay_buffer_t) (xOff yOff : Int) :
    ldisplay_buffer_t :=
  if yOff < -6 ∨ yOff > 6 ∨ xOff < -20 ∨ xOff > 20 then background
  else if xOff < 0 then
    overlay_loop (fun v => (v <<< (-xOff).toNat) % 2 ^ 32) foreground yOff 8
      (if yOff > 0 then yOff.toNat else 0) background
  else
    overlay_loop (fun v => v >>> xOff.toNat) foreground yOff 8
      (if yOff > 0 then yOff.toNat else 0) background

/-- The horizontal shift of a glyph row as the specification words it: right by
`xOff` bits for a non-negative offset, left by `|xOff|` bits, truncated to 32
bits, for a negative one. -/
def glyphShift (xOff : Int) (v : Nat) : Nat :=
  if 0 ≤ xOff then v >>> xOff.toNat else (v <<< xOff.natAbs) % 2 ^ 32

/-- A glyph with `0x3f80` in every row. -/
def sampleGlyph : ldisplay_buffer_t := fun _ => 0x3f80

/-- Dispatch the frames of a list one after the other, first element first. -/
def dispatchAll (cfg : Config) : List ldisplay_frame_t → Engine → Engine
  | [], s => s
  | fr :: frs, s => dispatchAll cfg frs (_anim_frame_dispatch cfg fr s)

/-! ## Shutdown (lines 48, 179 and 494-506) -/

/-- A call of one of the three queue functions. -/
inductive QueueOp where
  | enqueue (frame : Nat)
  | prepend (frame : Nat)
  | dequeue
  deriving DecidableEq, Repr

/-- Run one call on the pointer structure.  The result is the pointer
returned, for `dequeue`. -/
def runOp : QueueOp → Engine → Option Ptr × Engine
  | QueueOp.enqueue f, s => (none, ldisplay_enqueue f s)
  | QueueOp.prepend f, s => (none, _ldisplay_queue_prepend f s)
  | QueueOp.dequeue, s => (some (_ldisplay_dequeue s).1, (_ldisplay_dequeue s).2)

/-- Run a sequence of calls on the pointer structure, collecting the
results. -/
def runOps : List QueueOp → Engine → List (Option Ptr) × Engine
  | [], s => ([], s)
  | op :: ops, s => ((runOp op s).1 :: (runOps ops (runOp op s).2).1, (runOps ops (runOp op s).2).2)

/-- The same call on an abstract list, as the specification words it: enqueue
appends at the tail, prepend inserts at the head, dequeue removes and returns
the head and returns `NULL` on the empty list. -/
def listOp : QueueOp → List Nat → Option Ptr × List Nat
  | QueueOp.enqueue f, l => (none, l ++ [f])
  | QueueOp.prepend f, l => (none, f :: l)
  | QueueOp.dequeue, [] => (some none, [])
  | QueueOp.dequeue, a :: l => (some (some a), l)

/-- A sequence of calls on an abstract list. -/
def listOps : List QueueOp → List Nat → List (Option Ptr) × List Nat
  | [], l => ([], l)
  | op :: ops, l => ((listOp op l).1 :: (listOps ops (listOp op l).2).1, (listOps ops (listOp op l).2).2)

/-- Every frame inserted by the sequence is not in the queue at the time of
its insertion. -/
def admissible : List QueueOp → List Nat → Prop
  | [], _ => True
  | QueueOp.enqueue f :: ops, l => f ∉ l ∧ admissible ops (l ++ [f])
  | QueueOp.prepend f :: ops, l => f ∉ l ∧ admissible ops (f :: l)
  | QueueOp.dequeue :: ops, l => admissible ops (listOp QueueOp.dequeue l).2

/-! ## The Game-of-Life step of `conway_clock.c` (lines 165-225) -/

/-- The C array `bool matrix[21][7]`, indexed `matrix[j][i]` with column `j`
and row `i`. -/
abbrev LifeMatrix := Fin 21 → Fin 7 → Bool

/-- The read `matrix[j][i]`; the loops only read inside the array. -/
def cell (m : LifeMatrix) (j i : Nat) : Bool :=
  if h : j < 21 ∧ i < 7 then m ⟨j, h.1⟩ ⟨i, h.2⟩ else false

/-- The write `newmatrix[j][i] = v`. -/
def setCell (m : LifeMatrix) (j i : Nat) (v : Bool) : LifeMatrix :=
  fun a b => if a.val = j ∧ b.val = i then v else m a b

/-- Lines 176-194: the neighbour count of cell `(j, i)`, read from `matrix`. -/
def life_neighbors (matrix : LifeMatrix) (j i : Nat) : Nat :=
  let t := if i = 0 then 6 else i - 1
  let b := if i = 6 then 0 else i + 1
  let l := if j = 0 then 20 else j - 1
  let r := if j = 20 then 0 else j + 1
  let n0 := 0
  let n1 := if cell matrix l t then n0 + 1 else n0
  let n2 := if cell matrix l i then n1 + 1 else n1
  let n3 := if cell matrix l b then n2 + 1 else n2
  let n4 := if cell matrix j t then n3 + 1 else n3
  let n5 := if cell matrix j b then n4 + 1 else n4
  let n6 := if cell matrix r t then n5 + 1 else n5
  let n7 := if cell matrix r i then n6 + 1 else n6
  if cell matrix r b then n7 + 1 else n7

/-- Lines 195-209: the value assigned to `newmatrix[j][i]`. -/
def life_cell (matrix : LifeMatrix) (j i : Nat) : Bool :=
  if !(cell matrix j i) then
    if life_neighbors matrix j i = 3 then true else false
  else
    if life_neighbors matrix j i < 2 then false
    else if life_neighbors matrix j i ≤ 3 then true
    else false

/-- The loop `for (j=0; j<21; j++)` of lines 175-219 for the row `i`, from the
counter value `j` on, acting on `newmatrix` and `buffer`; the first argument
bounds the number of passes. -/
def life_inner (matrix : LifeMatrix) (i : Nat) :
    Nat → Nat → LifeMatrix × ldisplay_buffer_t → LifeMatrix × ldisplay_buffer_t
  | 0, _, st => st
  | fuel + 1, j, st =>
      if j < 21 then
        let newmatrix := setCell st.1 j i (life_cell matrix j i)
        let buffer := setRow st.2 i (row st.2 i ||| (if cell newmatrix j i then 1 <<< j else 0))
        life_inner matrix i fuel (j + 1) (newmatrix, buffer)
      else st

/-- The loop `for (i = 0; i<7; i++)` of lines 173-220, from the counter value
`i` on. -/
def life_outer (matrix : LifeMatrix) :
    Nat → Nat → LifeMatrix × ldisplay_buffer_t → LifeMatrix × ldisplay_buffer_t
  | 0, _, st => st
  | fuel + 1, i, st =>
      if i < 7 then
        life_outer matrix fuel (i + 1) (life_inner matrix i 22 0 (st.1, setRow st.2 i 0))
      else st

/-- One generation (lines 165-225): `newmatrix` starts as a copy of `matrix`,
the two nested loops fill it and `buffer`, and `matrix` becomes `newmatrix`.
Returns the new `matrix` and the new `buffer`. -/
def life_generation (matrix : LifeMatrix) (buffer : ldisplay_buffer_t) :
    LifeMatrix × ldisplay_buffer_t :=
  life_outer matrix 8 0 (matrix, buffer)

/-- The number of live cells among the 8 neighbours of `(j, i)` on the torus of
21 columns by 7 rows, as the specification words it; `Fin` arithmetic wraps
around. -/
def torusNeighbors (m : LifeMatrix) (j : Fin 21) (i : Fin 7) : Nat :=
  [(j - 1, i - 1), (j - 1, i), (j - 1, i + 1), (j, i - 1), (j, i + 1),
    (j + 1, i - 1), (j + 1, i), (j + 1, i + 1)].countP (fun p => m p.1 p.2)

/-- The rule of the game: a dead cell with exactly 3 live neighbours, or a live
cell with exactly 2 or 3. -/
def lifeRule (m : LifeMatrix) (j : Fin 21) (i : Fin 7) : Prop :=
  (m j i = false ∧ torusNeighbors m j i = 3) ∨
  (m j i = true ∧ (torusNeighbors m j i = 2 ∨ torusNeighbors m j i = 3))

/-- The glider that `conway_clock.c` puts on an empty display (lines 131-137):
bits 12, 11 and 11-13 of the rows 2, 3 and 4. -/
def sampleGlider : LifeMatrix :=
  fun j i => (i.val = 2 ∧ j.val = 12) ∨ (i.val = 3 ∧ j.val = 11) ∨
    (i.val = 4 ∧ (j.val = 11 ∨ j.val = 12 ∨ j.val = 13))

/-! # Theorems -/

/-! ## Queue representation lemmas -/

theorem linked_update_of_not_mem (heap : Nat → ldisplay_frame_t) (x : Nat)
    (v : ldisplay_frame_t) :
    ∀ l : List Nat, x ∉ l → Linked heap l → Linked (Function.update heap x v) l
  | [], _, _ => trivial
  | [_], _, _ => trivial
  | a :: b :: rest, hx, h => by
      have hxa : a ≠ x := fun e => hx (by simp [e])
      refine ⟨?_, linked_update_of_not_mem heap x v (b :: rest)
        (fun hm => hx (List.mem_cons_of_mem _ hm)) h.2⟩
      rw [Function.update_noteq hxa]
      exact h.1

theorem linked_tail (heap : Nat → ldisplay_frame_t) (a : Nat) (l : List Nat)
    (h : Linked heap (a :: l)) : Linked heap l := by
  cases l with
  | nil => trivial
  | cons b rest => exact h.2

/-- Appending at the tail: the old last frame gets its `next` set. -/
theorem linked_append (heap : Nat → ldisplay_frame_t) (f : Nat) :
    ∀ (l : List Nat) (z : Nat), (l ++ [z]).Nodup → Linked heap (l ++ [z]) →
      Linked (Function.update heap z { heap z with next := some f }) (l ++ [z] ++ [f])
  | [], z, _, _ => by
      show (Function.update heap z _ z).next = some f ∧ True
      simp
  | [a], z, hnd, h => by
      have haz : a ≠ z := by
        intro e
        simp [e] at hnd
      show (Function.update heap z _ a).next = some z ∧
        ((Function.update heap z _ z).next = some f ∧ True)
      rw [Function.update_noteq haz]
      simp
      exact h.1
  | a :: b :: rest, z, hnd, h => by
      have haz : a ≠ z := by
        intro e
        simp [e] at hnd
      have hnd2 : ((b :: rest) ++ [z]).Nodup := by
        have : (a :: ((b :: rest) ++ [z])).Nodup := hnd
        exact (List.nodup_cons.mp this).2
      have ih := linked_append heap f (b :: rest) z hnd2 h.2
      show (Function.update heap z _ a).next = some b ∧ _
      rw [Function.update_noteq haz]
      exact ⟨h.1, ih⟩

theorem holds_nil_iff (s : Engine) :
    Holds s [] ↔ s.animq.first = none ∧ s.animq.last = none := by
  simp [Holds, Linked]

/-- Enqueue appends at the tail of the represented list. -/
theorem holds_enqueue (s : Engine) (l : List Nat) (f : Nat)
    (h : Holds s l) (hf : f ∉ l) : Holds (ldisplay_enqueue f s) (l ++ [f]) := by
  obtain ⟨hnd, hfirst, hlast, hlink⟩ := h
  have hnd2 : (l ++ [f]).Nodup := by
    rw [List.nodup_append]
    refine ⟨hnd, List.nodup_singleton f, ?_⟩
    intro a ha hb
    simp at hb
    exact hf (hb ▸ ha)
  rcases List.eq_nil_or_concat l with hl | ⟨l0, z, hl⟩
  · subst hl
    simp at hlast
    simp [Holds, ldisplay_enqueue, hlast, Linked]
  · subst hl
    rw [List.concat_eq_append] at *
    simp at hlast
    refine ⟨hnd2, ?_, ?_, ?_⟩
    · simp only [ldisplay_enqueue, hlast]
      rw [hfirst]
      cases l0 <;> simp
    · simp [ldisplay_enqueue, hlast]
    · simp only [ldisplay_enqueue, hlast]
      exact linked_append s.heap f l0 z hnd hlink

/-- Prepend inserts at the head of the represented list. -/
theorem holds_prepend (s : Engine) (l : List Nat) (f : Nat)
    (h : Holds s l) (hf : f ∉ l) : Holds (_ldisplay_queue_prepend f s) (f :: l) := by
  obtain ⟨hnd, hfirst, hlast, hlink⟩ := h
  cases l with
  | nil =>
      simp at hfirst
      simp [Holds, _ldisplay_queue_prepend, hfirst, Linked]
  | cons a rest =>
      simp at hfirst
      refine ⟨List.nodup_cons.mpr ⟨hf, hnd⟩, ?_, ?_, ?_⟩
      · simp [_ldisplay_queue_prepend, hfirst]
      · simp only [_ldisplay_queue_prepend, hfirst]
        rw [hlast]
        simp [List.getLast?_cons_cons]
      · simp only [_ldisplay_queue_prepend, hfirst]
        refine ⟨by simp, ?_⟩
        exact linked_update_of_not_mem s.heap f _ (a :: rest) hf hlink

/-- Dequeue on a non-empty queue returns the head and leaves the tail. -/
theorem holds_dequeue_cons (s : Engine) (a : Nat) (l : List Nat)
    (h : Holds s (a :: l)) :
    (_ldisplay_dequeue s).1 = some a ∧ Holds (_ldisplay_dequeue s).2 l := by
  obtain ⟨hnd, hfirst, hlast, hlink⟩ := h
  simp at hfirst
  cases l with
  | nil =>
      simp at hlast
      simp [_ldisplay_dequeue, hfirst, hlast, Holds, Linked]
  | cons b rest =>
      have hne : s.animq.first ≠ s.animq.last := by
        rw [hfirst, hlast]
        intro e
        have hmem : a ∈ (b :: rest) := by
          have h2 : (a :: b :: rest).getLast? = (b :: rest).getLast? :=
            List.getLast?_cons_cons
          rw [h2] at e
          exact List.mem_of_getLast?_eq_some e.symm
        exact (List.nodup_cons.mp hnd).1 hmem
      simp only [_ldisplay_dequeue, hfirst]
      rw [hfirst] at hne
      simp only [hne, if_false]
      refine ⟨trivial, (List.nodup_cons.mp hnd).2, ?_, ?_, hlink.2⟩
      · simp [hlink.1]
      · simp [hlast, List.getLast?_cons_cons]

/-- Dequeue on an empty queue returns `NULL` and changes nothing. -/
theorem holds_dequeue_nil (s : Engine) (h : Holds s []) :
    _ldisplay_dequeue s = (none, s) := by
  have h1 := ((holds_nil_iff s).mp h).1
  simp [_ldisplay_dequeue, h1]

theorem holds_enqueueAll :
    ∀ (fs : List Nat) (s : Engine) (l : List Nat), Holds s l → (l ++ fs).Nodup →
      Holds (enqueueAll fs s) (l ++ fs)
  | [], s, l, h, _ => by simpa [enqueueAll] using h
  | f :: fs, s, l, h, hnd => by
      have hf : f ∉ l := by
        intro hm
        have := (List.nodup_append.mp hnd).2.2
        exact this hm (by simp)
      have h1 := holds_enqueue s l f h hf
      have h2 := holds_enqueueAll fs (ldisplay_enqueue f s) (l ++ [f]) h1 (by simpa using hnd)
      simpa [enqueueAll] using h2

theorem dequeueN_holds :
    ∀ (l : List Nat) (s : Engine), Holds s l →
      (dequeueN (l.length + 1) s).1 = l.map some ++ [none]
  | [], s, h => by
      simp [dequeueN, holds_dequeue_nil s h]
  | a :: l, s, h => by
      have h1 := holds_dequeue_cons s a l h
      have ih := dequeueN_holds l (_ldisplay_dequeue s).2 h1.2
      simp only [List.length_cons, List.map_cons, List.cons_append]
      rw [dequeueN]
      simp only [h1.1, ih]

/-! ## C1: FIFO -/

/-- C1. For every list of distinct frames enqueued on an initially empty queue
(no prepend in between), `n` successive `_ldisplay_dequeue` calls return the
frames in the order they were enqueued and the call after them returns
`NULL`. -/
theorem C1_fifo (s : Engine) (fs : List Nat)
    (hempty : s.animq.first = none ∧ s.animq.last = none) (hnd : fs.Nodup) :
    (dequeueN (fs.length + 1) (enqueueAll fs s)).1 = fs.map some ++ [none] := by
  have h0 : Holds s [] := (holds_nil_iff s).mpr hempty
  have h1 := holds_enqueueAll fs s [] h0 (by simpa using hnd)
  simpa using dequeueN_holds fs (enqueueAll fs s) (by simpa using h1)

/-- An instance of C1 with three frames at the addresses 5, 3 and 9. -/
theorem C1_fifo_witness :
    (dequeueN 4 (enqueueAll [5, 3, 9] (startEngine 2))).1 = [some 5, some 3, some 9, none] :=
  C1_fifo (startEngine 2) [5, 3, 9] ⟨rfl, rfl⟩ (by decide)

/-! ## Scheduler lemmas -/

/-- The predicate `Holds` only looks at the queue pointers and at the `next`
fields of the members. -/
theorem holds_heap_update (s t : Engine) (l : List Nat) (x : Nat) (v : ldisplay_frame_t)
    (hq : t.animq = s.animq) (hh : t.heap = Function.update s.heap x v) (hx : x ∉ l)
    (h : Holds s l) : Holds t l := by
  obtain ⟨hnd, hfirst, hlast, hlink⟩ := h
  refine ⟨hnd, by rw [hq]; exact hfirst, by rw [hq]; exact hlast, ?_⟩
  rw [hh]
  exact linked_update_of_not_mem s.heap x v l hx hlink

theorem dequeue_fields (s : Engine) :
    (_ldisplay_dequeue s).2.heap = s.heap ∧ (_ldisplay_dequeue s).2.brk = s.brk ∧
    (_ldisplay_dequeue s).2._buffer = s._buffer ∧
    (_ldisplay_dequeue s).2._brightness = s._brightness ∧
    (_ldisplay_dequeue s).2.slept = s.slept ∧ (_ldisplay_dequeue s).2.updates = s.updates := by
  unfold _ldisplay_dequeue
  split
  · simp
  · split <;> simp

theorem prepend_fields (frame : Nat) (s : Engine) :
    (_ldisplay_queue_prepend frame s).brk = s.brk ∧
    (_ldisplay_queue_prepend frame s)._buffer = s._buffer ∧
    (_ldisplay_queue_prepend frame s)._brightness = s._brightness ∧
    (_ldisplay_queue_prepend frame s).slept = s.slept ∧
    (_ldisplay_queue_prepend frame s).updates = s.updates := by
  unfold _ldisplay_queue_prepend
  split <;> simp

theorem prepend_heap_other (frame x : Nat) (s : Engine) (hx : x ≠ frame) :
    (_ldisplay_queue_prepend frame s).heap x = s.heap x := by
  unfold _ldisplay_queue_prepend
  split
  · simp [Function.update_noteq hx]
  · rfl

theorem prepend_heap_self (frame : Nat) (s : Engine) :
    ((_ldisplay_queue_prepend frame s).heap frame).type = (s.heap frame).type ∧
    ((_ldisplay_queue_prepend frame s).heap frame).duration = (s.heap frame).duration ∧
    ((_ldisplay_queue_prepend frame s).heap frame).brightness = (s.heap frame).brightness ∧
    ((_ldisplay_queue_prepend frame s).heap frame).buffer = (s.heap frame).buffer := by
  unfold _ldisplay_queue_prepend
  split <;> simp

theorem fetch_frame_cons (cfg : Config) (s : Engine) (f : Nat) (q : List Nat)
    (h : Holds s (f :: q)) :
    (fetch_frame cfg s).1 = f ∧ (fetch_frame cfg s).2 = (_ldisplay_dequeue s).2 := by
  have h1 := (holds_dequeue_cons s f q h).1
  unfold fetch_frame
  simp only [h1]
  exact ⟨trivial, trivial⟩

/-- What the split at lines 190-196 does to a frame `f` that has just been
dequeued, when its duration exceeds the maximum. -/
theorem split_frame_long (cfg : Config) (s : Engine) (f : Nat) (q : List Nat)
    (hq : Holds s q) (hfq : f ∉ q) (hf : f < s.brk) (hbrk : ∀ x ∈ q, x < s.brk)
    (hD : cfg.MAX_FRAME_LENGTH_MS < (s.heap f).duration)
    (h16 : (s.heap f).duration < 65536) :
    Holds (split_frame cfg f s) (s.brk :: q) ∧
    (split_frame cfg f s).brk = s.brk + 1 ∧
    ((split_frame cfg f s).heap f).duration = cfg.MAX_FRAME_LENGTH_MS ∧
    ((split_frame cfg f s).heap f).type = (s.heap f).type ∧
    ((split_frame cfg f s).heap f).brightness = (s.heap f).brightness ∧
    ((split_frame cfg f s).heap f).buffer = (s.heap f).buffer ∧
    ((split_frame cfg f s).heap s.brk).duration
      = (s.heap f).duration - cfg.MAX_FRAME_LENGTH_MS ∧
    ((split_frame cfg f s).heap s.brk).type = (s.heap f).type ∧
    ((split_frame cfg f s).heap s.brk).brightness = (s.heap f).brightness ∧
    ((split_frame cfg f s).heap s.brk).buffer = (s.heap f).buffer ∧
    (∀ x, x ≠ f → x ≠ s.brk → (split_frame cfg f s).heap x = s.heap x) ∧
    (split_frame cfg f s)._buffer = s._buffer ∧
    (split_frame cfg f s)._brightness = s._brightness ∧
    (split_frame cfg f s).slept = s.slept ∧
    (split_frame cfg f s).updates = s.updates := by
  have hne : f ≠ s.brk := Nat.ne_of_lt hf
  have hne2 : s.brk ≠ f := fun e => hne e.symm
  have hbq : s.brk ∉ q := fun hm => Nat.lt_irrefl _ (hbrk _ hm)
  have hM : cfg.MAX_FRAME_LENGTH_MS % 65536 = cfg.MAX_FRAME_LENGTH_MS :=
    Nat.mod_eq_of_lt (by omega)
  have hS : ((s.heap f).duration - cfg.MAX_FRAME_LENGTH_MS) % 65536
      = (s.heap f).duration - cfg.MAX_FRAME_LENGTH_MS := Nat.mod_eq_of_lt (by omega)
  -- the intermediate states of the branch
  let s1 : Engine :=
    { s with
      heap := Function.update s.heap f
        { s.heap f with
          duration := ((s.heap f).duration - cfg.MAX_FRAME_LENGTH_MS) % 65536 } }
  let s2 : Engine :=
    { s1 with heap := Function.update s1.heap s1.brk (s1.heap f), brk := s1.brk + 1 }
  let s3 := _ldisplay_queue_prepend s.brk s2
  let s4 : Engine :=
    { s3 with
      heap := Function.update s3.heap f
        { s3.heap f with duration := cfg.MAX_FRAME_LENGTH_MS % 65536 } }
  have hs : split_frame cfg f s = s4 := by
    unfold split_frame
    rw [if_pos hD]
  have h1 : Holds s1 q := holds_heap_update s s1 q f _ rfl rfl hfq hq
  have h2 : Holds s2 q := holds_heap_update s1 s2 q s.brk _ rfl rfl hbq h1
  have h3 : Holds s3 (s.brk :: q) := holds_prepend s2 q s.brk h2 hbq
  have hfq2 : f ∉ s.brk :: q := by
    intro hm
    rcases List.mem_cons.mp hm with e | e
    · exact hne e
    · exact hfq e
  have h4 : Holds s4 (s.brk :: q) := holds_heap_update s3 s4 (s.brk :: q) f _ rfl rfl hfq2 h3
  have pf : s3.brk = s2.brk ∧ s3._buffer = s2._buffer ∧ s3._brightness = s2._brightness ∧
      s3.slept = s2.slept ∧ s3.updates = s2.updates := prepend_fields s.brk s2
  have ps : (s3.heap s.brk).type = (s2.heap s.brk).type ∧
      (s3.heap s.brk).duration = (s2.heap s.brk).duration ∧
      (s3.heap s.brk).brightness = (s2.heap s.brk).brightness ∧
      (s3.heap s.brk).buffer = (s2.heap s.brk).buffer := prepend_heap_self s.brk s2
  have po : ∀ x, x ≠ s.brk → s3.heap x = s2.heap x :=
    fun x hx => prepend_heap_other s.brk x s2 hx
  -- the heap cells, one state at a time
  have e1f : (s1.heap f).duration = ((s.heap f).duration - cfg.MAX_FRAME_LENGTH_MS) % 65536 ∧
      (s1.heap f).type = (s.heap f).type ∧ (s1.heap f).brightness = (s.heap f).brightness ∧
      (s1.heap f).buffer = (s.heap f).buffer := by
    have : s1.heap f = { s.heap f with
        duration := ((s.heap f).duration - cfg.MAX_FRAME_LENGTH_MS) % 65536 } :=
      Function.update_same f _ s.heap
    rw [this]
    exact ⟨rfl, rfl, rfl, rfl⟩
  have e1o : ∀ x, x ≠ f → s1.heap x = s.heap x := fun x hx => Function.update_noteq hx _ s.heap
  have e2b : s2.heap s.brk = s1.heap f := Function.update_same s.brk _ s1.heap
  have e2o : ∀ x, x ≠ s.brk → s2.heap x = s1.heap x :=
    fun x hx => Function.update_noteq hx _ s1.heap
  have e4f : (s4.heap f).duration = cfg.MAX_FRAME_LENGTH_MS % 65536 ∧
      (s4.heap f).type = (s3.heap f).type ∧ (s4.heap f).brightness = (s3.heap f).brightness ∧
      (s4.heap f).buffer = (s3.heap f).buffer := by
    have : s4.heap f = { s3.heap f with duration := cfg.MAX_FRAME_LENGTH_MS % 65536 } :=
      Function.update_same f _ s3.heap
    rw [this]
    exact ⟨rfl, rfl, rfl, rfl⟩
  have e4o : ∀ x, x ≠ f → s4.heap x = s3.heap x := fun x hx => Function.update_noteq hx _ s3.heap
  have e4r : s4.brk = s3.brk ∧ s4._buffer = s3._buffer ∧ s4._brightness = s3._brightness ∧
      s4.slept = s3.slept ∧ s4.updates = s3.updates := ⟨rfl, rfl, rfl, rfl, rfl⟩
  have e2r : s2.brk = s.brk + 1 ∧ s2._buffer = s._buffer ∧ s2._brightness = s._brightness ∧
      s2.slept = s.slept ∧ s2.updates = s.updates := ⟨rfl, rfl, rfl, rfl, rfl⟩
  clear_value s1 s2 s3 s4
  rw [hs]
  have e3f : s3.heap f = s1.heap f := by rw [po f hne, e2o f hne]
  refine ⟨h4, ?_, ?_, ?_, ?_, ?_, ?_, ?_, ?_, ?_, ?_, ?_, ?_, ?_, ?_⟩
  · rw [e4r.1, pf.1, e2r.1]
  · rw [e4f.1, hM]
  · rw [e4f.2.1, e3f, e1f.2.1]
  · rw [e4f.2.2.1, e3f, e1f.2.2.1]
  · rw [e4f.2.2.2, e3f, e1f.2.2.2]
  · rw [e4o _ hne2, ps.2.1, e2b, e1f.1, hS]
  · rw [e4o _ hne2, ps.1, e2b, e1f.2.1]
  · rw [e4o _ hne2, ps.2.2.1, e2b, e1f.2.2.1]
  · rw [e4o _ hne2, ps.2.2.2, e2b, e1f.2.2.2]
  · intro x hxf hxb
    rw [e4o x hxf, po x hxb, e2o x hxb, e1o x hxf]
  · rw [e4r.2.1, pf.2.1, e2r.2.1]
  · rw [e4r.2.2.1, pf.2.2.1, e2r.2.2.1]
  · rw [e4r.2.2.2.1, pf.2.2.2.1, e2r.2.2.2.1]
  · rw [e4r.2.2.2.2, pf.2.2.2.2, e2r.2.2.2.2]

theorem setBrightness_fields (cfg : Config) (b : Nat) (s : Engine) :
    (_ldisplay_setBrightness cfg b s).heap = s.heap ∧
    (_ldisplay_setBrightness cfg b s).brk = s.brk ∧
    (_ldisplay_setBrightness cfg b s).animq = s.animq ∧
    (_ldisplay_setBrightness cfg b s)._buffer = s._buffer ∧
    (_ldisplay_setBrightness cfg b s).slept = s.slept ∧
    (_ldisplay_setBrightness cfg b s).updates = s.updates := by
  unfold _ldisplay_setBrightness
  split_ifs <;> simp

/-- The value `_ldisplay_setBrightness` leaves in `_brightness`. -/
theorem setBrightness_value (cfg : Config) (b : Nat) (s : Engine) :
    (_ldisplay_setBrightness cfg b s)._brightness =
      if b = cfg.LDISPLAY_NOCHANGE then s._brightness
      else if b > cfg.LDISPLAY_BRIGHT then cfg.LDISPLAY_BRIGHT else b := by
  unfold _ldisplay_setBrightness
  split_ifs <;> simp_all

/-- Dispatch touches nothing but `_buffer` and `_brightness`. -/
theorem dispatch_fields (cfg : Config) (fr : ldisplay_frame_t) (s : Engine) :
    (_anim_frame_dispatch cfg fr s).heap = s.heap ∧
    (_anim_frame_dispatch cfg fr s).brk = s.brk ∧
    (_anim_frame_dispatch cfg fr s).animq = s.animq ∧
    (_anim_frame_dispatch cfg fr s).slept = s.slept ∧
    (_anim_frame_dispatch cfg fr s).updates = s.updates := by
  have hb := setBrightness_fields cfg fr.brightness s
  unfold _anim_frame_dispatch
  split <;>
    simp [_ldisplay_invert, _ldisplay_reset, _ldisplay_set, hb.1, hb.2.1, hb.2.2.1,
      hb.2.2.2.2.1, hb.2.2.2.2.2]

/-- The display state after dispatch depends only on the kind, brightness and
payload of the frame and on the display state before. -/
theorem dispatch_congr (cfg : Config) (fr1 fr2 : ldisplay_frame_t) (s1 s2 : Engine)
    (ht : fr1.type = fr2.type) (hb : fr1.brightness = fr2.brightness)
    (hp : fr1.buffer = fr2.buffer) (h1 : s1._buffer = s2._buffer)
    (h2 : s1._brightness = s2._brightness) :
    (_anim_frame_dispatch cfg fr1 s1)._buffer = (_anim_frame_dispatch cfg fr2 s2)._buffer ∧
    (_anim_frame_dispatch cfg fr1 s1)._brightness
      = (_anim_frame_dispatch cfg fr2 s2)._brightness := by
  have v1 := setBrightness_value cfg fr1.brightness s1
  have v2 := setBrightness_value cfg fr2.brightness s2
  have f1 := (setBrightness_fields cfg fr1.brightness s1).2.2.2.1
  have f2 := (setBrightness_fields cfg fr2.brightness s2).2.2.2.1
  have hv : (_ldisplay_setBrightness cfg fr1.brightness s1)._brightness
      = (_ldisplay_setBrightness cfg fr2.brightness s2)._brightness := by
    rw [v1, v2, hb, h2]
  unfold _anim_frame_dispatch
  rw [ht]
  cases fr2.type <;>
    simp [_ldisplay_invert, _ldisplay_reset, _ldisplay_set, hv, f1, f2, h1, h2, hp]

/-- The loop body written out. -/
theorem anim_thread_iter_eq (cfg : Config) (s : Engine) :
    anim_thread_iter cfg s =
      { _anim_frame_dispatch cfg
          ((split_frame cfg (fetch_frame cfg s).1 (fetch_frame cfg s).2).heap (fetch_frame cfg s).1)
          { split_frame cfg (fetch_frame cfg s).1 (fetch_frame cfg s).2 with
            slept := (split_frame cfg (fetch_frame cfg s).1 (fetch_frame cfg s).2).slept ++
              [((split_frame cfg (fetch_frame cfg s).1 (fetch_frame cfg s).2).heap
                  (fetch_frame cfg s).1).duration] } with
        updates :=
          (_anim_frame_dispatch cfg
            ((split_frame cfg (fetch_frame cfg s).1 (fetch_frame cfg s).2).heap
              (fetch_frame cfg s).1)
            { split_frame cfg (fetch_frame cfg s).1 (fetch_frame cfg s).2 with
              slept := (split_frame cfg (fetch_frame cfg s).1 (fetch_frame cfg s).2).slept ++
                [((split_frame cfg (fetch_frame cfg s).1 (fetch_frame cfg s).2).heap
                    (fetch_frame cfg s).1).duration] }).updates ++
          [((anim_thread_iter cfg s)._buffer, (anim_thread_iter cfg s)._brightness)] } :=
  rfl

/-- The effect of one loop pass in terms of the fetched frame `cur` and the
state `u` after the split. -/
theorem iter_of_split (cfg : Config) (s u : Engine) (cur : Nat)
    (hc : (fetch_frame cfg s).1 = cur)
    (hu : split_frame cfg cur (fetch_frame cfg s).2 = u) :
    (anim_thread_iter cfg s).heap = u.heap ∧
    (anim_thread_iter cfg s).brk = u.brk ∧
    (anim_thread_iter cfg s).animq = u.animq ∧
    (anim_thread_iter cfg s).slept = u.slept ++ [(u.heap cur).duration] ∧
    (anim_thread_iter cfg s)._buffer = (_anim_frame_dispatch cfg (u.heap cur) u)._buffer ∧
    (anim_thread_iter cfg s)._brightness
      = (_anim_frame_dispatch cfg (u.heap cur) u)._brightness ∧
    (anim_thread_iter cfg s).updates = u.updates ++
      [((anim_thread_iter cfg s)._buffer, (anim_thread_iter cfg s)._brightness)] := by
  have e : anim_thread_iter cfg s =
      { _anim_frame_dispatch cfg (u.heap cur)
          { u with slept := u.slept ++ [(u.heap cur).duration] } with
        updates := (_anim_frame_dispatch cfg (u.heap cur)
            { u with slept := u.slept ++ [(u.heap cur).duration] }).updates ++
          [((anim_thread_iter cfg s)._buffer, (anim_thread_iter cfg s)._brightness)] } := by
    have := anim_thread_iter_eq cfg s
    rw [hc, hu] at this
    exact this
  have d := dispatch_fields cfg (u.heap cur)
    { u with slept := u.slept ++ [(u.heap cur).duration] }
  have c := dispatch_congr cfg (u.heap cur) (u.heap cur)
    { u with slept := u.slept ++ [(u.heap cur).duration] } u rfl rfl rfl rfl rfl
  refine ⟨?_, ?_, ?_, ?_, ?_, ?_, ?_⟩
  · rw [e]; exact d.1
  · rw [e]; exact d.2.1
  · rw [e]; exact d.2.2.1
  · rw [e]; exact d.2.2.2.1
  · rw [e]; exact c.1
  · rw [e]; exact c.2
  · conv_lhs => rw [e]
    show (_anim_frame_dispatch cfg (u.heap cur) _).updates ++ _ = _
    rw [d.2.2.2.2]

theorem holds_congr (s t : Engine) (l : List Nat) (hh : t.heap = s.heap)
    (hq : t.animq = s.animq) (h : Holds s l) : Holds t l := by
  unfold Holds at *
  rw [hh, hq]
  exact h

/-- One loop pass on a queue whose head frame is longer than the maximum. -/
theorem iter_long (cfg : Config) (s : Engine) (f : Nat) (q : List Nat)
    (hq : Holds s (f :: q)) (hbrk : ∀ x ∈ f :: q, x < s.brk)
    (hD : cfg.MAX_FRAME_LENGTH_MS < (s.heap f).duration)
    (h16 : (s.heap f).duration < 65536) :
    Holds (anim_thread_iter cfg s) (s.brk :: q) ∧
    (anim_thread_iter cfg s).brk = s.brk + 1 ∧
    (anim_thread_iter cfg s).slept = s.slept ++ [cfg.MAX_FRAME_LENGTH_MS] ∧
    ((anim_thread_iter cfg s).heap s.brk).duration
      = (s.heap f).duration - cfg.MAX_FRAME_LENGTH_MS ∧
    ((anim_thread_iter cfg s).heap s.brk).type = (s.heap f).type ∧
    ((anim_thread_iter cfg s).heap s.brk).brightness = (s.heap f).brightness ∧
    ((anim_thread_iter cfg s).heap s.brk).buffer = (s.heap f).buffer ∧
    (∀ x, x ≠ f → x ≠ s.brk → (anim_thread_iter cfg s).heap x = s.heap x) ∧
    (anim_thread_iter cfg s)._buffer = (_anim_frame_dispatch cfg (s.heap f) s)._buffer ∧
    (anim_thread_iter cfg s)._brightness
      = (_anim_frame_dispatch cfg (s.heap f) s)._brightness ∧
    (anim_thread_iter cfg s).updates = s.updates ++
      [((anim_thread_iter cfg s)._buffer, (anim_thread_iter cfg s)._brightness)] := by
  have hd := holds_dequeue_cons s f q hq
  have hf := fetch_frame_cons cfg s f q hq
  have df := dequeue_fields s
  have hfq : f ∉ q := (List.nodup_cons.mp hq.1).1
  have hsp := split_frame_long cfg (_ldisplay_dequeue s).2 f q hd.2 hfq
    (by rw [df.2.1]; exact hbrk f (by simp))
    (by rw [df.2.1]; exact fun x hx => hbrk x (List.mem_cons_of_mem _ hx))
    (by rw [df.1]; exact hD) (by rw [df.1]; exact h16)
  have hit := iter_of_split cfg s (split_frame cfg f (_ldisplay_dequeue s).2) f hf.1
    (by rw [hf.2])
  rw [df.1, df.2.1, df.2.2.1, df.2.2.2.1, df.2.2.2.2.1, df.2.2.2.2.2] at hsp
  obtain ⟨p1, p2, p3, p4, p5, p6, p7, p8, p9, p10, p11, p12, p13, p14, p15⟩ := hsp
  obtain ⟨i1, i2, i3, i4, i5, i6, i7⟩ := hit
  have hc := dispatch_congr cfg ((split_frame cfg f (_ldisplay_dequeue s).2).heap f) (s.heap f)
    (split_frame cfg f (_ldisplay_dequeue s).2) s p4 p5 p6 p12 p13
  refine ⟨holds_congr _ _ _ i1 i3 p1, ?_, ?_, ?_, ?_, ?_, ?_, ?_, ?_, ?_, ?_⟩
  · rw [i2, p2]
  · rw [i4, p14, p3]
  · rw [i1, p7]
  · rw [i1, p8]
  · rw [i1, p9]
  · rw [i1, p10]
  · intro x h1 h2
    rw [i1, p11 x h1 h2]
  · rw [i5, hc.1]
  · rw [i6, hc.2]
  · rw [i7, p15]

/-- One loop pass on a queue whose head frame is no longer than the maximum. -/
theorem iter_short (cfg : Config) (s : Engine) (f : Nat) (q : List Nat)
    (hq : Holds s (f :: q)) (hD : (s.heap f).duration ≤ cfg.MAX_FRAME_LENGTH_MS) :
    Holds (anim_thread_iter cfg s) q ∧
    (anim_thread_iter cfg s).brk = s.brk ∧
    (anim_thread_iter cfg s).heap = s.heap ∧
    (anim_thread_iter cfg s).slept = s.slept ++ [(s.heap f).duration] ∧
    (anim_thread_iter cfg s)._buffer = (_anim_frame_dispatch cfg (s.heap f) s)._buffer ∧
    (anim_thread_iter cfg s)._brightness
      = (_anim_frame_dispatch cfg (s.heap f) s)._brightness ∧
    (anim_thread_iter cfg s).updates = s.updates ++
      [((anim_thread_iter cfg s)._buffer, (anim_thread_iter cfg s)._brightness)] := by
  have hd := holds_dequeue_cons s f q hq
  have hf := fetch_frame_cons cfg s f q hq
  have df := dequeue_fields s
  have hsp : split_frame cfg f (_ldisplay_dequeue s).2 = (_ldisplay_dequeue s).2 := by
    unfold split_frame
    rw [if_neg]
    rw [df.1]
    exact Nat.not_lt.mpr hD
  have hit := iter_of_split cfg s (_ldisplay_dequeue s).2 f hf.1 (by rw [hf.2, hsp])
  obtain ⟨i1, i2, i3, i4, i5, i6, i7⟩ := hit
  have hc := dispatch_congr cfg ((_ldisplay_dequeue s).2.heap f) (s.heap f)
    (_ldisplay_dequeue s).2 s (by rw [df.1]) (by rw [df.1]) (by rw [df.1])
    df.2.2.1 df.2.2.2.1
  refine ⟨holds_congr _ _ _ i1 i3 hd.2, ?_, ?_, ?_, ?_, ?_, ?_⟩
  · rw [i2, df.2.1]
  · rw [i1, df.1]
  · rw [i4, df.2.2.2.2.1, df.1]
  · rw [i5, hc.1]
  · rw [i6, hc.2]
  · rw [i7, df.2.2.2.2.2]

/-! ## The timed wait -/

/-- Once `rc` is `EINVAL` the loop is never left: the inner `while (rc == 0)`
is skipped and `rc` stays `EINVAL`. -/
theorem wait_loop_einval (clock : Nat → Nat) (d : Nat) :
    ∀ fuel k, wait_loop clock d fuel k WaitRc.EINVAL = none
  | 0, _ => rfl
  | fuel + 1, k => by
      rw [wait_loop]
      exact wait_loop_einval clock d fuel (k + 1)

/-- The wait returns, with `ETIMEDOUT`, when the first absolute time is
valid. -/
theorem wait_frame_returns (clock : Nat → Nat) (d fuel : Nat)
    (h : clock 0 + d * 1000000 < 1000000000) :
    wait_frame clock d (fuel + 1) = some WaitRc.ETIMEDOUT := by
  have e : pthread_cond_timedwait (clock 0 + d * 1000000) = WaitRc.ETIMEDOUT := by
    unfold pthread_cond_timedwait
    rw [if_neg (Nat.not_le.mpr h)]
  unfold wait_frame
  rw [wait_loop]
  simp only [if_true, e]

/-- The wait never returns when the first absolute time has a nanosecond field
of 1000 million or more. -/
theorem wait_frame_hangs (clock : Nat → Nat) (d fuel : Nat)
    (h : 1000000000 ≤ clock 0 + d * 1000000) :
    wait_frame clock d fuel = none := by
  have e : pthread_cond_timedwait (clock 0 + d * 1000000) = WaitRc.EINVAL := by
    unfold pthread_cond_timedwait
    rw [if_pos h]
  unfold wait_frame
  cases fuel with
  | zero => rfl
  | succ n =>
      rw [wait_loop]
      simp only [if_true, e]
      exact wait_loop_einval clock d n 1

/-- The pass with its wait is the pass without it whenever the wait
returns. -/
theorem pass_eq (cfg : Config) (clock : Nat → Nat) (fuel : Nat) (s : Engine) :
    anim_thread_pass cfg clock fuel s =
      (wait_frame clock (paced_duration cfg s) fuel).map (fun _ => anim_thread_iter cfg s) := by
  unfold anim_thread_pass paced_duration
  dsimp only
  cases wait_frame clock
      ((split_frame cfg (fetch_frame cfg s).1 (fetch_frame cfg s).2).heap
        (fetch_frame cfg s).1).duration fuel with
  | none => rfl
  | some rc => rfl

theorem pass_returns (cfg : Config) (clock : Nat → Nat) (fuel : Nat) (s : Engine)
    (h : clock 0 + paced_duration cfg s * 1000000 < 1000000000) :
    anim_thread_pass cfg clock (fuel + 1) s = some (anim_thread_iter cfg s) := by
  rw [pass_eq, wait_frame_returns clock _ fuel h]
  rfl

theorem pass_hangs (cfg : Config) (clock : Nat → Nat) (fuel : Nat) (s : Engine)
    (h : 1000000000 ≤ clock 0 + paced_duration cfg s * 1000000) :
    anim_thread_pass cfg clock fuel s = none := by
  rw [pass_eq, wait_frame_hangs clock _ fuel h]
  rfl

theorem fetch_slept (cfg : Config) (s : Engine) : (fetch_frame cfg s).2.slept = s.slept := by
  have df := dequeue_fields s
  unfold fetch_frame
  dsimp only
  cases h : (_ldisplay_dequeue s).1 with
  | none => exact df.2.2.2.2.1
  | some c => exact df.2.2.2.2.1

theorem split_slept (cfg : Config) (cur : Nat) (s : Engine) :
    (split_frame cfg cur s).slept = s.slept := by
  unfold split_frame
  by_cases h : (s.heap cur).duration > cfg.MAX_FRAME_LENGTH_MS
  · rw [if_pos h]
    exact (prepend_fields _ _).2.2.2.1
  · rw [if_neg h]

/-- The wait logged by a pass is the duration handed to the timed wait. -/
theorem iter_slept (cfg : Config) (s : Engine) :
    (anim_thread_iter cfg s).slept = s.slept ++ [paced_duration cfg s] := by
  have hi := iter_of_split cfg s (split_frame cfg (fetch_frame cfg s).1 (fetch_frame cfg s).2)
    (fetch_frame cfg s).1 rfl rfl
  rw [hi.2.2.2.1, split_slept, fetch_slept]
  rfl

/-- No wait is longer than `MAX_FRAME_LENGTH_MS`. -/
theorem paced_le_max (cfg : Config) (s : Engine) :
    paced_duration cfg s ≤ cfg.MAX_FRAME_LENGTH_MS := by
  unfold paced_duration split_frame
  by_cases h : ((fetch_frame cfg s).2.heap (fetch_frame cfg s).1).duration
      > cfg.MAX_FRAME_LENGTH_MS
  · rw [if_pos h]
    dsimp only
    rw [Function.update_same]
    exact Nat.mod_le _ _
  · rw [if_neg h]
    exact Nat.not_lt.mp h

theorem paced_of_slept (cfg : Config) (s : Engine) (d : Nat)
    (h : (anim_thread_iter cfg s).slept = s.slept ++ [d]) : paced_duration cfg s = d := by
  rw [iter_slept] at h
  have := List.append_cancel_left h
  simpa using this

/-- All passes end when every first clock reading leaves room for the longest
wait. -/
theorem passes_return (cfg : Config) (clock : Nat → Nat → Nat) (fuel : Nat)
    (h : ∀ p, clock p 0 + cfg.MAX_FRAME_LENGTH_MS * 1000000 < 1000000000) :
    ∀ (n p : Nat) (s : Engine),
      anim_thread_passes cfg clock (fuel + 1) n p s = some (anim_thread_func cfg n s)
  | 0, _, _ => rfl
  | n + 1, p, s => by
      have hp : clock p 0 + paced_duration cfg s * 1000000 < 1000000000 := by
        have h1 := h p
        have h2 := paced_le_max cfg s
        omega
      rw [anim_thread_passes, pass_returns cfg (clock p) fuel s hp]
      exact passes_return cfg clock fuel h n (p + 1) (anim_thread_iter cfg s)

/-- No pass ends when the wait of the first one does not return. -/
theorem passes_hang (cfg : Config) (clock : Nat → Nat → Nat) (fuel n p : Nat) (s : Engine)
    (h : 1000000000 ≤ clock p 0 + paced_duration cfg s * 1000000) :
    anim_thread_passes cfg clock fuel (n + 1) p s = none := by
  rw [anim_thread_passes, pass_hangs cfg (clock p) fuel s h]

/-! ## C2: the split step -/

/-- The split step in a pass whose timed wait returns.  When the head frame `f`
of the queue `f :: q` has a duration `D` above `MAX_FRAME_LENGTH_MS`, the pass
logs a wait of exactly `MAX_FRAME_LENGTH_MS` and leaves the queue equal to
`c :: q`, where the continuation `c` (the freshly allocated frame) has the
kind, brightness and payload of `f` and the duration
`D - MAX_FRAME_LENGTH_MS`; the frames of `q` are untouched.  Hence `c` is the
next frame dequeued, ahead of `q` and of every frame `gs` enqueued
afterwards. -/
theorem split_step_ended (cfg : Config) (s : Engine) (f : Nat) (q : List Nat)
    (hq : Holds s (f :: q)) (hbrk : ∀ x ∈ f :: q, x < s.brk)
    (hD : cfg.MAX_FRAME_LENGTH_MS < (s.heap f).duration)
    (h16 : (s.heap f).duration < 65536) :
    (anim_thread_iter cfg s).slept = s.slept ++ [cfg.MAX_FRAME_LENGTH_MS] ∧
    Holds (anim_thread_iter cfg s) (s.brk :: q) ∧
    ((anim_thread_iter cfg s).heap s.brk).type = (s.heap f).type ∧
    ((anim_thread_iter cfg s).heap s.brk).brightness = (s.heap f).brightness ∧
    ((anim_thread_iter cfg s).heap s.brk).buffer = (s.heap f).buffer ∧
    ((anim_thread_iter cfg s).heap s.brk).duration
      = (s.heap f).duration - cfg.MAX_FRAME_LENGTH_MS ∧
    (∀ x ∈ q, (anim_thread_iter cfg s).heap x = s.heap x) ∧
    (_ldisplay_dequeue (anim_thread_iter cfg s)).1 = some s.brk ∧
    (∀ gs : List Nat, (s.brk :: q ++ gs).Nodup →
      (dequeueN ((s.brk :: q ++ gs).length + 1) (enqueueAll gs (anim_thread_iter cfg s))).1
        = (s.brk :: q ++ gs).map some ++ [none]) := by
  obtain ⟨a1, _, a3, a4, a5, a6, a7, a8, _, _, _⟩ := iter_long cfg s f q hq hbrk hD h16
  refine ⟨a3, a1, a5, a6, a7, a4, ?_, (holds_dequeue_cons _ _ _ a1).1, ?_⟩
  · intro x hx
    have hxf : x ≠ f := fun e => (List.nodup_cons.mp hq.1).1 (e ▸ hx)
    have hxb : x ≠ s.brk := Nat.ne_of_lt (hbrk x (List.mem_cons_of_mem _ hx))
    exact a8 x hxf hxb
  · intro gs hnd
    exact dequeueN_holds _ _ (holds_enqueueAll gs _ (s.brk :: q) a1 hnd)

/-- C2 (what the code does).  Let the head frame `f` of the queue `f :: q` have
a duration `D` above `MAX_FRAME_LENGTH_MS`.  The pass asks the timed wait for
exactly `MAX_FRAME_LENGTH_MS`.  If the `tv_nsec` read by `clock_gettime` plus
`MAX_FRAME_LENGTH_MS * 10^6` stays below `10^9`, the wait returns and the pass
ends as the claim says: the wait is `MAX_FRAME_LENGTH_MS`, the queue is
`c :: q` with the continuation `c` a copy of `f` of duration
`D - MAX_FRAME_LENGTH_MS`, and `c` is dequeued ahead of `q` and of every frame
enqueued afterwards.  If the sum reaches `10^9` - as it always does for
`MAX_FRAME_LENGTH_MS ≥ 1000` - `pthread_cond_timedwait` fails with `EINVAL`,
the loop of lines 200-210 is never left, and the pass does not end. -/
theorem C2_split_step_wait (cfg : Config) (s : Engine) (f : Nat) (q : List Nat)
    (clock : Nat → Nat)
    (hq : Holds s (f :: q)) (hbrk : ∀ x ∈ f :: q, x < s.brk)
    (hD : cfg.MAX_FRAME_LENGTH_MS < (s.heap f).duration)
    (h16 : (s.heap f).duration < 65536) :
    paced_duration cfg s = cfg.MAX_FRAME_LENGTH_MS ∧
    (clock 0 + cfg.MAX_FRAME_LENGTH_MS * 1000000 < 1000000000 →
      ∀ fuel, anim_thread_pass cfg clock (fuel + 1) s = some (anim_thread_iter cfg s)) ∧
    (1000000000 ≤ clock 0 + cfg.MAX_FRAME_LENGTH_MS * 1000000 →
      ∀ fuel, anim_thread_pass cfg clock fuel s = none) ∧
    (anim_thread_iter cfg s).slept = s.slept ++ [cfg.MAX_FRAME_LENGTH_MS] ∧
    Holds (anim_thread_iter cfg s) (s.brk :: q) ∧
    ((anim_thread_iter cfg s).heap s.brk).type = (s.heap f).type ∧
    ((anim_thread_iter cfg s).heap s.brk).brightness = (s.heap f).brightness ∧
    ((anim_thread_iter cfg s).heap s.brk).buffer = (s.heap f).buffer ∧
    ((anim_thread_iter cfg s).heap s.brk).duration
      = (s.heap f).duration - cfg.MAX_FRAME_LENGTH_MS ∧
    (∀ x ∈ q, (anim_thread_iter cfg s).heap x = s.heap x) ∧
    (_ldisplay_dequeue (anim_thread_iter cfg s)).1 = some s.brk ∧
    (∀ gs : List Nat, (s.brk :: q ++ gs).Nodup →
      (dequeueN ((s.brk :: q ++ gs).length + 1) (enqueueAll gs (anim_thread_iter cfg s))).1
        = (s.brk :: q ++ gs).map some ++ [none]) := by
  have h := split_step_ended cfg s f q hq hbrk hD h16
  have hp : paced_duration cfg s = cfg.MAX_FRAME_LENGTH_MS := paced_of_slept cfg s _ h.1
  refine ⟨hp, ?_, ?_, h⟩
  · intro hc fuel
    exact pass_returns cfg clock fuel s (by rw [hp]; exact hc)
  · intro hc fuel
    exact pass_hangs cfg clock fuel s (by rw [hp]; exact hc)

/-- An instance of C2: a SET frame of 250 ms ahead of a CLEAR frame, with a
maximum of 100 ms.  With `tv_nsec = 950000000` the pass does not end; with
`tv_nsec = 0` it ends with a wait of 100 ms and the continuation, at address 2
with 150 ms left, at the head of the queue. -/
theorem C2_split_step_wait_witness :
    anim_thread_pass sampleConfig (fun _ => 950000000) 9 sampleTwo = none ∧
    anim_thread_pass sampleConfig (fun _ => 0) 9 sampleTwo
      = some (anim_thread_iter sampleConfig sampleTwo) ∧
    (anim_thread_iter sampleConfig sampleTwo).slept = [100] ∧
    Holds (anim_thread_iter sampleConfig sampleTwo) [2, 1] ∧
    ((anim_thread_iter sampleConfig sampleTwo).heap 2).duration = 150 := by
  obtain ⟨_, _, a3, _⟩ := C2_split_step_wait sampleConfig sampleTwo 0 [1]
    (fun _ => 950000000) ⟨by decide, rfl, rfl, rfl, trivial⟩ (by decide) (by decide) (by decide)
  obtain ⟨_, b2, _, b4, b5, _, _, _, b9, _⟩ := C2_split_step_wait sampleConfig sampleTwo 0 [1]
    (fun _ => 0) ⟨by decide, rfl, rfl, rfl, trivial⟩ (by decide) (by decide) (by decide)
  exact ⟨a3 (by decide) 9, b2 (by decide) 8, b4, b5, b9⟩

/-! ## Dispatch, kind by kind -/

theorem dispatch_invert (cfg : Config) (fr : ldisplay_frame_t) (s : Engine)
    (ht : fr.type = FrameType.LDISPLAY_INVERT) :
    (_anim_frame_dispatch cfg fr s)._buffer = (fun i => s._buffer i ^^^ 0xffffffff) ∧
    (_anim_frame_dispatch cfg fr s)._brightness
      = (_ldisplay_setBrightness cfg fr.brightness s)._brightness := by
  have hb := (setBrightness_fields cfg fr.brightness s).2.2.2.1
  unfold _anim_frame_dispatch
  rw [ht]
  simp [_ldisplay_invert, hb]

theorem dispatch_clear (cfg : Config) (fr : ldisplay_frame_t) (s : Engine)
    (ht : fr.type = FrameType.LDISPLAY_CLEAR) :
    (_anim_frame_dispatch cfg fr s)._buffer = (fun _ => 0) ∧
    (_anim_frame_dispatch cfg fr s)._brightness
      = (_ldisplay_setBrightness cfg fr.brightness s)._brightness := by
  unfold _anim_frame_dispatch
  rw [ht]
  simp [_ldisplay_reset]

theorem dispatch_set (cfg : Config) (fr : ldisplay_frame_t) (s : Engine)
    (ht : fr.type = FrameType.LDISPLAY_SET) :
    (_anim_frame_dispatch cfg fr s)._buffer = fr.buffer ∧
    (_anim_frame_dispatch cfg fr s)._brightness
      = (_ldisplay_setBrightness cfg fr.brightness s)._brightness := by
  unfold _anim_frame_dispatch
  rw [ht]
  simp [_ldisplay_set]

theorem dispatch_idle (cfg : Config) (fr : ldisplay_frame_t) (s : Engine)
    (h1 : fr.type ≠ FrameType.LDISPLAY_INVERT) (h2 : fr.type ≠ FrameType.LDISPLAY_CLEAR)
    (h3 : fr.type ≠ FrameType.LDISPLAY_SET) :
    _anim_frame_dispatch cfg fr s = s := by
  unfold _anim_frame_dispatch
  cases h : fr.type <;> simp_all

theorem xor_mask_twice (x : Nat) : x ^^^ 0xffffffff ^^^ 0xffffffff = x := by
  rw [Nat.xor_assoc, Nat.xor_self, Nat.xor_zero]

theorem xor_mask_ne (x : Nat) : x ^^^ 0xffffffff ≠ x := by
  intro h
  have h2 : x ^^^ (x ^^^ 0xffffffff) = x ^^^ x := by rw [h]
  rw [← Nat.xor_assoc, Nat.xor_self, Nat.zero_xor] at h2
  exact absurd h2 (by decide)

/-! ## C3: a split INVERT frame is dispatched once per pass -/

/-- C3 (what the code does at the input named in the claim).  An INVERT frame
alone in the queue with `MAX < D ≤ 2 * MAX` is consumed by two loop passes; the
continuation is dispatched like the frame itself, so both passes invert the
buffer: the final buffer is the original one, and differs in every row from
the buffer after a single dispatch of the frame. -/
theorem C3_invert_dispatched_twice (cfg : Config) (s : Engine) (f : Nat)
    (hq : Holds s [f]) (hf : f < s.brk)
    (ht : (s.heap f).type = FrameType.LDISPLAY_INVERT)
    (hD : cfg.MAX_FRAME_LENGTH_MS < (s.heap f).duration)
    (hD2 : (s.heap f).duration ≤ 2 * cfg.MAX_FRAME_LENGTH_MS)
    (h16 : (s.heap f).duration < 65536) :
    Holds (anim_thread_func cfg 1 s) [s.brk] ∧
    Holds (anim_thread_func cfg 2 s) [] ∧
    (anim_thread_func cfg 1 s)._buffer = (_anim_frame_dispatch cfg (s.heap f) s)._buffer ∧
    (anim_thread_func cfg 2 s)._buffer = s._buffer ∧
    (∀ i, (anim_thread_func cfg 2 s)._buffer i
        ≠ (_anim_frame_dispatch cfg (s.heap f) s)._buffer i) := by
  have h1 := iter_long cfg s f [] hq (by simpa using hf) hD h16
  obtain ⟨a1, _, _, a4, a5, _, _, _, a9, _, _⟩ := h1
  have h2 := iter_short cfg (anim_thread_iter cfg s) s.brk [] a1 (by rw [a4]; omega)
  obtain ⟨b1, _, _, _, b5, _, _⟩ := h2
  have d1 := (dispatch_invert cfg (s.heap f) s ht).1
  have d2 := (dispatch_invert cfg ((anim_thread_iter cfg s).heap s.brk)
    (anim_thread_iter cfg s) (by rw [a5, ht])).1
  have e2 : (anim_thread_func cfg 2 s)._buffer = s._buffer := by
    show (anim_thread_iter cfg (anim_thread_iter cfg s))._buffer = s._buffer
    rw [b5, d2, a9, d1]
    funext i
    exact xor_mask_twice (s._buffer i)
  refine ⟨a1, b1, a9, e2, ?_⟩
  intro i
  rw [e2, d1]
  exact fun h => xor_mask_ne (s._buffer i) h.symm

/-- An instance of C3: an INVERT frame of 150 ms with a maximum of 100 ms on a
blank display.  After the two passes that consume it every row is 0 again,
while a single dispatch of the frame leaves `0xffffffff` in every row. -/
theorem C3_invert_dispatched_twice_witness :
    (anim_thread_func sampleConfig 2 sampleInvert)._buffer = (fun _ => 0) ∧
    (∀ i, (_anim_frame_dispatch sampleConfig (sampleInvert.heap 0) sampleInvert)._buffer i
      = 0xffffffff) ∧
    (∀ i, (anim_thread_func sampleConfig 2 sampleInvert)._buffer i
      ≠ (_anim_frame_dispatch sampleConfig (sampleInvert.heap 0) sampleInvert)._buffer i) := by
  have h := C3_invert_dispatched_twice sampleConfig sampleInvert 0 ⟨by decide, rfl, rfl, trivial⟩
    (by decide) rfl (by decide) (by decide) (by decide)
  refine ⟨h.2.2.2.1, fun i => ?_, h.2.2.2.2⟩
  rw [(dispatch_invert sampleConfig (sampleInvert.heap 0) sampleInvert rfl).1]
  show (0 : Nat) ^^^ 0xffffffff = 0xffffffff
  decide

/-! ## C4: the split decomposition -/

/-- A frame alone in the queue with `m * MAX < D ≤ (m + 1) * MAX` takes
`m + 1` loop passes: `m` waits of `MAX` and one of the remainder. -/
theorem run_single (cfg : Config) (hM : 0 < cfg.MAX_FRAME_LENGTH_MS) :
    ∀ (m : Nat) (s : Engine) (f : Nat), Holds s [f] → f < s.brk →
      m * cfg.MAX_FRAME_LENGTH_MS < (s.heap f).duration →
      (s.heap f).duration ≤ (m + 1) * cfg.MAX_FRAME_LENGTH_MS →
      (s.heap f).duration < 65536 →
      (anim_thread_func cfg (m + 1) s).slept = s.slept ++
        (List.replicate m cfg.MAX_FRAME_LENGTH_MS ++
          [(s.heap f).duration - m * cfg.MAX_FRAME_LENGTH_MS]) ∧
      Holds (anim_thread_func cfg (m + 1) s) [] ∧
      ∀ k, k ≤ m → ∃ g, Holds (anim_thread_func cfg k s) [g]
  | 0, s, f, hq, _, _, hle, _ => by
      have h := iter_short cfg s f [] hq (by simpa using hle)
      refine ⟨?_, h.1, ?_⟩
      · show (anim_thread_iter cfg s).slept = _
        rw [h.2.2.2.1]
        simp
      · intro k hk
        have : k = 0 := by omega
        subst this
        exact ⟨f, hq⟩
  | m + 1, s, f, hq, hf, hlt, hle, h16 => by
      have hmul : (m + 1) * cfg.MAX_FRAME_LENGTH_MS
          = m * cfg.MAX_FRAME_LENGTH_MS + cfg.MAX_FRAME_LENGTH_MS := Nat.succ_mul _ _
      have hmul2 : (m + 1 + 1) * cfg.MAX_FRAME_LENGTH_MS
          = (m + 1) * cfg.MAX_FRAME_LENGTH_MS + cfg.MAX_FRAME_LENGTH_MS := Nat.succ_mul _ _
      have hD : cfg.MAX_FRAME_LENGTH_MS < (s.heap f).duration := by omega
      obtain ⟨a1, a2, a3, a4, _⟩ := iter_long cfg s f [] hq (by simpa using hf) hD h16
      have ih := run_single cfg hM m (anim_thread_iter cfg s) s.brk a1 (by rw [a2]; omega)
        (by rw [a4]; omega) (by rw [a4]; omega) (by rw [a4]; omega)
      obtain ⟨i1, i2, i3⟩ := ih
      refine ⟨?_, i2, ?_⟩
      · show (anim_thread_func cfg (m + 1) (anim_thread_iter cfg s)).slept = _
        rw [i1, a3, a4, List.replicate_succ]
        have : (s.heap f).duration - cfg.MAX_FRAME_LENGTH_MS - m * cfg.MAX_FRAME_LENGTH_MS
            = (s.heap f).duration - (m + 1) * cfg.MAX_FRAME_LENGTH_MS := by omega
        rw [this]
        simp
      · intro k hk
        cases k with
        | zero => exact ⟨f, hq⟩
        | succ j => exact i3 j (by omega)

/-- The split decomposition over passes whose timed waits return.  For
`MAX_FRAME_LENGTH_MS > 0` and a 16-bit duration `D` above it, a frame of
duration `D` alone in the queue is consumed in exactly `ceil (D / MAX)` such
passes: the queue is empty after that many passes and holds one frame after
any smaller number; the waits are `MAX, ..., MAX` and the remainder, each is
positive and at most `MAX`, and they add up to `D`. -/
theorem split_decomposition_ended (cfg : Config) (s : Engine) (f : Nat)
    (hq : Holds s [f]) (hf : f < s.brk)
    (hM : 0 < cfg.MAX_FRAME_LENGTH_MS)
    (hD : cfg.MAX_FRAME_LENGTH_MS < (s.heap f).duration)
    (h16 : (s.heap f).duration < 65536) :
    ∃ L : List Nat,
      L.length = ((s.heap f).duration + cfg.MAX_FRAME_LENGTH_MS - 1) / cfg.MAX_FRAME_LENGTH_MS ∧
      L = List.replicate (L.length - 1) cfg.MAX_FRAME_LENGTH_MS ++
        [(s.heap f).duration - (L.length - 1) * cfg.MAX_FRAME_LENGTH_MS] ∧
      (anim_thread_func cfg L.length s).slept = s.slept ++ L ∧
      (∀ d ∈ L, 0 < d ∧ d ≤ cfg.MAX_FRAME_LENGTH_MS) ∧
      L.sum = (s.heap f).duration ∧
      Holds (anim_thread_func cfg L.length s) [] ∧
      ∀ k, k < L.length → ∃ g, Holds (anim_thread_func cfg k s) [g] := by
  have hn : ((s.heap f).duration + cfg.MAX_FRAME_LENGTH_MS - 1) / cfg.MAX_FRAME_LENGTH_MS
      = ((s.heap f).duration - 1) / cfg.MAX_FRAME_LENGTH_MS + 1 := by
    have : (s.heap f).duration + cfg.MAX_FRAME_LENGTH_MS - 1
        = ((s.heap f).duration - 1) + cfg.MAX_FRAME_LENGTH_MS := by omega
    rw [this, Nat.add_div_right _ hM]
  have hlo : ((s.heap f).duration - 1) / cfg.MAX_FRAME_LENGTH_MS * cfg.MAX_FRAME_LENGTH_MS
      ≤ (s.heap f).duration - 1 := Nat.div_mul_le_self _ _
  have hhi : (s.heap f).duration - 1
      < (((s.heap f).duration - 1) / cfg.MAX_FRAME_LENGTH_MS + 1) * cfg.MAX_FRAME_LENGTH_MS := by
    have := Nat.lt_mul_div_succ ((s.heap f).duration - 1) hM
    rw [Nat.mul_comm] at this
    exact this
  have hsucc : (((s.heap f).duration - 1) / cfg.MAX_FRAME_LENGTH_MS + 1) * cfg.MAX_FRAME_LENGTH_MS
      = ((s.heap f).duration - 1) / cfg.MAX_FRAME_LENGTH_MS * cfg.MAX_FRAME_LENGTH_MS
        + cfg.MAX_FRAME_LENGTH_MS := Nat.succ_mul _ _
  obtain ⟨r1, r2, r3⟩ := run_single cfg hM (((s.heap f).duration - 1) / cfg.MAX_FRAME_LENGTH_MS)
    s f hq hf (by omega) (by omega) h16
  refine ⟨List.replicate (((s.heap f).duration - 1) / cfg.MAX_FRAME_LENGTH_MS)
      cfg.MAX_FRAME_LENGTH_MS ++
    [(s.heap f).duration
      - ((s.heap f).duration - 1) / cfg.MAX_FRAME_LENGTH_MS * cfg.MAX_FRAME_LENGTH_MS], ?_⟩
  have hlen : (List.replicate (((s.heap f).duration - 1) / cfg.MAX_FRAME_LENGTH_MS)
      cfg.MAX_FRAME_LENGTH_MS ++
    [(s.heap f).duration
      - ((s.heap f).duration - 1) / cfg.MAX_FRAME_LENGTH_MS * cfg.MAX_FRAME_LENGTH_MS]).length
      = ((s.heap f).duration - 1) / cfg.MAX_FRAME_LENGTH_MS + 1 := by simp
  rw [hlen]
  refine ⟨hn.symm, by simp, r1, ?_, ?_, r2, fun k hk => r3 k (by omega)⟩
  · intro d hd
    rcases List.mem_append.mp hd with h | h
    · have := (List.mem_replicate.mp h).2
      omega
    · have := List.mem_singleton.mp h
      omega
  · simp
    omega

/-- C4 (what the code does).  Let a frame of 16-bit duration `D` above
`MAX_FRAME_LENGTH_MS > 0` be alone in the queue.  If in every pass the
`tv_nsec` read by `clock_gettime` plus `MAX_FRAME_LENGTH_MS * 10^6` stays below
`10^9`, all passes end and the frame is consumed as the claim says: in exactly
`ceil (D / MAX)` passes, with waits `MAX, ..., MAX` and the remainder, each
positive and at most `MAX`, adding up to `D`.  If in the first pass the sum
reaches `10^9` - as it always does for `MAX_FRAME_LENGTH_MS ≥ 1000` - the wait
loop of lines 200-210 is never left: no pass ends and the frame is never
consumed. -/
theorem C4_split_decomposition_wait (cfg : Config) (s : Engine) (f : Nat)
    (clock : Nat → Nat → Nat)
    (hq : Holds s [f]) (hf : f < s.brk)
    (hM : 0 < cfg.MAX_FRAME_LENGTH_MS)
    (hD : cfg.MAX_FRAME_LENGTH_MS < (s.heap f).duration)
    (h16 : (s.heap f).duration < 65536) :
    ((∀ p, clock p 0 + cfg.MAX_FRAME_LENGTH_MS * 1000000 < 1000000000) →
      ∀ fuel n, anim_thread_passes cfg clock (fuel + 1) n 0 s
        = some (anim_thread_func cfg n s)) ∧
    (1000000000 ≤ clock 0 0 + cfg.MAX_FRAME_LENGTH_MS * 1000000 →
      ∀ fuel n, anim_thread_passes cfg clock fuel (n + 1) 0 s = none) ∧
    (∃ L : List Nat,
      L.length = ((s.heap f).duration + cfg.MAX_FRAME_LENGTH_MS - 1) / cfg.MAX_FRAME_LENGTH_MS ∧
      L = List.replicate (L.length - 1) cfg.MAX_FRAME_LENGTH_MS ++
        [(s.heap f).duration - (L.length - 1) * cfg.MAX_FRAME_LENGTH_MS] ∧
      (anim_thread_func cfg L.length s).slept = s.slept ++ L ∧
      (∀ d ∈ L, 0 < d ∧ d ≤ cfg.MAX_FRAME_LENGTH_MS) ∧
      L.sum = (s.heap f).duration ∧
      Holds (anim_thread_func cfg L.length s) [] ∧
      ∀ k, k < L.length → ∃ g, Holds (anim_thread_func cfg k s) [g]) := by
  have h1 := iter_long cfg s f [] hq (by simpa using hf) hD h16
  have hp : paced_duration cfg s = cfg.MAX_FRAME_LENGTH_MS := paced_of_slept cfg s _ h1.2.2.1
  refine ⟨?_, ?_, split_decomposition_ended cfg s f hq hf hM hD h16⟩
  · intro hc fuel n
    exact passes_return cfg clock fuel hc n 0 s
  · intro hc fuel n
    exact passes_hang cfg clock fuel n 0 s (by rw [hp]; exact hc)

/-- An instance of C4: 250 ms with a maximum of 100 ms.  With `tv_nsec = 0` in
every pass the frame is waited as 100, 100 and 50 ms in three passes; with
`tv_nsec = 950000000` in the first pass no pass ends. -/
theorem C4_split_decomposition_wait_witness :
    anim_thread_passes sampleConfig (fun _ _ => 950000000) 9 3 0 sampleLong = none ∧
    anim_thread_passes sampleConfig (fun _ _ => 0) 9 3 0 sampleLong
      = some (anim_thread_func sampleConfig 3 sampleLong) ∧
    (anim_thread_func sampleConfig 3 sampleLong).slept = [100, 100, 50] ∧
    Holds (anim_thread_func sampleConfig 3 sampleLong) [] := by
  obtain ⟨_, a2, _⟩ := C4_split_decomposition_wait sampleConfig sampleLong 0
    (fun _ _ => 950000000) ⟨by decide, rfl, rfl, trivial⟩ (by decide) (by decide) (by decide)
    (by decide)
  obtain ⟨b1, _, L, h1, h2, h3, _, _, h6, _⟩ := C4_split_decomposition_wait sampleConfig
    sampleLong 0 (fun _ _ => 0) ⟨by decide, rfl, rfl, trivial⟩ (by decide) (by decide)
    (by decide) (by decide)
  have e1 : L.length = 3 := h1
  rw [e1] at h2 h3 h6
  rw [h2] at h3
  exact ⟨a2 (by decide) 9 2, b1 (fun _ => by decide) 8 3, h3, h6⟩

/-! ## Producer lemmas -/

theorem enqueue_fields (f : Nat) (s : Engine) :
    (ldisplay_enqueue f s).brk = s.brk ∧
    (ldisplay_enqueue f s)._buffer = s._buffer ∧
    (ldisplay_enqueue f s)._brightness = s._brightness ∧
    (ldisplay_enqueue f s).slept = s.slept ∧
    (ldisplay_enqueue f s).updates = s.updates := by
  unfold ldisplay_enqueue
  split <;> simp

/-- Enqueue writes no field of any frame other than a `next`. -/
theorem enqueue_heap_fields (f x : Nat) (s : Engine) :
    ((ldisplay_enqueue f s).heap x).type = (s.heap x).type ∧
    ((ldisplay_enqueue f s).heap x).duration = (s.heap x).duration ∧
    ((ldisplay_enqueue f s).heap x).brightness = (s.heap x).brightness ∧
    ((ldisplay_enqueue f s).heap x).buffer = (s.heap x).buffer := by
  unfold ldisplay_enqueue
  split
  · rename_i l _
    by_cases hx : x = l
    · subst hx
      simp
    · simp [Function.update_noteq hx]
  · simp

/-- Allocating a frame with contents `fr` at `brk` and enqueueing it. -/
theorem holds_push (s t : Engine) (l : List Nat) (fr : ldisplay_frame_t)
    (h : Holds s l) (hbrk : ∀ x ∈ l, x < s.brk)
    (hq : t.animq = s.animq) (hh : t.heap = Function.update s.heap s.brk fr) :
    Holds (ldisplay_enqueue s.brk t) (l ++ [s.brk]) ∧
    ((ldisplay_enqueue s.brk t).heap s.brk).type = fr.type ∧
    ((ldisplay_enqueue s.brk t).heap s.brk).duration = fr.duration ∧
    ((ldisplay_enqueue s.brk t).heap s.brk).brightness = fr.brightness ∧
    ((ldisplay_enqueue s.brk t).heap s.brk).buffer = fr.buffer ∧
    (∀ x, x ≠ s.brk →
      ((ldisplay_enqueue s.brk t).heap x).type = (s.heap x).type ∧
      ((ldisplay_enqueue s.brk t).heap x).duration = (s.heap x).duration ∧
      ((ldisplay_enqueue s.brk t).heap x).brightness = (s.heap x).brightness ∧
      ((ldisplay_enqueue s.brk t).heap x).buffer = (s.heap x).buffer) := by
  have hb : s.brk ∉ l := fun hm => Nat.lt_irrefl _ (hbrk _ hm)
  have ht : Holds t l := holds_heap_update s t l s.brk fr hq hh hb h
  have e := enqueue_heap_fields s.brk s.brk t
  have hts : t.heap s.brk = fr := by rw [hh]; simp
  refine ⟨holds_enqueue t l s.brk ht hb, ?_, ?_, ?_, ?_, ?_⟩
  · rw [e.1, hts]
  · rw [e.2.1, hts]
  · rw [e.2.2.1, hts]
  · rw [e.2.2.2, hts]
  · intro x hx
    have e2 := enqueue_heap_fields s.brk x t
    have : t.heap x = s.heap x := by rw [hh, Function.update_noteq hx]
    rw [e2.1, e2.2.1, e2.2.2.1, e2.2.2.2, this]
    exact ⟨rfl, rfl, rfl, rfl⟩

/-- What `ldisplay_set` leaves behind. -/
theorem ldisplay_set_spec (s : Engine) (l : List Nat) (d b : Nat) (p : ldisplay_buffer_t)
    (h : Holds s l) (hbrk : ∀ x ∈ l, x < s.brk) :
    Holds (ldisplay_set d p b s) (l ++ [s.brk]) ∧
    (ldisplay_set d p b s).brk = s.brk + 1 ∧
    ((ldisplay_set d p b s).heap s.brk).type = FrameType.LDISPLAY_SET ∧
    ((ldisplay_set d p b s).heap s.brk).duration = d ∧
    ((ldisplay_set d p b s).heap s.brk).brightness = b ∧
    ((ldisplay_set d p b s).heap s.brk).buffer = p ∧
    (∀ x, x ≠ s.brk →
      ((ldisplay_set d p b s).heap x).type = (s.heap x).type ∧
      ((ldisplay_set d p b s).heap x).duration = (s.heap x).duration ∧
      ((ldisplay_set d p b s).heap x).brightness = (s.heap x).brightness ∧
      ((ldisplay_set d p b s).heap x).buffer = (s.heap x).buffer) ∧
    (ldisplay_set d p b s)._buffer = s._buffer ∧
    (ldisplay_set d p b s)._brightness = s._brightness ∧
    (ldisplay_set d p b s).slept = s.slept ∧
    (ldisplay_set d p b s).updates = s.updates := by
  let t : Engine :=
    { s with
      heap := Function.update s.heap s.brk
        { type := FrameType.LDISPLAY_SET, duration := d, brightness := b, buffer := p,
          next := none }
      brk := s.brk + 1 }
  have ht : ldisplay_set d p b s = ldisplay_enqueue s.brk t := by
    unfold ldisplay_set _ldisplay_make_frame
    simp [t]
  have hp := holds_push s t l _ h hbrk rfl rfl
  have ef := enqueue_fields s.brk t
  rw [ht]
  exact ⟨hp.1, ef.1, hp.2.1, hp.2.2.1, hp.2.2.2.1, hp.2.2.2.2.1, hp.2.2.2.2.2,
    ef.2.1, ef.2.2.1, ef.2.2.2.1, ef.2.2.2.2⟩

/-- What `ldisplay_reset` leaves behind. -/
theorem ldisplay_reset_spec (cfg : Config) (s : Engine) (l : List Nat) (d : Nat)
    (h : Holds s l) (hbrk : ∀ x ∈ l, x < s.brk) :
    Holds (ldisplay_reset cfg d s) (l ++ [s.brk]) ∧
    (ldisplay_reset cfg d s).brk = s.brk + 1 ∧
    ((ldisplay_reset cfg d s).heap s.brk).type = FrameType.LDISPLAY_CLEAR ∧
    ((ldisplay_reset cfg d s).heap s.brk).duration = d ∧
    ((ldisplay_reset cfg d s).heap s.brk).brightness = cfg.LDISPLAY_NOCHANGE ∧
    (∀ x, x ≠ s.brk →
      ((ldisplay_reset cfg d s).heap x).type = (s.heap x).type ∧
      ((ldisplay_reset cfg d s).heap x).duration = (s.heap x).duration ∧
      ((ldisplay_reset cfg d s).heap x).brightness = (s.heap x).brightness ∧
      ((ldisplay_reset cfg d s).heap x).buffer = (s.heap x).buffer) ∧
    (ldisplay_reset cfg d s)._buffer = s._buffer ∧
    (ldisplay_reset cfg d s)._brightness = s._brightness ∧
    (ldisplay_reset cfg d s).slept = s.slept ∧
    (ldisplay_reset cfg d s).updates = s.updates := by
  let t : Engine :=
    { s with
      heap := Function.update s.heap s.brk
        { type := FrameType.LDISPLAY_CLEAR, duration := d,
          brightness := cfg.LDISPLAY_NOCHANGE, buffer := fun _ => 0, next := none }
      brk := s.brk + 1 }
  have ht : ldisplay_reset cfg d s = ldisplay_enqueue s.brk t := rfl
  have hp := holds_push s t l _ h hbrk rfl rfl
  have ef := enqueue_fields s.brk t
  rw [ht]
  exact ⟨hp.1, ef.1, hp.2.1, hp.2.2.1, hp.2.2.2.1, hp.2.2.2.2.2,
    ef.2.1, ef.2.2.1, ef.2.2.2.1, ef.2.2.2.2⟩

/-! ## C5: dispatch semantics -/

/-- C5 (as amended).  `_anim_frame_dispatch` yields: for SET, the buffer is the
frame payload; for CLEAR, every row is 0; for INVERT, every row is xor-ed with
`0xffffffff`, i.e. each of its 32 bits is complemented; in these three cases the
brightness is unchanged when the frame carries NO_CHANGE, becomes BRIGHT when
the frame's brightness exceeds BRIGHT, and becomes the frame's brightness
otherwise; for NOOP, LOOP, BREAK_IF_LAST and any other kind value the state is
returned as it was, whatever the frame's brightness field. -/
theorem C5_dispatch_semantics (cfg : Config) (s : Engine) (d b : Nat)
    (p : ldisplay_buffer_t) (nx : Ptr) :
    (_anim_frame_dispatch cfg ⟨FrameType.LDISPLAY_SET, d, b, p, nx⟩ s)._buffer = p ∧
    (∀ i, (_anim_frame_dispatch cfg ⟨FrameType.LDISPLAY_CLEAR, d, b, p, nx⟩ s)._buffer i = 0) ∧
    (∀ i, (_anim_frame_dispatch cfg ⟨FrameType.LDISPLAY_INVERT, d, b, p, nx⟩ s)._buffer i
      = s._buffer i ^^^ 0xffffffff) ∧
    (∀ (i : Fin 7) (k : Fin 32),
      ((_anim_frame_dispatch cfg ⟨FrameType.LDISPLAY_INVERT, d, b, p, nx⟩ s)._buffer i).testBit k
        = !(s._buffer i).testBit k) ∧
    (_anim_frame_dispatch cfg ⟨FrameType.LDISPLAY_SET, d, b, p, nx⟩ s)._brightness
      = (if b = cfg.LDISPLAY_NOCHANGE then s._brightness
         else if b > cfg.LDISPLAY_BRIGHT then cfg.LDISPLAY_BRIGHT else b) ∧
    (_anim_frame_dispatch cfg ⟨FrameType.LDISPLAY_CLEAR, d, b, p, nx⟩ s)._brightness
      = (if b = cfg.LDISPLAY_NOCHANGE then s._brightness
         else if b > cfg.LDISPLAY_BRIGHT then cfg.LDISPLAY_BRIGHT else b) ∧
    (_anim_frame_dispatch cfg ⟨FrameType.LDISPLAY_INVERT, d, b, p, nx⟩ s)._brightness
      = (if b = cfg.LDISPLAY_NOCHANGE then s._brightness
         else if b > cfg.LDISPLAY_BRIGHT then cfg.LDISPLAY_BRIGHT else b) ∧
    _anim_frame_dispatch cfg ⟨FrameType.LDISPLAY_NOOP, d, b, p, nx⟩ s = s ∧
    _anim_frame_dispatch cfg ⟨FrameType.LDISPLAY_LOOP, d, b, p, nx⟩ s = s ∧
    _anim_frame_dispatch cfg ⟨FrameType.LDISPLAY_BRK_IF_LAST, d, b, p, nx⟩ s = s ∧
    (∀ v, _anim_frame_dispatch cfg ⟨FrameType.other v, d, b, p, nx⟩ s = s) := by
  have hs := dispatch_set cfg ⟨FrameType.LDISPLAY_SET, d, b, p, nx⟩ s rfl
  have hc := dispatch_clear cfg ⟨FrameType.LDISPLAY_CLEAR, d, b, p, nx⟩ s rfl
  have hi := dispatch_invert cfg ⟨FrameType.LDISPLAY_INVERT, d, b, p, nx⟩ s rfl
  have hv := setBrightness_value cfg b s
  refine ⟨hs.1, ?_, ?_, ?_, ?_, ?_, ?_, rfl, rfl, rfl, fun _ => rfl⟩
  · intro i
    rw [hc.1]
  · intro i
    rw [hi.1]
  · intro i k
    rw [hi.1]
    have hk : (0xffffffff : Nat).testBit k = true := by
      have := Nat.testBit_two_pow_sub_one 32 k
      simpa using this
    simp [Nat.testBit_xor, hk]
  · rw [hs.2]; exact hv
  · rw [hc.2]; exact hv
  · rw [hi.2]; exact hv

/-- C5 (as stated) fails.  With the sample header values a SET frame of
brightness 3 leaves the stored brightness at 2 (BRIGHT), not 3.  And whatever
byte values the header gives the brightness constants, as long as two byte
values lie above BRIGHT, some SET frame carries a brightness other than
NO_CHANGE that does not become the stored brightness: `BRIGHT + 1`, or
`BRIGHT + 2` when `BRIGHT + 1` is NO_CHANGE. -/
theorem C5_brightness_not_always_copied :
    (_anim_frame_dispatch sampleConfig ⟨FrameType.LDISPLAY_SET, 50, 3, fun _ => 0, none⟩
        (startEngine 0))._brightness = 2 ∧
    ¬ ∃ cfg : Config, cfg.LDISPLAY_BRIGHT + 2 < 256 ∧
      ∀ (s : Engine) (b : Nat), b < 256 →
        (_anim_frame_dispatch cfg ⟨FrameType.LDISPLAY_SET, 50, b, fun _ => 0, none⟩ s)._brightness
          = if b = cfg.LDISPLAY_NOCHANGE then s._brightness else b := by
  refine ⟨by decide, ?_⟩
  rintro ⟨cfg, hB, h⟩
  have key : ∀ b, b < 256 → b ≠ cfg.LDISPLAY_NOCHANGE → cfg.LDISPLAY_BRIGHT < b → False := by
    intro b hb hne hgt
    have h1 := h (startEngine 0) b hb
    rw [(dispatch_set cfg ⟨FrameType.LDISPLAY_SET, 50, b, fun _ => 0, none⟩
      (startEngine 0) rfl).2, setBrightness_value] at h1
    simp only [if_neg hne, if_pos hgt] at h1
    omega
  by_cases e : cfg.LDISPLAY_NOCHANGE = cfg.LDISPLAY_BRIGHT + 1
  · exact key (cfg.LDISPLAY_BRIGHT + 2) hB (by omega) (by omega)
  · exact key (cfg.LDISPLAY_BRIGHT + 1) (by omega) (fun h2 => e h2.symm) (by omega)

/-! ## C6: brightness carry-over, end to end -/

/-- The brightness carry-over over passes whose timed waits return.  From an
empty queue and any display state, after `ldisplay_set(50, A, DIM)` and
`ldisplay_reset(50)` with `50 ≤ MAX_FRAME_LENGTH_MS`, two such passes call the
encoder exactly twice, first on `(A, DIM)` and then on `(all zero, DIM)`; the
CLEAR frame built by `ldisplay_reset` carries NO_CHANGE and the queue is empty
afterwards; both passes ask the timed wait for 50 ms. -/
theorem carry_over_ended (cfg : Config) (s : Engine) (A : ldisplay_buffer_t)
    (hempty : s.animq.first = none ∧ s.animq.last = none)
    (h50 : 50 ≤ cfg.MAX_FRAME_LENGTH_MS)
    (hne : cfg.LDISPLAY_DIM ≠ cfg.LDISPLAY_NOCHANGE)
    (hle : cfg.LDISPLAY_DIM ≤ cfg.LDISPLAY_BRIGHT) :
    (anim_thread_func cfg 2
        (ldisplay_reset cfg 50 (ldisplay_set 50 A cfg.LDISPLAY_DIM s))).updates
      = s.updates ++ [(A, cfg.LDISPLAY_DIM), (fun _ => 0, cfg.LDISPLAY_DIM)] ∧
    ((ldisplay_reset cfg 50 (ldisplay_set 50 A cfg.LDISPLAY_DIM s)).heap (s.brk + 1)).type
      = FrameType.LDISPLAY_CLEAR ∧
    ((ldisplay_reset cfg 50 (ldisplay_set 50 A cfg.LDISPLAY_DIM s)).heap (s.brk + 1)).brightness
      = cfg.LDISPLAY_NOCHANGE ∧
    Holds (anim_thread_func cfg 2
        (ldisplay_reset cfg 50 (ldisplay_set 50 A cfg.LDISPLAY_DIM s))) [] ∧
    paced_duration cfg (ldisplay_reset cfg 50 (ldisplay_set 50 A cfg.LDISPLAY_DIM s)) = 50 ∧
    paced_duration cfg
      (anim_thread_iter cfg (ldisplay_reset cfg 50 (ldisplay_set 50 A cfg.LDISPLAY_DIM s)))
      = 50 := by
  have h0 : Holds s [] := (holds_nil_iff s).mpr hempty
  obtain ⟨a1, a2, a3, a4, a5, a6, _, _, _, _, a11⟩ :=
    ldisplay_set_spec s [] 50 cfg.LDISPLAY_DIM A h0 (by simp)
  simp only [List.nil_append] at a1
  obtain ⟨b1, _, b3, b4, b5, b6, _, _, _, b10⟩ :=
    ldisplay_reset_spec cfg (ldisplay_set 50 A cfg.LDISPLAY_DIM s) [s.brk] 50 a1
      (by intro x hx; rw [a2]; simp at hx; omega)
  rw [a2] at b1 b3 b4 b5 b6
  simp only [List.singleton_append] at b1
  obtain ⟨c1, c2, c3, c4⟩ := b6 s.brk (by omega)
  rw [a3] at c1
  rw [a4] at c2
  rw [a5] at c3
  rw [a6] at c4
  -- first pass: the SET frame
  obtain ⟨p1, _, p3, p4, p5, p6, p7⟩ :=
    iter_short cfg _ s.brk [s.brk + 1] b1 (by rw [c2]; exact h50)
  rw [c2] at p4
  have q1 := dispatch_set cfg _ (ldisplay_reset cfg 50 (ldisplay_set 50 A cfg.LDISPLAY_DIM s)) c1
  rw [q1.1, c4] at p5
  rw [q1.2, setBrightness_value, c3, if_neg hne, if_neg (Nat.not_lt.mpr hle)] at p6
  rw [p5, p6, b10, a11] at p7
  -- second pass: the CLEAR frame
  obtain ⟨r1, _, _, r4, r5, r6, r7⟩ :=
    iter_short cfg _ (s.brk + 1) [] p1 (by rw [p3, b4]; exact h50)
  rw [p3, b4] at r4
  have q2 := dispatch_clear cfg
    ((anim_thread_iter cfg (ldisplay_reset cfg 50 (ldisplay_set 50 A cfg.LDISPLAY_DIM s))).heap
      (s.brk + 1))
    (anim_thread_iter cfg (ldisplay_reset cfg 50 (ldisplay_set 50 A cfg.LDISPLAY_DIM s)))
    (by rw [p3]; exact b3)
  rw [q2.1] at r5
  rw [q2.2, setBrightness_value, p3, b5, if_pos rfl, p6] at r6
  rw [r5, r6, p7] at r7
  refine ⟨?_, b3, b5, r1, paced_of_slept cfg _ 50 p4, paced_of_slept cfg _ 50 r4⟩
  show (anim_thread_iter cfg (anim_thread_iter cfg _)).updates = _
  rw [r7]
  simp

/-- C6 (what the code does).  Start from an empty queue and any display state,
call `ldisplay_set(50, A, DIM)` and `ldisplay_reset(50)` with
`50 ≤ MAX_FRAME_LENGTH_MS`.  If in both passes the `tv_nsec` read by
`clock_gettime` plus `50 * 10^6` stays below `10^9`, the two passes end and the
encoder is invoked exactly twice, first on `(A, DIM)` and then on
`(all zero, DIM)`, the CLEAR frame carrying NO_CHANGE.  If in the first pass
the sum reaches `10^9` (`tv_nsec ≥ 950000000`), the wait loop of lines 200-210
is never left: no pass ends and the encoder is not invoked at all. -/
theorem C6_brightness_carry_over_wait (cfg : Config) (s : Engine) (A : ldisplay_buffer_t)
    (clock : Nat → Nat → Nat)
    (hempty : s.animq.first = none ∧ s.animq.last = none)
    (h50 : 50 ≤ cfg.MAX_FRAME_LENGTH_MS)
    (hne : cfg.LDISPLAY_DIM ≠ cfg.LDISPLAY_NOCHANGE)
    (hle : cfg.LDISPLAY_DIM ≤ cfg.LDISPLAY_BRIGHT) :
    (clock 0 0 + 50 * 1000000 < 1000000000 → clock 1 0 + 50 * 1000000 < 1000000000 →
      ∀ fuel, anim_thread_passes cfg clock (fuel + 1) 2 0
          (ldisplay_reset cfg 50 (ldisplay_set 50 A cfg.LDISPLAY_DIM s))
        = some (anim_thread_func cfg 2
            (ldisplay_reset cfg 50 (ldisplay_set 50 A cfg.LDISPLAY_DIM s)))) ∧
    (1000000000 ≤ clock 0 0 + 50 * 1000000 →
      ∀ fuel n, anim_thread_passes cfg clock fuel (n + 1) 0
          (ldisplay_reset cfg 50 (ldisplay_set 50 A cfg.LDISPLAY_DIM s)) = none) ∧
    (anim_thread_func cfg 2
        (ldisplay_reset cfg 50 (ldisplay_set 50 A cfg.LDISPLAY_DIM s))).updates
      = s.updates ++ [(A, cfg.LDISPLAY_DIM), (fun _ => 0, cfg.LDISPLAY_DIM)] ∧
    ((ldisplay_reset cfg 50 (ldisplay_set 50 A cfg.LDISPLAY_DIM s)).heap (s.brk + 1)).type
      = FrameType.LDISPLAY_CLEAR ∧
    ((ldisplay_reset cfg 50 (ldisplay_set 50 A cfg.LDISPLAY_DIM s)).heap (s.brk + 1)).brightness
      = cfg.LDISPLAY_NOCHANGE ∧
    Holds (anim_thread_func cfg 2
        (ldisplay_reset cfg 50 (ldisplay_set 50 A cfg.LDISPLAY_DIM s))) [] := by
  obtain ⟨e1, e2, e3, e4, e5, e6⟩ := carry_over_ended cfg s A hempty h50 hne hle
  refine ⟨?_, ?_, e1, e2, e3, e4⟩
  · intro hc0 hc1 fuel
    rw [anim_thread_passes, pass_returns cfg (clock 0) fuel _ (by rw [e5]; exact hc0)]
    show anim_thread_passes cfg clock (fuel + 1) 1 1 _ = _
    rw [anim_thread_passes, pass_returns cfg (clock 1) fuel _ (by rw [e6]; exact hc1)]
    rfl
  · intro hc fuel n
    exact passes_hang cfg clock fuel n 0 _ (by rw [e5]; exact hc)

/-- An instance of C6 with the sample header values, a blank start state and a
payload with 5 in every row.  With `tv_nsec = 0` in both passes the encoder
sees `(5.., 0)` and `(0.., 0)`; with `tv_nsec = 950000000` in the first pass no
pass ends. -/
theorem C6_brightness_carry_over_wait_witness :
    anim_thread_passes sampleConfig (fun _ _ => 950000000) 9 2 0
        (ldisplay_reset sampleConfig 50 (ldisplay_set 50 (fun _ => 5) 0 (startEngine 2)))
      = none ∧
    anim_thread_passes sampleConfig (fun _ _ => 0) 9 2 0
        (ldisplay_reset sampleConfig 50 (ldisplay_set 50 (fun _ => 5) 0 (startEngine 2)))
      = some (anim_thread_func sampleConfig 2
          (ldisplay_reset sampleConfig 50 (ldisplay_set 50 (fun _ => 5) 0 (startEngine 2)))) ∧
    (anim_thread_func sampleConfig 2
        (ldisplay_reset sampleConfig 50 (ldisplay_set 50 (fun _ => 5) 0 (startEngine 2)))).updates
      = [(fun _ => 5, 0), (fun _ => 0, 0)] := by
  obtain ⟨_, a2, _⟩ := C6_brightness_carry_over_wait sampleConfig (startEngine 2) (fun _ => 5)
    (fun _ _ => 950000000) ⟨rfl, rfl⟩ (by decide) (by decide) (by decide)
  obtain ⟨b1, _, b3, _⟩ := C6_brightness_carry_over_wait sampleConfig (startEngine 2)
    (fun _ => 5) (fun _ _ => 0) ⟨rfl, rfl⟩ (by decide) (by decide) (by decide)
  exact ⟨a2 (by decide) 9 1, b1 (by decide) (by decide) 8, b3⟩

/-! ## Encoder lemmas -/

theorem not32_mod (x : Nat) : not32 x % 256 = inv8 x := by
  unfold not32 inv8
  apply Nat.eq_of_testBit_eq
  intro i
  have h : x % 256 < 2 ^ 8 := Nat.mod_lt _ (by decide)
  have e : 255 - x % 256 = 2 ^ 8 - (x % 256 + 1) := by omega
  have e2 : (256 : Nat) = 2 ^ 8 := rfl
  have e3 : (0xffffffff : Nat) = 2 ^ 32 - 1 := rfl
  rw [e, Nat.testBit_two_pow_sub_succ h, e2, Nat.testBit_mod_two_pow, Nat.testBit_mod_two_pow,
    Nat.testBit_xor, e3, Nat.testBit_two_pow_sub_one]
  by_cases h8 : i < 8
  · have : i < 32 := by omega
    simp [h8, this]
  · simp [h8]

/-- The masks applied before the shifts do not reach the low 8 bits. -/
theorem mask_shift_mod (x : Nat) :
    ((x &&& 0x00ffffff) >>> 0x0d) % 256 = (x >>> 13) % 256 ∧
    ((x &&& 0x0000ffff) >>> 0x05) % 256 = (x >>> 5) % 256 ∧
    ((x &&& 0x000000ff) <<< 0x03) % 256 = (x <<< 3) % 256 := by
  have e2 : (256 : Nat) = 2 ^ 8 := rfl
  have m24 : (0x00ffffff : Nat) = 2 ^ 24 - 1 := rfl
  have m16 : (0x0000ffff : Nat) = 2 ^ 16 - 1 := rfl
  have m8 : (0x000000ff : Nat) = 2 ^ 8 - 1 := rfl
  refine ⟨?_, ?_, ?_⟩
  · apply Nat.eq_of_testBit_eq
    intro i
    rw [e2, Nat.testBit_mod_two_pow, Nat.testBit_mod_two_pow, Nat.testBit_shiftRight,
      Nat.testBit_shiftRight, Nat.testBit_and, m24, Nat.testBit_two_pow_sub_one]
    by_cases h8 : i < 8
    · have : 13 + i < 24 := by omega
      simp [h8, this]
    · simp [h8]
  · apply Nat.eq_of_testBit_eq
    intro i
    rw [e2, Nat.testBit_mod_two_pow, Nat.testBit_mod_two_pow, Nat.testBit_shiftRight,
      Nat.testBit_shiftRight, Nat.testBit_and, m16, Nat.testBit_two_pow_sub_one]
    by_cases h8 : i < 8
    · have : 5 + i < 16 := by omega
      simp [h8, this]
    · simp [h8]
  · apply Nat.eq_of_testBit_eq
    intro i
    rw [e2, Nat.testBit_mod_two_pow, Nat.testBit_mod_two_pow, Nat.testBit_shiftLeft,
      Nat.testBit_shiftLeft, Nat.testBit_and, m8, Nat.testBit_two_pow_sub_one]
    by_cases h8 : i < 8
    · by_cases h3 : 3 ≤ i
      · have : i - 3 < 8 := by omega
        simp [h8, h3, this]
      · simp [h8, h3]
    · simp [h8]

theorem inv8_congr (x y : Nat) (h : x % 256 = y % 256) : inv8 x = inv8 y := by
  unfold inv8
  rw [h]

/-- The three fields of a row, before the bit reversal. -/
theorem field_values (x : Nat) :
    not32 ((x &&& 0x00ffffff) >>> 0x0d) % 256 = inv8 (x >>> 13) ∧
    not32 ((x &&& 0x0000ffff) >>> 0x05) % 256 = inv8 (x >>> 5) ∧
    not32 ((x &&& 0x000000ff) <<< 0x03) % 256 = inv8 (x <<< 3) := by
  have m := mask_shift_mod x
  exact ⟨by rw [not32_mod]; exact inv8_congr _ _ m.1,
    by rw [not32_mod]; exact inv8_congr _ _ m.2.1,
    by rw [not32_mod]; exact inv8_congr _ _ m.2.2⟩

/-- The lines 292-303 on an explicit array. -/
theorem hw_fields_eq (b : ldisplay_buffer_t) (a0 a1 a2 a3 a4 a5 a6 a7 : Nat) :
    hw_fields b [a0, a1, a2, a3, a4, a5, a6, a7] =
      if a1 < 6 then
        [a0, a1, not32 ((row b a1 &&& 0x000000ff) <<< 0x03) % 256,
          not32 ((row b a1 &&& 0x0000ffff) >>> 0x05) % 256,
          not32 ((row b a1 &&& 0x00ffffff) >>> 0x0d) % 256,
          (not32 ((row b (a1 + 1) &&& 0x000000ff) <<< 0x03) ||| 0x07) % 256,
          not32 ((row b (a1 + 1) &&& 0x0000ffff) >>> 0x05) % 256,
          not32 ((row b (a1 + 1) &&& 0x00ffffff) >>> 0x0d) % 256]
      else
        [a0, a1, not32 ((row b a1 &&& 0x000000ff) <<< 0x03) % 256,
          not32 ((row b a1 &&& 0x0000ffff) >>> 0x05) % 256,
          not32 ((row b a1 &&& 0x00ffffff) >>> 0x0d) % 256, 0, 0, 0] := by
  have e : [a0, a1, a2, a3, a4, a5, a6, a7].getD 1 0 = a1 := rfl
  unfold hw_fields
  rw [e]
  by_cases h : a1 < 6
  · rw [if_pos h, if_pos h]
    rfl
  · rw [if_neg h, if_neg h]
    rfl

/-- The lines 304-306 on an explicit array. -/
theorem hw_swap_eq (a0 a1 a2 a3 a4 a5 a6 a7 : Nat) :
    hw_swap [a0, a1, a2, a3, a4, a5, a6, a7] =
      [a0, a1, _swapbits a2 % 256, _swapbits a3 % 256, _swapbits a4 % 256,
        _swapbits a5 % 256, _swapbits a6 % 256, _swapbits a7 % 256] := rfl

set_option maxRecDepth 1000000 in
/-- The function `_swapbits` on a byte: the result is a byte with the bit order
reversed. -/
theorem swapbits_byte :
    ∀ b : Fin 256, _swapbits b < 256 ∧
      ∀ k : Fin 8, (_swapbits b).testBit k = (b : Nat).testBit (7 - k) := by
  decide

theorem hw_message_shape (b : ldisplay_buffer_t) (a0 r : Nat) :
    ∃ y2 y3 y4 y5 y6 y7, hw_message b a0 r = [a0, r, y2, y3, y4, y5, y6, y7] := by
  unfold hw_message hw_prefields
  rw [hw_fields_eq]
  split <;> rw [hw_swap_eq] <;> exact ⟨_, _, _, _, _, _, rfl⟩

/-- The message built in a pass depends on `msg[0]` and `msg[1]` only: the
other six bytes are overwritten. -/
theorem hw_fields_indep (b : ldisplay_buffer_t) (a0 r a2 a3 a4 a5 a6 a7 : Nat) :
    hw_swap (hw_fields b [a0, r, a2, a3, a4, a5, a6, a7]) = hw_message b a0 r := by
  unfold hw_message hw_prefields
  rw [hw_fields_eq, hw_fields_eq]

/-- One pass of the `for` loop. -/
theorem hw_loop_step (send : List Nat → Int) (success : Int) (b : ldisplay_buffer_t)
    (fuel a0 r a2 a3 a4 a5 a6 a7 : Nat) (sent : List (List Nat)) (hr : r < 7) :
    hw_loop send success b (fuel + 1) [a0, r, a2, a3, a4, a5, a6, a7] sent =
      if send (hw_message b a0 r) < 0 then
        (sent ++ [hw_message b a0 r], send (hw_message b a0 r))
      else
        hw_loop send success b fuel ((hw_message b a0 r).set 1 ((r + 2) % 256))
          (sent ++ [hw_message b a0 r]) := by
  have e : [a0, r, a2, a3, a4, a5, a6, a7].getD 1 0 = r := rfl
  obtain ⟨y2, y3, y4, y5, y6, y7, hy⟩ := hw_message_shape b a0 r
  have e2 : (hw_message b a0 r).getD 1 0 = r := by rw [hy]; rfl
  rw [hw_loop]
  simp only [e, if_pos hr, hw_fields_indep, e2]

/-- The loop of `_ldisplay_update_hw` written out: four sends at most, for the
row indices 0, 2, 4, 6, stopping at the first negative result. -/
theorem update_hw_eq (cfg : Config) (send : List Nat → Int) (s : Engine) :
    _ldisplay_update_hw cfg send s =
      if send (hw_message s._buffer s._brightness 0) < 0 then
        ([hw_message s._buffer s._brightness 0], send (hw_message s._buffer s._brightness 0))
      else if send (hw_message s._buffer s._brightness 2) < 0 then
        ([hw_message s._buffer s._brightness 0, hw_message s._buffer s._brightness 2],
          send (hw_message s._buffer s._brightness 2))
      else if send (hw_message s._buffer s._brightness 4) < 0 then
        ([hw_message s._buffer s._brightness 0, hw_message s._buffer s._brightness 2,
            hw_message s._buffer s._brightness 4],
          send (hw_message s._buffer s._brightness 4))
      else if send (hw_message s._buffer s._brightness 6) < 0 then
        ([hw_message s._buffer s._brightness 0, hw_message s._buffer s._brightness 2,
            hw_message s._buffer s._brightness 4, hw_message s._buffer s._brightness 6],
          send (hw_message s._buffer s._brightness 6))
      else
        ([hw_message s._buffer s._brightness 0, hw_message s._buffer s._brightness 2,
            hw_message s._buffer s._brightness 4, hw_message s._buffer s._brightness 6],
          cfg.SUCCESS) := by
  obtain ⟨_, _, _, _, _, _, h0⟩ := hw_message_shape s._buffer s._brightness 0
  obtain ⟨_, _, _, _, _, _, h2⟩ := hw_message_shape s._buffer s._brightness 2
  obtain ⟨_, _, _, _, _, _, h4⟩ := hw_message_shape s._buffer s._brightness 4
  obtain ⟨_, _, _, _, _, _, h6⟩ := hw_message_shape s._buffer s._brightness 6
  unfold _ldisplay_update_hw
  rw [hw_loop_step send cfg.SUCCESS s._buffer 4 s._brightness 0 0 0 0 0 0 0 [] (by decide)]
  by_cases c0 : send (hw_message s._buffer s._brightness 0) < 0
  · rw [if_pos c0, if_pos c0]
    rfl
  rw [if_neg c0, if_neg c0]
  conv_lhs => rw [h0]
  simp only [List.set, List.nil_append]
  rw [hw_loop_step send cfg.SUCCESS s._buffer 3 s._brightness 2 _ _ _ _ _ _ _ (by decide), ← h0]
  by_cases c2 : send (hw_message s._buffer s._brightness 2) < 0
  · rw [if_pos c2, if_pos c2]
    rfl
  rw [if_neg c2, if_neg c2]
  conv_lhs => rw [h2]
  simp only [List.set, List.singleton_append]
  rw [hw_loop_step send cfg.SUCCESS s._buffer 2 s._brightness 4 _ _ _ _ _ _ _ (by decide), ← h2]
  by_cases c4 : send (hw_message s._buffer s._brightness 4) < 0
  · rw [if_pos c4, if_pos c4]
    rfl
  rw [if_neg c4, if_neg c4]
  conv_lhs => rw [h4]
  simp only [List.set, List.cons_append, List.nil_append]
  rw [hw_loop_step send cfg.SUCCESS s._buffer 1 s._brightness 6 _ _ _ _ _ _ _ (by decide), ← h4]
  by_cases c6 : send (hw_message s._buffer s._brightness 6) < 0
  · rw [if_pos c6, if_pos c6]
    rfl
  rw [if_neg c6, if_neg c6, h6]
  rfl

theorem or7_mod (x : Nat) : (x ||| 0x07) % 256 = (x % 256) ||| 0x07 := by
  have e2 : (256 : Nat) = 2 ^ 8 := rfl
  have e7 : (0x07 : Nat) = 2 ^ 3 - 1 := rfl
  apply Nat.eq_of_testBit_eq
  intro i
  rw [e2, Nat.testBit_mod_two_pow, Nat.testBit_or, Nat.testBit_or, Nat.testBit_mod_two_pow, e7,
    Nat.testBit_two_pow_sub_one]
  by_cases h8 : i < 8
  · simp [h8]
  · have : ¬ i < 3 := by omega
    simp [h8, this]

/-- The array before the bit reversal, for the row pairs that have a second
row. -/
theorem hw_prefields_pair (b : ldisplay_buffer_t) (br r : Nat) (hr : r < 6) :
    hw_prefields b br r =
      [br, r, inv8 (row b r <<< 3), inv8 (row b r >>> 5), inv8 (row b r >>> 13),
        inv8 (row b (r + 1) <<< 3) ||| 0x07, inv8 (row b (r + 1) >>> 5),
        inv8 (row b (r + 1) >>> 13)] := by
  have f1 := field_values (row b r)
  have f2 := field_values (row b (r + 1))
  unfold hw_prefields
  rw [hw_fields_eq, if_pos hr, or7_mod, f1.1, f1.2.1, f1.2.2, f2.1, f2.2.1, f2.2.2]

/-- The array before the bit reversal, for the unpaired last row. -/
theorem hw_prefields_last (b : ldisplay_buffer_t) (br r : Nat) (hr : ¬ r < 6) :
    hw_prefields b br r =
      [br, r, inv8 (row b r <<< 3), inv8 (row b r >>> 5), inv8 (row b r >>> 13), 0, 0, 0] := by
  have f1 := field_values (row b r)
  unfold hw_prefields
  rw [hw_fields_eq, if_neg hr, f1.1, f1.2.1, f1.2.2]

theorem update_hw_all_ok (cfg : Config) (send : List Nat → Int) (s : Engine)
    (h0 : 0 ≤ send (hw_message s._buffer s._brightness 0))
    (h2 : 0 ≤ send (hw_message s._buffer s._brightness 2))
    (h4 : 0 ≤ send (hw_message s._buffer s._brightness 4)) :
    (_ldisplay_update_hw cfg send s).1 =
      [hw_message s._buffer s._brightness 0, hw_message s._buffer s._brightness 2,
        hw_message s._buffer s._brightness 4, hw_message s._buffer s._brightness 6] ∧
    (0 ≤ send (hw_message s._buffer s._brightness 6) →
      (_ldisplay_update_hw cfg send s).2 = cfg.SUCCESS) := by
  rw [update_hw_eq, if_neg (not_lt.mpr h0), if_neg (not_lt.mpr h2), if_neg (not_lt.mpr h4)]
  by_cases c6 : send (hw_message s._buffer s._brightness 6) < 0
  · rw [if_pos c6]
    exact ⟨rfl, fun h => absurd c6 (not_lt.mpr h)⟩
  · rw [if_neg c6]
    exact ⟨rfl, fun _ => rfl⟩

/-! ## C7: the byte layout of the encoder -/

/-- C7 (as amended).  When every send succeeds `_ldisplay_update_hw` emits one
8-byte message per row pair (0,1), (2,3), (4,5), (6,absent) and returns SUCCESS;
each message is the bit reversal (bytes 2-7) of an array
`[brightness, rowIndex, ...]` in which the bytes at the indices 2, 3, 4 are the
bit-inverted low 8 bits of the first row shifted left by 3, right by 5 and
right by 13 respectively, and the bytes at the indices 5, 6, 7 are the same
three fields of the second row in the same order with `0x07` or-ed into the
first of them - or three zero bytes when there is no second row. -/
theorem C7_encoder_layout (cfg : Config) (send : List Nat → Int) (s : Engine)
    (hok : ∀ m, 0 ≤ send m) :
    _ldisplay_update_hw cfg send s =
      ([hw_swap (hw_prefields s._buffer s._brightness 0),
        hw_swap (hw_prefields s._buffer s._brightness 2),
        hw_swap (hw_prefields s._buffer s._brightness 4),
        hw_swap (hw_prefields s._buffer s._brightness 6)], cfg.SUCCESS) ∧
    hw_prefields s._buffer s._brightness 0 =
      [s._brightness, 0,
        inv8 (s._buffer 0 <<< 3), inv8 (s._buffer 0 >>> 5), inv8 (s._buffer 0 >>> 13),
        inv8 (s._buffer 1 <<< 3) ||| 0x07, inv8 (s._buffer 1 >>> 5),
        inv8 (s._buffer 1 >>> 13)] ∧
    hw_prefields s._buffer s._brightness 2 =
      [s._brightness, 2,
        inv8 (s._buffer 2 <<< 3), inv8 (s._buffer 2 >>> 5), inv8 (s._buffer 2 >>> 13),
        inv8 (s._buffer 3 <<< 3) ||| 0x07, inv8 (s._buffer 3 >>> 5),
        inv8 (s._buffer 3 >>> 13)] ∧
    hw_prefields s._buffer s._brightness 4 =
      [s._brightness, 4,
        inv8 (s._buffer 4 <<< 3), inv8 (s._buffer 4 >>> 5), inv8 (s._buffer 4 >>> 13),
        inv8 (s._buffer 5 <<< 3) ||| 0x07, inv8 (s._buffer 5 >>> 5),
        inv8 (s._buffer 5 >>> 13)] ∧
    hw_prefields s._buffer s._brightness 6 =
      [s._brightness, 6,
        inv8 (s._buffer 6 <<< 3), inv8 (s._buffer 6 >>> 5), inv8 (s._buffer 6 >>> 13),
        0, 0, 0] := by
  have h := update_hw_all_ok cfg send s (hok _) (hok _) (hok _)
  refine ⟨Prod.ext h.1 (h.2 (hok _)), ?_, ?_, ?_, ?_⟩
  · exact hw_prefields_pair s._buffer s._brightness 0 (by decide)
  · exact hw_prefields_pair s._buffer s._brightness 2 (by decide)
  · exact hw_prefields_pair s._buffer s._brightness 4 (by decide)
  · exact hw_prefields_last s._buffer s._brightness 6 (by decide)

/-- An instance of C7: rows 0-5 blank, row 6 equal to `0x1`, brightness 2, a
transport that always answers 0. -/
theorem C7_encoder_layout_witness :
    _ldisplay_update_hw sampleConfig (fun _ => 0) (sampleRow6 2) =
      ([[2, 0, 255, 255, 255, 255, 255, 255], [2, 2, 255, 255, 255, 255, 255, 255],
        [2, 4, 255, 255, 255, 255, 255, 255], [2, 6, 239, 255, 255, 0, 0, 0]], 0) ∧
    hw_prefields (sampleRow6 2)._buffer 2 6 = [2, 6, 247, 255, 255, 0, 0, 0] := by
  have h := C7_encoder_layout sampleConfig (fun _ => 0) (sampleRow6 2) (fun _ => le_refl _)
  refine ⟨?_, ?_⟩
  · rw [h.1]
    decide
  · exact h.2.2.2.2.trans (by decide)

/-- C7 (as stated) fails: for the buffer with only bit 0 of row 0 set, the
byte at index 2 before the bit reversal is `0xF7`, the inverted left-shift-3
field, and not the inverted right-shift-13 field `0xFF`; the byte at index 4
is the right-shift-13 field and not the left-shift-3 field. -/
theorem C7_field_order_differs :
    (hw_prefields sampleBit0 2 0).getD 2 0 = 0xF7 ∧
    ¬ ((hw_prefields sampleBit0 2 0).getD 2 0 = inv8 (sampleBit0 0 >>> 13)) ∧
    (hw_prefields sampleBit0 2 0).getD 4 0 = 0xFF ∧
    ¬ ((hw_prefields sampleBit0 2 0).getD 4 0 = inv8 (sampleBit0 0 <<< 3)) := by
  decide

/-! ## C8: the bit reversal -/

theorem swapbits_lt (x : Nat) (h : x < 256) : _swapbits x < 256 :=
  (swapbits_byte ⟨x, h⟩).1

theorem swapbits_bits (x : Nat) (h : x < 256) (k : Fin 8) :
    (_swapbits x).testBit k = x.testBit (7 - k) :=
  (swapbits_byte ⟨x, h⟩).2 k

theorem hw_prefields_shape (b : ldisplay_buffer_t) (br r : Nat) :
    ∃ y2 y3 y4 y5 y6 y7, hw_prefields b br r = [br, r, y2, y3, y4, y5, y6, y7] ∧
      y2 < 256 ∧ y3 < 256 ∧ y4 < 256 ∧ y5 < 256 ∧ y6 < 256 ∧ y7 < 256 := by
  have hm : ∀ x : Nat, x % 256 < 256 := fun x => Nat.mod_lt _ (by decide)
  have hz : (0 : Nat) < 256 := by decide
  unfold hw_prefields
  rw [hw_fields_eq]
  split
  · exact ⟨_, _, _, _, _, _, rfl, hm _, hm _, hm _, hm _, hm _, hm _⟩
  · exact ⟨_, _, _, _, _, _, rfl, hm _, hm _, hm _, hz, hz, hz⟩

theorem getD_payload_lt (a0 a1 a2 a3 a4 a5 a6 a7 : Nat) (h2 : a2 < 256) (h3 : a3 < 256)
    (h4 : a4 < 256) (h5 : a5 < 256) (h6 : a6 < 256) (h7 : a7 < 256) (i : Fin 6) :
    [a0, a1, a2, a3, a4, a5, a6, a7].getD (i + 2) 0 < 256 := by
  fin_cases i
  · exact h2
  · exact h3
  · exact h4
  · exact h5
  · exact h6
  · exact h7

theorem hw_swap_getD (a0 a1 a2 a3 a4 a5 a6 a7 : Nat) (i : Fin 6) :
    (hw_swap [a0, a1, a2, a3, a4, a5, a6, a7]).getD (i + 2) 0
      = _swapbits ([a0, a1, a2, a3, a4, a5, a6, a7].getD (i + 2) 0) % 256 := by
  rw [hw_swap_eq]
  fin_cases i <;> rfl

/-- Every byte at an index 2-7 of the array before the bit reversal is below
256. -/
theorem hw_prefields_byte (b : ldisplay_buffer_t) (br r : Nat) (i : Fin 6) :
    (hw_prefields b br r).getD (i + 2) 0 < 256 := by
  obtain ⟨y2, y3, y4, y5, y6, y7, hy, h2, h3, h4, h5, h6, h7⟩ := hw_prefields_shape b br r
  rw [hy]
  exact getD_payload_lt br r y2 y3 y4 y5 y6 y7 h2 h3 h4 h5 h6 h7 i

/-- The bytes of the message are those of `hw_swap`. -/
theorem hw_message_byte (b : ldisplay_buffer_t) (br r : Nat) (i : Fin 6) :
    (hw_message b br r).getD (i + 2) 0
      = _swapbits ((hw_prefields b br r).getD (i + 2) 0) % 256 := by
  obtain ⟨y2, y3, y4, y5, y6, y7, hy, _⟩ := hw_prefields_shape b br r
  unfold hw_message
  rw [hy]
  exact hw_swap_getD br r y2 y3 y4 y5 y6 y7 i

/-- Every message sent is the message of one of the four row indices. -/
theorem update_hw_sent_mem (cfg : Config) (send : List Nat → Int) (s : Engine) :
    ∀ m ∈ (_ldisplay_update_hw cfg send s).1,
      m = hw_message s._buffer s._brightness 0 ∨ m = hw_message s._buffer s._brightness 2 ∨
      m = hw_message s._buffer s._brightness 4 ∨ m = hw_message s._buffer s._brightness 6 := by
  intro m hm
  rw [update_hw_eq] at hm
  have key : ∀ l : List (List Nat),
      (∀ x ∈ l, x ∈ [hw_message s._buffer s._brightness 0, hw_message s._buffer s._brightness 2,
        hw_message s._buffer s._brightness 4, hw_message s._buffer s._brightness 6]) →
      m ∈ l →
      m = hw_message s._buffer s._brightness 0 ∨ m = hw_message s._buffer s._brightness 2 ∨
      m = hw_message s._buffer s._brightness 4 ∨ m = hw_message s._buffer s._brightness 6 := by
    intro l hl hml
    have := hl m hml
    simpa using this
  split_ifs at hm
  · exact key _ (by intro x hx; simp at hx; simp [hx]) hm
  · exact key _ (by intro x hx; simp at hx; rcases hx with h | h <;> simp [h]) hm
  · exact key _ (by intro x hx; simp at hx; rcases hx with h | h | h <;> simp [h]) hm
  · exact key _ (fun x hx => hx) hm
  · exact key _ (fun x hx => hx) hm

/-- C8. For every byte `b`, `_swapbits b` is a byte whose bit `k` is bit
`7 - k` of `b`; and each of the six payload bytes (indices 2-7) of every
message that `_ldisplay_update_hw` sends is `_swapbits` of the byte at the same
index before the reversal, hence that byte with its bit order reversed. -/
theorem C8_bit_reversal :
    (∀ b : Fin 256, _swapbits b < 256 ∧
      ∀ k : Fin 8, (_swapbits b).testBit k = (b : Nat).testBit (7 - k)) ∧
    (∀ (cfg : Config) (send : List Nat → Int) (s : Engine),
      ∀ m ∈ (_ldisplay_update_hw cfg send s).1,
        ∃ r ∈ [0, 2, 4, 6], m = hw_swap (hw_prefields s._buffer s._brightness r) ∧
          ∀ i : Fin 6,
            (hw_prefields s._buffer s._brightness r).getD (i + 2) 0 < 256 ∧
            m.getD (i + 2) 0
              = _swapbits ((hw_prefields s._buffer s._brightness r).getD (i + 2) 0) ∧
            ∀ k : Fin 8, (m.getD (i + 2) 0).testBit k
              = ((hw_prefields s._buffer s._brightness r).getD (i + 2) 0).testBit (7 - k)) := by
  refine ⟨swapbits_byte, ?_⟩
  intro cfg send s m hm
  have key : ∀ r, ∀ i : Fin 6,
      (hw_prefields s._buffer s._brightness r).getD (i + 2) 0 < 256 ∧
      (hw_message s._buffer s._brightness r).getD (i + 2) 0
        = _swapbits ((hw_prefields s._buffer s._brightness r).getD (i + 2) 0) ∧
      ∀ k : Fin 8, ((hw_message s._buffer s._brightness r).getD (i + 2) 0).testBit k
        = ((hw_prefields s._buffer s._brightness r).getD (i + 2) 0).testBit (7 - k) := by
    intro r i
    have hb := hw_prefields_byte s._buffer s._brightness r i
    have he : (hw_message s._buffer s._brightness r).getD (i + 2) 0
        = _swapbits ((hw_prefields s._buffer s._brightness r).getD (i + 2) 0) := by
      rw [hw_message_byte, Nat.mod_eq_of_lt (swapbits_lt _ hb)]
    refine ⟨hb, he, fun k => ?_⟩
    rw [he]
    exact swapbits_bits _ hb k
  rcases update_hw_sent_mem cfg send s m hm with h | h | h | h
  · exact ⟨0, by simp, h, fun i => by rw [h]; exact key 0 i⟩
  · exact ⟨2, by simp, h, fun i => by rw [h]; exact key 2 i⟩
  · exact ⟨4, by simp, h, fun i => by rw [h]; exact key 4 i⟩
  · exact ⟨6, by simp, h, fun i => by rw [h]; exact key 6 i⟩

/-! ## C9: send order and abort on error -/

/-- C9. With the transport a function from the message to an integer,
`_ldisplay_update_hw` sends the messages for the row indices 0, 2, 4, 6 in that
order: what it sends is a non-empty initial segment of that list.  If every
send returns a non-negative value, exactly the four messages are sent and the
result is SUCCESS; if the first, second, third or fourth send is the first to
return a negative value, exactly one, two, three or four messages have been
sent (none after the failing one, none twice) and the result is that value. -/
theorem C9_send_order_and_abort (cfg : Config) (send : List Nat → Int) (s : Engine) :
    (∃ k, 1 ≤ k ∧ k ≤ 4 ∧ (_ldisplay_update_hw cfg send s).1
      = ([0, 2, 4, 6].map (hw_message s._buffer s._brightness)).take k) ∧
    (0 ≤ send (hw_message s._buffer s._brightness 0) →
      0 ≤ send (hw_message s._buffer s._brightness 2) →
      0 ≤ send (hw_message s._buffer s._brightness 4) →
      0 ≤ send (hw_message s._buffer s._brightness 6) →
      _ldisplay_update_hw cfg send s =
        ([hw_message s._buffer s._brightness 0, hw_message s._buffer s._brightness 2,
          hw_message s._buffer s._brightness 4, hw_message s._buffer s._brightness 6],
          cfg.SUCCESS)) ∧
    (send (hw_message s._buffer s._brightness 0) < 0 →
      _ldisplay_update_hw cfg send s =
        ([hw_message s._buffer s._brightness 0],
          send (hw_message s._buffer s._brightness 0))) ∧
    (0 ≤ send (hw_message s._buffer s._brightness 0) →
      send (hw_message s._buffer s._brightness 2) < 0 →
      _ldisplay_update_hw cfg send s =
        ([hw_message s._buffer s._brightness 0, hw_message s._buffer s._brightness 2],
          send (hw_message s._buffer s._brightness 2))) ∧
    (0 ≤ send (hw_message s._buffer s._brightness 0) →
      0 ≤ send (hw_message s._buffer s._brightness 2) →
      send (hw_message s._buffer s._brightness 4) < 0 →
      _ldisplay_update_hw cfg send s =
        ([hw_message s._buffer s._brightness 0, hw_message s._buffer s._brightness 2,
          hw_message s._buffer s._brightness 4],
          send (hw_message s._buffer s._brightness 4))) ∧
    (0 ≤ send (hw_message s._buffer s._brightness 0) →
      0 ≤ send (hw_message s._buffer s._brightness 2) →
      0 ≤ send (hw_message s._buffer s._brightness 4) →
      send (hw_message s._buffer s._brightness 6) < 0 →
      _ldisplay_update_hw cfg send s =
        ([hw_message s._buffer s._brightness 0, hw_message s._buffer s._brightness 2,
          hw_message s._buffer s._brightness 4, hw_message s._buffer s._brightness 6],
          send (hw_message s._buffer s._brightness 6))) := by
  refine ⟨?_, ?_, ?_, ?_, ?_, ?_⟩
  · rw [update_hw_eq]
    split_ifs
    · exact ⟨1, by decide, by decide, rfl⟩
    · exact ⟨2, by decide, by decide, rfl⟩
    · exact ⟨3, by decide, by decide, rfl⟩
    · exact ⟨4, by decide, by decide, rfl⟩
    · exact ⟨4, by decide, by decide, rfl⟩
  · intro c0 c2 c4 c6
    rw [update_hw_eq, if_neg (not_lt.mpr c0), if_neg (not_lt.mpr c2), if_neg (not_lt.mpr c4),
      if_neg (not_lt.mpr c6)]
  · intro c0
    rw [update_hw_eq, if_pos c0]
  · intro c0 c2
    rw [update_hw_eq, if_neg (not_lt.mpr c0), if_pos c2]
  · intro c0 c2 c4
    rw [update_hw_eq, if_neg (not_lt.mpr c0), if_neg (not_lt.mpr c2), if_pos c4]
  · intro c0 c2 c4 c6
    rw [update_hw_eq, if_neg (not_lt.mpr c0), if_neg (not_lt.mpr c2), if_neg (not_lt.mpr c4),
      if_pos c6]

/-- An instance of C9: a transport that rejects the message for row index 2
with -5 and accepts every other message.  Two messages are sent and -5 is
returned. -/
theorem C9_send_order_and_abort_witness :
    _ldisplay_update_hw sampleConfig (fun m => if m.getD 1 0 = 2 then -5 else 0) (sampleRow6 2)
      = ([[2, 0, 255, 255, 255, 255, 255, 255], [2, 2, 255, 255, 255, 255, 255, 255]], -5) :=
  ((C9_send_order_and_abort sampleConfig (fun m => if m.getD 1 0 = 2 then -5 else 0)
    (sampleRow6 2)).2.2.2.1 (by decide) (by decide)).trans (by decide)

/-! ## C10: the unpaired final message -/

/-- C10. Whenever the first three sends succeed, `_ldisplay_update_hw` emits a
fourth and last message, and for every buffer and brightness that message has
byte 0 equal to the brightness, byte 1 equal to 6 and bytes 5, 6 and 7 equal to
zero. -/
theorem C10_unpaired_final_message (cfg : Config) (send : List Nat → Int) (s : Engine)
    (h0 : 0 ≤ send (hw_message s._buffer s._brightness 0))
    (h2 : 0 ≤ send (hw_message s._buffer s._brightness 2))
    (h4 : 0 ≤ send (hw_message s._buffer s._brightness 4)) :
    (_ldisplay_update_hw cfg send s).1.length = 4 ∧
    (_ldisplay_update_hw cfg send s).1.getLast? = some (hw_message s._buffer s._brightness 6) ∧
    (hw_message s._buffer s._brightness 6).length = 8 ∧
    (hw_message s._buffer s._brightness 6).getD 0 0 = s._brightness ∧
    (hw_message s._buffer s._brightness 6).getD 1 0 = 6 ∧
    (hw_message s._buffer s._brightness 6).getD 5 0 = 0 ∧
    (hw_message s._buffer s._brightness 6).getD 6 0 = 0 ∧
    (hw_message s._buffer s._brightness 6).getD 7 0 = 0 := by
  have h := (update_hw_all_ok cfg send s h0 h2 h4).1
  have e : hw_message s._buffer s._brightness 6 =
      hw_swap [s._brightness, 6, inv8 (row s._buffer 6 <<< 3), inv8 (row s._buffer 6 >>> 5),
        inv8 (row s._buffer 6 >>> 13), 0, 0, 0] := by
    unfold hw_message
    rw [hw_prefields_last s._buffer s._brightness 6 (by decide)]
  have z : _swapbits 0 % 256 = 0 := by decide
  rw [h, e, hw_swap_eq, z]
  exact ⟨rfl, rfl, rfl, rfl, rfl, rfl, rfl, rfl⟩

/-- An instance of C10: rows 0-5 blank, row 6 equal to `0x1`, brightness
BRIGHT of the sample header values, a transport that always answers 0. -/
theorem C10_unpaired_final_message_witness :
    (_ldisplay_update_hw sampleConfig (fun _ => 0)
        (sampleRow6 sampleConfig.LDISPLAY_BRIGHT)).1.getLast?
      = some [sampleConfig.LDISPLAY_BRIGHT, 6, 239, 255, 255, 0, 0, 0] :=
  (C10_unpaired_final_message sampleConfig (fun _ => 0)
    (sampleRow6 sampleConfig.LDISPLAY_BRIGHT) (le_refl _) (le_refl _) (le_refl _)).2.1.trans
    (by decide)

/-! ## Overlay lemmas -/

theorem row_fin (b : ldisplay_buffer_t) (j : Fin 7) : row b j.val = b j := by
  unfold row
  rw [dif_pos j.isLt]

/-- The loop in closed form: row `j` is touched when the counter reaches it and
the glyph row `j - yOff` exists. -/
theorem overlay_loop_spec (shift : Nat → Nat) (fg : ldisplay_buffer_t) (yOff : Int) :
    ∀ (fuel i : Nat) (bg : ldisplay_buffer_t), 7 ≤ i + fuel → ∀ j : Fin 7,
      overlay_loop shift fg yOff fuel i bg j =
        if i ≤ j.val ∧ ¬ ((j.val : Int) - yOff < 0 ∨ (j.val : Int) - yOff > 6) then
          bg j ||| shift (row fg ((j.val : Int) - yOff).toNat)
        else bg j
  | 0, i, bg, h, j => by
      have : ¬ i ≤ j.val := by have := j.isLt; omega
      simp [overlay_loop, this]
  | fuel + 1, i, bg, h, j => by
      rw [overlay_loop]
      by_cases hi : i < 7
      · rw [if_pos hi]
        by_cases hc : (i : Int) - yOff < 0 ∨ (i : Int) - yOff > 6
        · rw [if_pos hc, overlay_loop_spec shift fg yOff fuel (i + 1) bg (by omega) j]
          by_cases hj : j.val = i
          · have h1 : ¬ i + 1 ≤ j.val := by omega
            have h2 : ((j.val : Int) - yOff < 0 ∨ (j.val : Int) - yOff > 6) := by
              rw [hj]; exact hc
            rw [if_neg (fun h => h1 h.1), if_neg (fun h => h.2 h2)]
          · have h1 : i + 1 ≤ j.val ↔ i ≤ j.val := by omega
            simp only [h1]
        · rw [if_neg hc, overlay_loop_spec shift fg yOff fuel (i + 1) _ (by omega) j]
          by_cases hj : j.val = i
          · have h1 : ¬ i + 1 ≤ j.val := by omega
            have h2 : i ≤ j.val := by omega
            have h3 : ¬ ((j.val : Int) - yOff < 0 ∨ (j.val : Int) - yOff > 6) := by
              rw [hj]; exact hc
            have h4 : row bg i = bg j := by rw [← hj, row_fin]
            rw [if_neg (fun h => h1 h.1), if_pos ⟨h2, h3⟩]
            simp only [setRow, hj, if_true, h4]
          · have h1 : i + 1 ≤ j.val ↔ i ≤ j.val := by omega
            simp only [h1, setRow, if_neg hj]
      · rw [if_neg hi]
        have : ¬ i ≤ j.val := by have := j.isLt; omega
        simp [this]

/-- What `_overlay` does to row `j`, for all offsets. -/
theorem overlay_row (g d : ldisplay_buffer_t) (xOff yOff : Int) (j : Fin 7) :
    _overlay g d xOff yOff j =
      if (yOff < -6 ∨ yOff > 6 ∨ xOff < -20 ∨ xOff > 20) ∨
          ((j.val : Int) - yOff < 0 ∨ (j.val : Int) - yOff > 6) then d j
      else d j ||| glyphShift xOff (row g ((j.val : Int) - yOff).toNat) := by
  unfold _overlay
  by_cases hb : yOff < -6 ∨ yOff > 6 ∨ xOff < -20 ∨ xOff > 20
  · rw [if_pos hb, if_pos (Or.inl hb)]
  · rw [if_neg hb]
    have hstart : ∀ c : ¬ ((j.val : Int) - yOff < 0 ∨ (j.val : Int) - yOff > 6),
        (if yOff > 0 then yOff.toNat else 0) ≤ j.val := by
      intro c
      split <;> omega
    by_cases hc : (j.val : Int) - yOff < 0 ∨ (j.val : Int) - yOff > 6
    · rw [if_pos (Or.inr hc)]
      by_cases hx : xOff < 0
      · rw [if_pos hx, overlay_loop_spec _ g yOff 8 _ d (by omega) j, if_neg (fun h => h.2 hc)]
      · rw [if_neg hx, overlay_loop_spec _ g yOff 8 _ d (by omega) j, if_neg (fun h => h.2 hc)]
    · rw [if_neg (fun h => Or.elim h hb hc)]
      by_cases hx : xOff < 0
      · rw [if_pos hx, overlay_loop_spec _ g yOff 8 _ d (by omega) j, if_pos ⟨hstart hc, hc⟩]
        have e : (-xOff).toNat = xOff.natAbs := by omega
        simp only [glyphShift, if_neg (not_le.mpr hx), e]
      · rw [if_neg hx, overlay_loop_spec _ g yOff 8 _ d (by omega) j, if_pos ⟨hstart hc, hc⟩]
        simp only [glyphShift, if_pos (not_lt.mp hx)]

theorem and_or_self (x y : Nat) : x &&& (x ||| y) = x := by
  apply Nat.eq_of_testBit_eq
  intro i
  rw [Nat.testBit_and, Nat.testBit_or]
  cases x.testBit i <;> simp

/-! ## C11: overlay clipping -/

/-- C11. For every glyph, every destination buffer and every pair of offsets
with `yOff < -6` or `yOff > 6` or `xOff < -20` or `xOff > 20`, `_overlay`
leaves all 7 rows of the destination unchanged. -/
theorem C11_overlay_clipping (g d : ldisplay_buffer_t) (xOff yOff : Int)
    (h : yOff < -6 ∨ yOff > 6 ∨ xOff < -20 ∨ xOff > 20) :
    _overlay g d xOff yOff = d := by
  unfold _overlay
  rw [if_pos h]

/-- An instance of C11: `xOff = 21`, `yOff = 0`. -/
theorem C11_overlay_clipping_witness :
    _overlay sampleGlyph sampleBit0 21 0 = sampleBit0 :=
  C11_overlay_clipping sampleGlyph sampleBit0 21 0 (by decide)

/-! ## C12: overlay placement -/

/-- C12. For offsets with `-6 ≤ yOff ≤ 6` and `-20 ≤ xOff ≤ 20`, after
`_overlay` each destination row `i` equals `d[i] OR s(g[i - yOff])` when
`0 ≤ i - yOff ≤ 6` and `d[i]` otherwise, where `s` shifts right by `xOff` bits
when `xOff ≥ 0` and left by `|xOff|` bits, truncated to 32 bits, when
`xOff < 0`; with `xOff = 7`, `yOff = 0` every row becomes
`d[i] OR (g[i] >> 7)`. -/
theorem C12_overlay_placement (g d : ldisplay_buffer_t) (xOff yOff : Int)
    (hy : -6 ≤ yOff ∧ yOff ≤ 6) (hx : -20 ≤ xOff ∧ xOff ≤ 20) :
    (∀ i : Fin 7, _overlay g d xOff yOff i =
      if 0 ≤ (i.val : Int) - yOff ∧ (i.val : Int) - yOff ≤ 6 then
        d i ||| glyphShift xOff (row g ((i.val : Int) - yOff).toNat)
      else d i) ∧
    (∀ i : Fin 7, _overlay g d 7 0 i = d i ||| (g i >>> 7)) := by
  refine ⟨fun i => ?_, fun i => ?_⟩
  · rw [overlay_row]
    have hb : ¬ (yOff < -6 ∨ yOff > 6 ∨ xOff < -20 ∨ xOff > 20) := by omega
    by_cases hc : 0 ≤ (i.val : Int) - yOff ∧ (i.val : Int) - yOff ≤ 6
    · rw [if_pos hc, if_neg (by omega)]
    · rw [if_neg hc, if_pos (by omega)]
  · rw [overlay_row, if_neg (by have := i.isLt; omega)]
    have e : ((i.val : Int) - 0).toNat = i.val := by omega
    rw [e, row_fin]
    rfl

/-- An instance of C12: the sample glyph laid over a buffer with bit 0 of row 0
set, at `xOff = -3`, `yOff = 2`. -/
theorem C12_overlay_placement_witness :
    _overlay sampleGlyph sampleBit0 (-3) 2 0 = 1 ∧
    _overlay sampleGlyph sampleBit0 (-3) 2 2 = 0x1fc00 ∧
    _overlay sampleGlyph sampleBit0 7 0 0 = 0x7f := by
  have h := C12_overlay_placement sampleGlyph sampleBit0 (-3) 2 (by decide) (by decide)
  exact ⟨(h.1 0).trans (by decide), (h.1 2).trans (by decide), (h.2 0).trans (by decide)⟩

/-! ## C13: overlay is monotone -/

/-- C13. For every glyph, destination buffer and offsets (in range or not),
every bit set in a destination row before `_overlay` is still set in that row
afterwards: old row AND new row = old row. -/
theorem C13_overlay_monotone (g d : ldisplay_buffer_t) (xOff yOff : Int) (i : Fin 7) :
    d i &&& _overlay g d xOff yOff i = d i := by
  rw [overlay_row]
  split
  · exact Nat.and_self _
  · exact and_or_self _ _

/-! ## C14: CLEAR yields zero -/

/-- C14. For every display state and every brightness directive, dispatching a
CLEAR frame leaves all 7 buffer rows equal to 0, and dispatching a second
CLEAR frame gives the same buffer. -/
theorem C14_clear_zero_idempotent (cfg : Config) (s : Engine) (d1 b1 d2 b2 : Nat)
    (p1 p2 : ldisplay_buffer_t) (n1 n2 : Ptr) :
    (∀ i, (_anim_frame_dispatch cfg ⟨FrameType.LDISPLAY_CLEAR, d1, b1, p1, n1⟩ s)._buffer i = 0) ∧
    (_anim_frame_dispatch cfg ⟨FrameType.LDISPLAY_CLEAR, d2, b2, p2, n2⟩
        (_anim_frame_dispatch cfg ⟨FrameType.LDISPLAY_CLEAR, d1, b1, p1, n1⟩ s))._buffer
      = (_anim_frame_dispatch cfg ⟨FrameType.LDISPLAY_CLEAR, d1, b1, p1, n1⟩ s)._buffer := by
  have h1 := (dispatch_clear cfg ⟨FrameType.LDISPLAY_CLEAR, d1, b1, p1, n1⟩ s rfl).1
  have h2 := (dispatch_clear cfg ⟨FrameType.LDISPLAY_CLEAR, d2, b2, p2, n2⟩
    (_anim_frame_dispatch cfg ⟨FrameType.LDISPLAY_CLEAR, d1, b1, p1, n1⟩ s) rfl).1
  refine ⟨fun i => ?_, ?_⟩
  · rw [h1]
  · rw [h2, h1]

/-! ## C15: INVERT is an involution -/

/-- C15. For every buffer and any brightness directives, dispatching two
INVERT frames in succession restores every row of the buffer to its original
value. -/
theorem C15_invert_involution (cfg : Config) (s : Engine) (d1 b1 d2 b2 : Nat)
    (p1 p2 : ldisplay_buffer_t) (n1 n2 : Ptr) :
    (_anim_frame_dispatch cfg ⟨FrameType.LDISPLAY_INVERT, d2, b2, p2, n2⟩
        (_anim_frame_dispatch cfg ⟨FrameType.LDISPLAY_INVERT, d1, b1, p1, n1⟩ s))._buffer
      = s._buffer := by
  have h1 := (dispatch_invert cfg ⟨FrameType.LDISPLAY_INVERT, d1, b1, p1, n1⟩ s rfl).1
  have h2 := (dispatch_invert cfg ⟨FrameType.LDISPLAY_INVERT, d2, b2, p2, n2⟩
    (_anim_frame_dispatch cfg ⟨FrameType.LDISPLAY_INVERT, d1, b1, p1, n1⟩ s) rfl).1
  rw [h2, h1]
  funext i
  exact xor_mask_twice (s._buffer i)

/-! ## C16: the width of the rows -/

theorem row_lt (b : ldisplay_buffer_t) (n k : Nat) (h : ∀ i, b i < 2 ^ n) : row b k < 2 ^ n := by
  unfold row
  split
  · exact h _
  · exact Nat.two_pow_pos _

theorem shiftRight_lt (x k n : Nat) (h : x < 2 ^ n) : x >>> k < 2 ^ n := by
  rw [Nat.shiftRight_eq_div_pow]
  exact Nat.lt_of_le_of_lt (Nat.div_le_self _ _) h

theorem glyphShift_lt32 (xOff : Int) (v : Nat) (h : v < 2 ^ 32) : glyphShift xOff v < 2 ^ 32 := by
  unfold glyphShift
  split
  · exact shiftRight_lt v _ 32 h
  · exact Nat.mod_lt _ (by decide)

/-- The 32-bit complement of a 32-bit word. -/
theorem xor_mask_value (x : Nat) (h : x < 2 ^ 32) : x ^^^ 0xffffffff = 2 ^ 32 - 1 - x := by
  have e3 : (0xffffffff : Nat) = 2 ^ 32 - 1 := rfl
  have e : 2 ^ 32 - 1 - x = 2 ^ 32 - (x + 1) := by omega
  apply Nat.eq_of_testBit_eq
  intro i
  rw [e, Nat.testBit_two_pow_sub_succ h, Nat.testBit_xor, e3, Nat.testBit_two_pow_sub_one]
  by_cases hi : i < 32
  · simp [hi]
  · have hx : x.testBit i = false :=
      Nat.testBit_lt_two_pow (Nat.lt_of_lt_of_le h (Nat.pow_le_pow_right (by decide) (by omega)))
    simp [hi, hx]

theorem xor_mask_bit (x : Nat) (k : Fin 32) :
    (x ^^^ 0xffffffff).testBit k = !x.testBit k := by
  have e3 : (0xffffffff : Nat) = 2 ^ 32 - 1 := rfl
  rw [Nat.testBit_xor, e3, Nat.testBit_two_pow_sub_one]
  simp [k.isLt]

/-- C16 (as amended).  If every row of the buffer, of the glyph and of the SET
payload is below `2^22`, then every row is still below `2^22` after `_overlay`
with a non-negative `xOff` (any `yOff`), after a SET frame and after a CLEAR
frame; after `_overlay` with any offsets every row is below `2^32`; and after
an INVERT frame every row is the 32-bit complement `2^32 - 1 - row` of the old
row: it is below `2^32`, each of its 32 bits is the negation of the old bit,
and all of the bits 22 to 31 are set.  With a negative `xOff` bits above column
21 can be set by `_overlay`: some glyph with rows below `2^22` sets bit 22 of a
blank row at `xOff = -20`. -/
theorem C16_row_width (cfg : Config) (s : Engine) (g p : ldisplay_buffer_t) (d b : Nat)
    (nx : Ptr) (hs : ∀ i, s._buffer i < 2 ^ 22) (hg : ∀ i, g i < 2 ^ 22)
    (hp : ∀ i, p i < 2 ^ 22) :
    (∀ (xOff yOff : Int), 0 ≤ xOff → ∀ i, _overlay g s._buffer xOff yOff i < 2 ^ 22) ∧
    (∀ (xOff yOff : Int) i, _overlay g s._buffer xOff yOff i < 2 ^ 32) ∧
    (∀ i, (_anim_frame_dispatch cfg ⟨FrameType.LDISPLAY_SET, d, b, p, nx⟩ s)._buffer i
      < 2 ^ 22) ∧
    (∀ i, (_anim_frame_dispatch cfg ⟨FrameType.LDISPLAY_CLEAR, d, b, p, nx⟩ s)._buffer i
      < 2 ^ 22) ∧
    (∀ i, (_anim_frame_dispatch cfg ⟨FrameType.LDISPLAY_INVERT, d, b, p, nx⟩ s)._buffer i
      < 2 ^ 32) ∧
    (∀ i, ((_anim_frame_dispatch cfg ⟨FrameType.LDISPLAY_INVERT, d, b, p, nx⟩ s)._buffer
      i).testBit 22 = true) ∧
    (∀ i, (_anim_frame_dispatch cfg ⟨FrameType.LDISPLAY_INVERT, d, b, p, nx⟩ s)._buffer i
      = 2 ^ 32 - 1 - s._buffer i) ∧
    (∀ (i : Fin 7) (k : Fin 32),
      ((_anim_frame_dispatch cfg ⟨FrameType.LDISPLAY_INVERT, d, b, p, nx⟩ s)._buffer
        i).testBit k = !(s._buffer i).testBit k) ∧
    (∀ (i : Fin 7) (k : Fin 32), 22 ≤ k.val →
      ((_anim_frame_dispatch cfg ⟨FrameType.LDISPLAY_INVERT, d, b, p, nx⟩ s)._buffer
        i).testBit k = true) ∧
    (∃ g0 : ldisplay_buffer_t, (∀ i, g0 i < 2 ^ 22) ∧
      (_overlay g0 (fun _ => 0) (-20) 0 0).testBit 22 = true) := by
  have h32 : ∀ x : Nat, x < 2 ^ 22 → x < 2 ^ 32 := fun x hx =>
    Nat.lt_of_lt_of_le hx (by decide)
  have hset := (dispatch_set cfg ⟨FrameType.LDISPLAY_SET, d, b, p, nx⟩ s rfl).1
  have hclr := (dispatch_clear cfg ⟨FrameType.LDISPLAY_CLEAR, d, b, p, nx⟩ s rfl).1
  have hinv := (dispatch_invert cfg ⟨FrameType.LDISPLAY_INVERT, d, b, p, nx⟩ s rfl).1
  refine ⟨?_, ?_, ?_, ?_, ?_, ?_, ?_, ?_, ?_, ⟨fun _ => 4,
    fun _ => (by decide : (4 : Nat) < 2 ^ 22), by decide⟩⟩
  · intro xOff yOff hx i
    rw [overlay_row]
    split
    · exact hs i
    · refine Nat.or_lt_two_pow (hs i) ?_
      unfold glyphShift
      rw [if_pos hx]
      exact shiftRight_lt _ _ 22 (row_lt g 22 _ hg)
  · intro xOff yOff i
    rw [overlay_row]
    split
    · exact h32 _ (hs i)
    · exact Nat.or_lt_two_pow (h32 _ (hs i)) (glyphShift_lt32 _ _ (h32 _ (row_lt g 22 _ hg)))
  · intro i
    rw [hset]
    exact hp i
  · intro i
    rw [hclr]
    exact Nat.two_pow_pos _
  · intro i
    rw [hinv]
    exact Nat.xor_lt_two_pow (h32 _ (hs i)) (by decide)
  · intro i
    rw [hinv]
    have e3 : (0xffffffff : Nat) = 2 ^ 32 - 1 := rfl
    rw [Nat.testBit_xor, Nat.testBit_lt_two_pow (hs i), e3, Nat.testBit_two_pow_sub_one]
    decide
  · intro i
    rw [hinv]
    exact xor_mask_value _ (h32 _ (hs i))
  · intro i k
    rw [hinv]
    exact xor_mask_bit _ k
  · intro i k hk
    rw [hinv, xor_mask_bit]
    have hx : (s._buffer i).testBit k = false :=
      Nat.testBit_lt_two_pow
        (Nat.lt_of_lt_of_le (hs i) (Nat.pow_le_pow_right (by decide) hk))
    rw [hx]
    rfl

/-- An instance of C16: blank display, the sample glyph, a payload of 5 in
every row. -/
theorem C16_row_width_witness :
    (∀ i, _overlay sampleGlyph (startEngine 2)._buffer 7 0 i < 2 ^ 22) ∧
    (∀ i, (_anim_frame_dispatch sampleConfig
      ⟨FrameType.LDISPLAY_INVERT, 50, 255, fun _ => 5, none⟩ (startEngine 2))._buffer i
        < 2 ^ 32) := by
  have h := C16_row_width sampleConfig (startEngine 2) sampleGlyph (fun _ => 5) 50 255 none
    (fun _ => (by decide : (0 : Nat) < 2 ^ 22)) (fun _ => (by decide : (0x3f80 : Nat) < 2 ^ 22))
    (fun _ => (by decide : (5 : Nat) < 2 ^ 22))
  exact ⟨h.1 7 0 (by decide), h.2.2.2.2.1⟩

/-- C16 (as stated) fails.  On a blank display an INVERT frame leaves
`0xffffffff` in row 0, which is not below `2^22`; and `_overlay` of a glyph
whose rows are 4 (below `2^22`) at `xOff = -20` leaves `2^22` in row 0.  Neither
result depends on the header values. -/
theorem C16_high_bits_set :
    (_anim_frame_dispatch sampleConfig
      ⟨FrameType.LDISPLAY_INVERT, 50, 255, fun _ => 0, none⟩ (startEngine 2))._buffer 0
        = 0xffffffff ∧
    ¬ ((_anim_frame_dispatch sampleConfig
      ⟨FrameType.LDISPLAY_INVERT, 50, 255, fun _ => 0, none⟩ (startEngine 2))._buffer 0
        < 2 ^ 22) ∧
    _overlay (fun _ => 4) (fun _ => 0) (-20) 0 0 = 2 ^ 22 ∧
    ¬ (_overlay (fun _ => 4) (fun _ => 0) (-20) 0 0 < 2 ^ 22) := by
  decide

/-! ## C17: the stored brightness is a display level -/

theorem setBrightness_le (cfg : Config) (b : Nat) (s : Engine)
    (h : s._brightness ≤ cfg.LDISPLAY_BRIGHT) :
    (_ldisplay_setBrightness cfg b s)._brightness ≤ cfg.LDISPLAY_BRIGHT := by
  rw [setBrightness_value]
  split_ifs <;> omega

theorem dispatch_brightness_le (cfg : Config) (fr : ldisplay_frame_t) (s : Engine)
    (h : s._brightness ≤ cfg.LDISPLAY_BRIGHT) :
    (_anim_frame_dispatch cfg fr s)._brightness ≤ cfg.LDISPLAY_BRIGHT := by
  have hb := setBrightness_le cfg fr.brightness s h
  by_cases h1 : fr.type = FrameType.LDISPLAY_INVERT
  · rw [(dispatch_invert cfg fr s h1).2]; exact hb
  by_cases h2 : fr.type = FrameType.LDISPLAY_CLEAR
  · rw [(dispatch_clear cfg fr s h2).2]; exact hb
  by_cases h3 : fr.type = FrameType.LDISPLAY_SET
  · rw [(dispatch_set cfg fr s h3).2]; exact hb
  rw [dispatch_idle cfg fr s h1 h2 h3]
  exact h

theorem dispatchAll_brightness_le (cfg : Config) :
    ∀ (frames : List ldisplay_frame_t) (s : Engine), s._brightness ≤ cfg.LDISPLAY_BRIGHT →
      (dispatchAll cfg frames s)._brightness ≤ cfg.LDISPLAY_BRIGHT
  | [], _, h => h
  | fr :: frs, s, h =>
      dispatchAll_brightness_le cfg frs _ (dispatch_brightness_le cfg fr s h)

theorem fetch_fields (cfg : Config) (s : Engine) :
    (fetch_frame cfg s).2._brightness = s._brightness ∧
    (fetch_frame cfg s).2._buffer = s._buffer ∧
    (fetch_frame cfg s).2.updates = s.updates := by
  have df := dequeue_fields s
  unfold fetch_frame
  dsimp only
  cases h : (_ldisplay_dequeue s).1 with
  | none => exact ⟨df.2.2.2.1, df.2.2.1, df.2.2.2.2.2⟩
  | some c => exact ⟨df.2.2.2.1, df.2.2.1, df.2.2.2.2.2⟩

theorem split_fields (cfg : Config) (cur : Nat) (s : Engine) :
    (split_frame cfg cur s)._brightness = s._brightness ∧
    (split_frame cfg cur s)._buffer = s._buffer ∧
    (split_frame cfg cur s).updates = s.updates := by
  unfold split_frame
  by_cases h : (s.heap cur).duration > cfg.MAX_FRAME_LENGTH_MS
  · rw [if_pos h]
    exact ⟨(prepend_fields _ _).2.2.1, (prepend_fields _ _).2.1, (prepend_fields _ _).2.2.2.2⟩
  · rw [if_neg h]
    exact ⟨rfl, rfl, rfl⟩

/-- One loop pass, whatever the queue holds: the brightness stays a level and
the encoder sees the new display state once. -/
theorem iter_brightness_le (cfg : Config) (s : Engine)
    (h : s._brightness ≤ cfg.LDISPLAY_BRIGHT) :
    (anim_thread_iter cfg s)._brightness ≤ cfg.LDISPLAY_BRIGHT ∧
    (anim_thread_iter cfg s).updates = s.updates ++
      [((anim_thread_iter cfg s)._buffer, (anim_thread_iter cfg s)._brightness)] := by
  have hi := iter_of_split cfg s (split_frame cfg (fetch_frame cfg s).1 (fetch_frame cfg s).2)
    (fetch_frame cfg s).1 rfl rfl
  have hf := fetch_fields cfg s
  have hs := split_fields cfg (fetch_frame cfg s).1 (fetch_frame cfg s).2
  refine ⟨?_, ?_⟩
  · rw [hi.2.2.2.2.2.1]
    exact dispatch_brightness_le cfg _ _ (by rw [hs.1, hf.1]; exact h)
  · rw [hi.2.2.2.2.2.2, hs.2.2, hf.2.2]

theorem run_brightness_le (cfg : Config) :
    ∀ (n : Nat) (s : Engine), s._brightness ≤ cfg.LDISPLAY_BRIGHT →
      ∃ L : List (ldisplay_buffer_t × Nat),
        (anim_thread_func cfg n s).updates = s.updates ++ L ∧ L.length = n ∧
        ∀ e ∈ L, e.2 ≤ cfg.LDISPLAY_BRIGHT
  | 0, s, _ => ⟨[], by simp [anim_thread_func], rfl, by simp⟩
  | n + 1, s, h => by
      have h1 := iter_brightness_le cfg s h
      obtain ⟨L, e1, e2, e3⟩ := run_brightness_le cfg n (anim_thread_iter cfg s) h1.1
      refine ⟨((anim_thread_iter cfg s)._buffer, (anim_thread_iter cfg s)._brightness) :: L,
        ?_, by simp [e2], ?_⟩
      · show (anim_thread_func cfg n (anim_thread_iter cfg s)).updates = _
        rw [e1, h1.2]
        simp
      · intro e he
        rcases List.mem_cons.mp he with h2 | h2
        · rw [h2]; exact h1.1
        · exact e3 e h2

/-- C17. Start from a display state whose brightness is BRIGHT (the initial
value of `_brightness`), with header values such that
`DIM < MEDIUM < BRIGHT = 2 < NO_CHANGE`.  After dispatching any finite sequence
of frames, of any kind and with any brightness field, the stored brightness is
at most BRIGHT, is not NO_CHANGE and is one of DIM, MEDIUM, BRIGHT; and every
brightness handed to the encoder during `n` passes of the scheduler loop is
such a value too. -/
theorem C17_brightness_is_level (cfg : Config) (s : Engine)
    (frames : List ldisplay_frame_t) (n : Nat)
    (h0 : s._brightness = cfg.LDISPLAY_BRIGHT)
    (hN : cfg.LDISPLAY_BRIGHT < cfg.LDISPLAY_NOCHANGE)
    (hDM : cfg.LDISPLAY_DIM < cfg.LDISPLAY_MEDIUM)
    (hMB : cfg.LDISPLAY_MEDIUM < cfg.LDISPLAY_BRIGHT)
    (h2 : cfg.LDISPLAY_BRIGHT = 2) :
    ((dispatchAll cfg frames s)._brightness ≤ cfg.LDISPLAY_BRIGHT ∧
      (dispatchAll cfg frames s)._brightness ≠ cfg.LDISPLAY_NOCHANGE ∧
      ((dispatchAll cfg frames s)._brightness = cfg.LDISPLAY_DIM ∨
        (dispatchAll cfg frames s)._brightness = cfg.LDISPLAY_MEDIUM ∨
        (dispatchAll cfg frames s)._brightness = cfg.LDISPLAY_BRIGHT)) ∧
    (∃ L : List (ldisplay_buffer_t × Nat),
      (anim_thread_func cfg n s).updates = s.updates ++ L ∧ L.length = n ∧
      ∀ e ∈ L, e.2 ≤ cfg.LDISPLAY_BRIGHT ∧ e.2 ≠ cfg.LDISPLAY_NOCHANGE ∧
        (e.2 = cfg.LDISPLAY_DIM ∨ e.2 = cfg.LDISPLAY_MEDIUM ∨ e.2 = cfg.LDISPLAY_BRIGHT)) := by
  have hs : s._brightness ≤ cfg.LDISPLAY_BRIGHT := by rw [h0]
  have key : ∀ b : Nat, b ≤ cfg.LDISPLAY_BRIGHT →
      b ≤ cfg.LDISPLAY_BRIGHT ∧ b ≠ cfg.LDISPLAY_NOCHANGE ∧
        (b = cfg.LDISPLAY_DIM ∨ b = cfg.LDISPLAY_MEDIUM ∨ b = cfg.LDISPLAY_BRIGHT) := by
    intro b hb
    refine ⟨hb, by omega, by omega⟩
  refine ⟨key _ (dispatchAll_brightness_le cfg frames s hs), ?_⟩
  obtain ⟨L, e1, e2, e3⟩ := run_brightness_le cfg n s hs
  exact ⟨L, e1, e2, fun e he => key _ (e3 e he)⟩

/-- An instance of C17: from brightness 2, a SET frame with brightness 200, an
INVERT frame with NO_CHANGE and a NOOP frame with brightness 7 leave the
brightness at 2. -/
theorem C17_brightness_is_level_witness :
    (dispatchAll sampleConfig
      [⟨FrameType.LDISPLAY_SET, 10, 200, fun _ => 1, none⟩,
        ⟨FrameType.LDISPLAY_INVERT, 10, 255, fun _ => 0, none⟩,
        ⟨FrameType.LDISPLAY_NOOP, 10, 7, fun _ => 0, none⟩] (startEngine 2))._brightness ≤ 2 :=
  (C17_brightness_is_level sampleConfig (startEngine 2)
    [⟨FrameType.LDISPLAY_SET, 10, 200, fun _ => 1, none⟩,
      ⟨FrameType.LDISPLAY_INVERT, 10, 255, fun _ => 0, none⟩,
      ⟨FrameType.LDISPLAY_NOOP, 10, 7, fun _ => 0, none⟩] 0 rfl (by decide) (by decide)
    (by decide) rfl).1.1

/-! ## C18: enqueue after shutdown -/

theorem holds_first_last (s : Engine) (l : List Nat) (h : Holds s l) :
    (s.animq.first = none ↔ l = []) ∧ (s.animq.last = none ↔ l = []) := by
  obtain ⟨_, hfirst, hlast, _⟩ := h
  rw [hfirst, hlast]
  exact ⟨List.head?_eq_none_iff, List.getLast?_eq_none_iff⟩

/-- One call: the pointer structure and the list return the same and stay in
step. -/
theorem runOp_refines (op : QueueOp) (s : Engine) (l : List Nat) (h : Holds s l)
    (ha : admissible [op] l) :
    (runOp op s).1 = (listOp op l).1 ∧ Holds (runOp op s).2 (listOp op l).2 := by
  cases op with
  | enqueue f => exact ⟨rfl, holds_enqueue s l f h ha.1⟩
  | prepend f => exact ⟨rfl, holds_prepend s l f h ha.1⟩
  | dequeue =>
      cases l with
      | nil =>
          have e := holds_dequeue_nil s h
          refine ⟨?_, ?_⟩
          · show some (_ldisplay_dequeue s).1 = some none
            rw [e]
          · show Holds (_ldisplay_dequeue s).2 []
            rw [e]
            exact h
      | cons a rest =>
          have e := holds_dequeue_cons s a rest h
          refine ⟨?_, e.2⟩
          show some (_ldisplay_dequeue s).1 = some (some a)
          rw [e.1]

theorem runOps_refines :
    ∀ (ops : List QueueOp) (s : Engine) (l : List Nat), Holds s l → admissible ops l →
      (runOps ops s).1 = (listOps ops l).1 ∧ Holds (runOps ops s).2 (listOps ops l).2
  | [], _, _, h, _ => ⟨rfl, h⟩
  | op :: ops, s, l, h, ha => by
      have ha1 : admissible [op] l ∧ admissible ops (listOp op l).2 := by
        cases op with
        | enqueue f => exact ⟨⟨ha.1, trivial⟩, ha.2⟩
        | prepend f => exact ⟨⟨ha.1, trivial⟩, ha.2⟩
        | dequeue => exact ⟨trivial, ha⟩
      have h1 := runOp_refines op s l h ha1.1
      have h2 := runOps_refines ops (runOp op s).2 (listOp op l).2 h1.2 ha1.2
      refine ⟨?_, h2.2⟩
      show (runOp op s).1 :: (runOps ops (runOp op s).2).1
        = (listOp op l).1 :: (listOps ops (listOp op l).2).1
      rw [h1.1, h2.1]

/-- C19. Start from an empty queue (`first = last = NULL`) and any heap, so
with any values in the `next` fields.  For every sequence of
`ldisplay_enqueue`, `_ldisplay_queue_prepend` and `_ldisplay_dequeue` calls in
which each inserted frame is not in the queue at that time, the calls return
what the same calls return on an abstract list (append at the tail, insert at
the head, remove and return the head, `NULL` on the empty list), the pointer
structure afterwards stands for the resulting list, and `first = NULL` iff
`last = NULL` iff that list is empty. -/
theorem C19_queue_refines_list (s : Engine) (ops : List QueueOp)
    (hempty : s.animq.first = none ∧ s.animq.last = none) (ha : admissible ops []) :
    (runOps ops s).1 = (listOps ops []).1 ∧
    Holds (runOps ops s).2 (listOps ops []).2 ∧
    ((runOps ops s).2.animq.first = none ↔ (listOps ops []).2 = []) ∧
    ((runOps ops s).2.animq.last = none ↔ (listOps ops []).2 = []) ∧
    ((runOps ops s).2.animq.first = none ↔ (runOps ops s).2.animq.last = none) := by
  have h := runOps_refines ops s [] ((holds_nil_iff s).mpr hempty) ha
  have hfl := holds_first_last _ _ h.2
  exact ⟨h.1, h.2, hfl.1, hfl.2, hfl.1.trans hfl.2.symm⟩

/-- An instance of C19: prepend 4, enqueue 7, dequeue, enqueue 4 again (its
`next` field is stale by then), dequeue three times. -/
theorem C19_queue_refines_list_witness :
    (runOps [QueueOp.prepend 4, QueueOp.enqueue 7, QueueOp.dequeue, QueueOp.enqueue 4,
        QueueOp.dequeue, QueueOp.dequeue, QueueOp.dequeue] (startEngine 2)).1
      = [none, none, some (some 4), none, some (some 7), some (some 4), some none] :=
  (C19_queue_refines_list (startEngine 2)
    [QueueOp.prepend 4, QueueOp.enqueue 7, QueueOp.dequeue, QueueOp.enqueue 4,
      QueueOp.dequeue, QueueOp.dequeue, QueueOp.dequeue] ⟨rfl, rfl⟩
    (by simp [admissible, listOp])).1

/-! ## C20: what the encoding determines -/

set_option maxRecDepth 1000000 in
/-- Reversing the bits of a byte twice gives the byte back. -/
theorem swapbits_involutive : ∀ a : Fin 256, _swapbits (_swapbits a) = a := by
  decide

set_option maxRecDepth 1000000 in
theorem or7_absorbed : ∀ v : Fin 256, v.val % 8 = 7 → v.val ||| 0x07 = v.val := by
  decide

theorem inv8_lt (x : Nat) : inv8 x < 256 := by
  unfold inv8
  omega

/-- The bit reversal loses nothing of an inverted field. -/
theorem enc_inv8_iff (x y : Nat) :
    _swapbits (inv8 x) % 256 = _swapbits (inv8 y) % 256 ↔ inv8 x = inv8 y := by
  have hx := inv8_lt x
  have hy := inv8_lt y
  rw [Nat.mod_eq_of_lt (swapbits_lt _ hx), Nat.mod_eq_of_lt (swapbits_lt _ hy)]
  constructor
  · intro h
    have h1 := swapbits_involutive ⟨inv8 x, hx⟩
    have h2 := swapbits_involutive ⟨inv8 y, hy⟩
    have h3 : _swapbits (_swapbits (inv8 x)) = _swapbits (_swapbits (inv8 y)) := by rw [h]
    exact h1.symm.trans (h3.trans h2)
  · intro h
    rw [h]

/-- The marker `0x07` is already part of the inverted left-shift-3 field. -/
theorem marker_absorbed (x : Nat) : inv8 (x <<< 3) ||| 0x07 = inv8 (x <<< 3) := by
  have h8 : inv8 (x <<< 3) % 8 = 7 := by
    unfold inv8
    rw [Nat.shiftLeft_eq]
    omega
  exact or7_absorbed ⟨inv8 (x <<< 3), inv8_lt _⟩ h8

/-- The three fields of a row hold exactly its bits 0 to 20. -/
theorem fields_iff (x y : Nat) :
    (inv8 (x <<< 3) = inv8 (y <<< 3) ∧ inv8 (x >>> 5) = inv8 (y >>> 5) ∧
      inv8 (x >>> 13) = inv8 (y >>> 13)) ↔ x % 2 ^ 21 = y % 2 ^ 21 := by
  unfold inv8
  rw [Nat.shiftLeft_eq, Nat.shiftLeft_eq, Nat.shiftRight_eq_div_pow, Nat.shiftRight_eq_div_pow,
    Nat.shiftRight_eq_div_pow, Nat.shiftRight_eq_div_pow]
  have e3 : (2 : Nat) ^ 3 = 8 := rfl
  have e5 : (2 : Nat) ^ 5 = 32 := rfl
  have e13 : (2 : Nat) ^ 13 = 8192 := rfl
  have e21 : (2 : Nat) ^ 21 = 2097152 := rfl
  rw [e3, e5, e13, e21]
  omega

theorem hw_message_pair (b : ldisplay_buffer_t) (br r : Nat) (hr : r < 6) :
    hw_message b br r =
      [br, r, _swapbits (inv8 (row b r <<< 3)) % 256, _swapbits (inv8 (row b r >>> 5)) % 256,
        _swapbits (inv8 (row b r >>> 13)) % 256,
        _swapbits (inv8 (row b (r + 1) <<< 3)) % 256,
        _swapbits (inv8 (row b (r + 1) >>> 5)) % 256,
        _swapbits (inv8 (row b (r + 1) >>> 13)) % 256] := by
  unfold hw_message
  rw [hw_prefields_pair b br r hr, hw_swap_eq, marker_absorbed]

theorem hw_message_last (b : ldisplay_buffer_t) (br r : Nat) (hr : ¬ r < 6) :
    hw_message b br r =
      [br, r, _swapbits (inv8 (row b r <<< 3)) % 256, _swapbits (inv8 (row b r >>> 5)) % 256,
        _swapbits (inv8 (row b r >>> 13)) % 256,
        _swapbits 0 % 256, _swapbits 0 % 256, _swapbits 0 % 256] := by
  unfold hw_message
  rw [hw_prefields_last b br r hr, hw_swap_eq]

theorem pair_message_iff (b1 b2 : ldisplay_buffer_t) (br r : Nat) (hr : r < 6) :
    hw_message b1 br r = hw_message b2 br r ↔
      row b1 r % 2 ^ 21 = row b2 r % 2 ^ 21 ∧
      row b1 (r + 1) % 2 ^ 21 = row b2 (r + 1) % 2 ^ 21 := by
  rw [hw_message_pair b1 br r hr, hw_message_pair b2 br r hr]
  simp only [List.cons.injEq, and_true, true_and, enc_inv8_iff]
  rw [← fields_iff, ← fields_iff]
  tauto

theorem last_message_iff (b1 b2 : ldisplay_buffer_t) (br r : Nat) (hr : ¬ r < 6) :
    hw_message b1 br r = hw_message b2 br r ↔ row b1 r % 2 ^ 21 = row b2 r % 2 ^ 21 := by
  rw [hw_message_last b1 br r hr, hw_message_last b2 br r hr]
  simp only [List.cons.injEq, and_true, true_and, enc_inv8_iff]
  rw [← fields_iff]

/-- The four messages of two buffers at the same brightness are equal exactly
when the buffers agree on the bits 0 to 20 of every row. -/
theorem messages_iff (b1 b2 : ldisplay_buffer_t) (br : Nat) :
    [hw_message b1 br 0, hw_message b1 br 2, hw_message b1 br 4, hw_message b1 br 6]
      = [hw_message b2 br 0, hw_message b2 br 2, hw_message b2 br 4, hw_message b2 br 6] ↔
    ∀ i : Fin 7, b1 i % 2 ^ 21 = b2 i % 2 ^ 21 := by
  simp only [List.cons.injEq, and_true]
  rw [pair_message_iff b1 b2 br 0 (by decide), pair_message_iff b1 b2 br 2 (by decide),
    pair_message_iff b1 b2 br 4 (by decide), last_message_iff b1 b2 br 6 (by decide)]
  have r1 : ∀ (b : ldisplay_buffer_t) (j : Fin 7), row b j.val = b j := row_fin
  constructor
  · rintro ⟨⟨h0, h1⟩, ⟨h2, h3⟩, ⟨h4, h5⟩, h6⟩ i
    rw [← r1 b1 i, ← r1 b2 i]
    fin_cases i
    · exact h0
    · exact h1
    · exact h2
    · exact h3
    · exact h4
    · exact h5
    · exact h6
  · intro h
    have k : ∀ j : Fin 7, row b1 j.val % 2 ^ 21 = row b2 j.val % 2 ^ 21 := by
      intro j
      rw [r1, r1]
      exact h j
    exact ⟨⟨k 0, k 1⟩, ⟨k 2, k 3⟩, ⟨k 4, k 5⟩, k 6⟩

/-- C20. For two display states with the same brightness and a transport on
which every send succeeds, the messages sent by `_ldisplay_update_hw` are the
same, byte for byte, if and only if the two buffers agree on the bits 0 to 20 of
each of the 7 rows; in particular setting or clearing bit 21 or any higher bit
of a row changes no byte. -/
theorem C20_encoding_information (cfg : Config) (send : List Nat → Int) (s1 s2 : Engine)
    (hok : ∀ m, 0 ≤ send m) (hbr : s1._brightness = s2._brightness) :
    ((_ldisplay_update_hw cfg send s1).1 = (_ldisplay_update_hw cfg send s2).1 ↔
      ∀ i : Fin 7, s1._buffer i % 2 ^ 21 = s2._buffer i % 2 ^ 21) ∧
    ((∀ i : Fin 7, ∃ k, s2._buffer i = s1._buffer i + 2 ^ 21 * k) →
      (_ldisplay_update_hw cfg send s1).1 = (_ldisplay_update_hw cfg send s2).1) := by
  have h1 := (update_hw_all_ok cfg send s1 (hok _) (hok _) (hok _)).1
  have h2 := (update_hw_all_ok cfg send s2 (hok _) (hok _) (hok _)).1
  have key : (_ldisplay_update_hw cfg send s1).1 = (_ldisplay_update_hw cfg send s2).1 ↔
      ∀ i : Fin 7, s1._buffer i % 2 ^ 21 = s2._buffer i % 2 ^ 21 := by
    rw [h1, h2, ← hbr]
    exact messages_iff s1._buffer s2._buffer s1._brightness
  refine ⟨key, fun h => key.mpr (fun i => ?_)⟩
  obtain ⟨k, hk⟩ := h i
  rw [hk, Nat.add_mul_mod_self_left]

/-- An instance of C20: a blank display and a display with only bit 21 of
row 0 set give the same four messages. -/
theorem C20_encoding_information_witness :
    (_ldisplay_update_hw sampleConfig (fun _ => 0) (startEngine 2)).1
      = (_ldisplay_update_hw sampleConfig (fun _ => 0)
          { startEngine 2 with _buffer := fun i => if i = 0 then 2 ^ 21 else 0 }).1 :=
  (C20_encoding_information sampleConfig (fun _ => 0) (startEngine 2)
    { startEngine 2 with _buffer := fun i => if i = 0 then 2 ^ 21 else 0 }
    (fun _ => le_refl _) rfl).1.mpr (by decide)

/-! ## Game-of-Life lemmas -/

theorem cell_fin (m : LifeMatrix) (j : Fin 21) (i : Fin 7) : cell m j.val i.val = m j i := by
  unfold cell
  rw [dif_pos ⟨j.isLt, i.isLt⟩]

theorem cell_setCell_same (m : LifeMatrix) (j i : Nat) (v : Bool) (hj : j < 21) (hi : i < 7) :
    cell (setCell m j i v) j i = v := by
  unfold cell setCell
  rw [dif_pos ⟨hj, hi⟩]
  simp

theorem row_setRow_same (b : ldisplay_buffer_t) (i v : Nat) (hi : i < 7) :
    row (setRow b i v) i = v := by
  unfold row setRow
  rw [dif_pos hi]
  simp

theorem testBit_or_bit (x j n : Nat) (c : Bool) :
    (x ||| (if c then 1 <<< j else 0)).testBit n = true ↔
      (x.testBit n = true ∨ (c = true ∧ n = j)) := by
  cases c
  · simp
  · simp only [if_true, Nat.one_shiftLeft, Nat.testBit_or, Nat.testBit_two_pow, Bool.or_eq_true,
      decide_eq_true_eq, true_and]
    constructor
    · rintro (h | h)
      · exact Or.inl h
      · exact Or.inr h.symm
    · rintro (h | h)
      · exact Or.inl h
      · exact Or.inr h.symm

/-- The inner loop in closed form: the cells `j0 .. 20` of row `i` of
`newmatrix` get their new value and the matching bits are or-ed into
`buffer[i]`. -/
theorem life_inner_spec (matrix : LifeMatrix) (i : Nat) (hi : i < 7) :
    ∀ (fuel j0 : Nat) (st : LifeMatrix × ldisplay_buffer_t), 21 ≤ j0 + fuel →
      (∀ a b, (life_inner matrix i fuel j0 st).1 a b =
        if b.val = i ∧ j0 ≤ a.val then life_cell matrix a.val i else st.1 a b) ∧
      (∀ k : Fin 7, k.val ≠ i → (life_inner matrix i fuel j0 st).2 k = st.2 k) ∧
      (∀ n, (row (life_inner matrix i fuel j0 st).2 i).testBit n = true ↔
        ((row st.2 i).testBit n = true ∨ (j0 ≤ n ∧ n < 21 ∧ life_cell matrix n i = true)))
  | 0, j0, st, h => by
      refine ⟨fun a b => ?_, fun _ _ => rfl, fun n => ?_⟩
      · have : ¬ (b.val = i ∧ j0 ≤ a.val) := by have := a.isLt; omega
        rw [if_neg this]
        rfl
      · show (row st.2 i).testBit n = true ↔ _
        constructor
        · exact Or.inl
        · rintro (h1 | h1)
          · exact h1
          · omega
  | fuel + 1, j0, st, h => by
      rw [life_inner]
      by_cases hj : j0 < 21
      · rw [if_pos hj]
        dsimp only
        obtain ⟨i1, i2, i3⟩ := life_inner_spec matrix i hi fuel (j0 + 1)
          (setCell st.1 j0 i (life_cell matrix j0 i),
            setRow st.2 i (row st.2 i |||
              (if cell (setCell st.1 j0 i (life_cell matrix j0 i)) j0 i then 1 <<< j0 else 0)))
          (by omega)
        refine ⟨fun a b => ?_, fun k hk => ?_, fun n => ?_⟩
        · rw [i1]
          show (if b.val = i ∧ j0 + 1 ≤ a.val then life_cell matrix a.val i
            else if a.val = j0 ∧ b.val = i then life_cell matrix j0 i else st.1 a b) = _
          by_cases h1 : b.val = i ∧ j0 + 1 ≤ a.val
          · rw [if_pos h1, if_pos ⟨h1.1, by omega⟩]
          · rw [if_neg h1]
            by_cases h2 : a.val = j0 ∧ b.val = i
            · rw [if_pos h2, if_pos ⟨h2.2, by omega⟩, h2.1]
            · rw [if_neg h2, if_neg (by omega)]
        · rw [i2 k hk]
          show (if k.val = i then _ else st.2 k) = st.2 k
          rw [if_neg hk]
        · rw [i3 n]
          show (row (setRow st.2 i _) i).testBit n = true ∨ _ ↔ _
          rw [row_setRow_same _ _ _ hi, cell_setCell_same _ _ _ _ hj hi, testBit_or_bit]
          constructor
          · rintro ((h1 | ⟨h1, h2⟩) | ⟨h1, h2, h3⟩)
            · exact Or.inl h1
            · exact Or.inr ⟨by omega, by omega, by rw [h2]; exact h1⟩
            · exact Or.inr ⟨by omega, h2, h3⟩
          · rintro (h1 | ⟨h1, h2, h3⟩)
            · exact Or.inl (Or.inl h1)
            · by_cases e : n = j0
              · exact Or.inl (Or.inr ⟨by rw [← e]; exact h3, e⟩)
              · exact Or.inr ⟨by omega, h2, h3⟩
      · rw [if_neg hj]
        refine ⟨fun a b => ?_, fun _ _ => rfl, fun n => ?_⟩
        · have : ¬ (b.val = i ∧ j0 ≤ a.val) := by have := a.isLt; omega
          rw [if_neg this]
        · constructor
          · exact Or.inl
          · rintro (h1 | h1)
            · exact h1
            · omega

/-- The outer loop in closed form: the rows `i0 .. 6` of `newmatrix` get their
new values and the rows `i0 .. 6` of `buffer` hold exactly the matching bits. -/
theorem life_outer_spec (matrix : LifeMatrix) :
    ∀ (fuel i0 : Nat) (st : LifeMatrix × ldisplay_buffer_t), 7 ≤ i0 + fuel →
      (∀ a b, (life_outer matrix fuel i0 st).1 a b =
        if i0 ≤ b.val then life_cell matrix a.val b.val else st.1 a b) ∧
      (∀ k : Fin 7, k.val < i0 → (life_outer matrix fuel i0 st).2 k = st.2 k) ∧
      (∀ k : Fin 7, i0 ≤ k.val → ∀ n,
        ((life_outer matrix fuel i0 st).2 k).testBit n = true ↔
          (n < 21 ∧ life_cell matrix n k.val = true))
  | 0, i0, st, h => by
      refine ⟨fun a b => ?_, fun _ _ => rfl, fun k hk => ?_⟩
      · have : ¬ i0 ≤ b.val := by have := b.isLt; omega
        rw [if_neg this]
        rfl
      · have := k.isLt
        omega
  | fuel + 1, i0, st, h => by
      rw [life_outer]
      by_cases hi : i0 < 7
      · rw [if_pos hi]
        obtain ⟨j1, j2, j3⟩ := life_inner_spec matrix i0 hi 22 0 (st.1, setRow st.2 i0 0)
          (by omega)
        obtain ⟨o1, o2, o3⟩ := life_outer_spec matrix fuel (i0 + 1)
          (life_inner matrix i0 22 0 (st.1, setRow st.2 i0 0)) (by omega)
        refine ⟨fun a b => ?_, fun k hk => ?_, fun k hk n => ?_⟩
        · rw [o1, j1]
          show (if i0 + 1 ≤ b.val then life_cell matrix a.val b.val
            else if b.val = i0 ∧ 0 ≤ a.val then life_cell matrix a.val i0 else st.1 a b) = _
          by_cases h1 : i0 + 1 ≤ b.val
          · rw [if_pos h1, if_pos (by omega)]
          · rw [if_neg h1]
            by_cases h2 : b.val = i0
            · rw [if_pos ⟨h2, Nat.zero_le _⟩, if_pos (by omega), h2]
            · rw [if_neg (fun h => h2 h.1), if_neg (by omega)]
        · rw [o2 k (by omega), j2 k (by omega)]
          show (if k.val = i0 then 0 else st.2 k) = st.2 k
          rw [if_neg (by omega)]
        · by_cases hk2 : k.val = i0
          · rw [o2 k (by omega), ← row_fin (life_inner matrix i0 22 0 (st.1, setRow st.2 i0 0)).2 k,
              hk2, j3 n, row_setRow_same _ _ _ hi]
            constructor
            · rintro (h1 | ⟨_, h2, h3⟩)
              · simp at h1
              · exact ⟨h2, h3⟩
            · rintro ⟨h2, h3⟩
              exact Or.inr ⟨Nat.zero_le _, h2, h3⟩
          · exact o3 k (by omega) n
      · rw [if_neg hi]
        refine ⟨fun a b => ?_, fun _ _ => rfl, fun k hk => ?_⟩
        · have : ¬ i0 ≤ b.val := by have := b.isLt; omega
          rw [if_neg this]
        · have := k.isLt
          omega

/-- The eight conditional increments of lines 186-194 count the `true`
values among the eight cells read. -/
theorem count8 (c1 c2 c3 c4 c5 c6 c7 c8 : Bool) :
    (let n0 := 0
     let n1 := if c1 then n0 + 1 else n0
     let n2 := if c2 then n1 + 1 else n1
     let n3 := if c3 then n2 + 1 else n2
     let n4 := if c4 then n3 + 1 else n3
     let n5 := if c5 then n4 + 1 else n4
     let n6 := if c6 then n5 + 1 else n5
     let n7 := if c7 then n6 + 1 else n6
     if c8 then n7 + 1 else n7) = [c1, c2, c3, c4, c5, c6, c7, c8].countP id := by
  cases c1 <;> cases c2 <;> cases c3 <;> cases c4 <;> cases c5 <;> cases c6 <;> cases c7 <;>
    cases c8 <;> rfl

/-- The wrap-around indices of lines 178-185 are the neighbours in `Fin`
arithmetic. -/
theorem wrap_indices (j : Fin 21) (i : Fin 7) :
    (if i.val = 0 then 6 else i.val - 1) = (i - 1).val ∧
    (if i.val = 6 then 0 else i.val + 1) = (i + 1).val ∧
    (if j.val = 0 then 20 else j.val - 1) = (j - 1).val ∧
    (if j.val = 20 then 0 else j.val + 1) = (j + 1).val := by
  have hi := i.isLt
  have hj := j.isLt
  have e7 : ((1 : Fin 7) : Nat) = 1 := rfl
  have e21 : ((1 : Fin 21) : Nat) = 1 := rfl
  rw [Fin.coe_sub, Fin.coe_sub, Fin.val_add, Fin.val_add, e7, e21]
  refine ⟨?_, ?_, ?_, ?_⟩ <;> split <;> omega

/-- The count of lines 176-194 is the number of live neighbours on the
torus. -/
theorem life_neighbors_eq (m : LifeMatrix) (j : Fin 21) (i : Fin 7) :
    life_neighbors m j.val i.val = torusNeighbors m j i := by
  obtain ⟨ht, hb, hl, hr⟩ := wrap_indices j i
  have h1 : life_neighbors m j.val i.val =
      [cell m (if j.val = 0 then 20 else j.val - 1) (if i.val = 0 then 6 else i.val - 1),
        cell m (if j.val = 0 then 20 else j.val - 1) i.val,
        cell m (if j.val = 0 then 20 else j.val - 1) (if i.val = 6 then 0 else i.val + 1),
        cell m j.val (if i.val = 0 then 6 else i.val - 1),
        cell m j.val (if i.val = 6 then 0 else i.val + 1),
        cell m (if j.val = 20 then 0 else j.val + 1) (if i.val = 0 then 6 else i.val - 1),
        cell m (if j.val = 20 then 0 else j.val + 1) i.val,
        cell m (if j.val = 20 then 0 else j.val + 1)
          (if i.val = 6 then 0 else i.val + 1)].countP id :=
    count8 _ _ _ _ _ _ _ _
  rw [h1, ht, hb, hl, hr]
  simp only [cell_fin]
  rfl

/-- The assignment of lines 195-209 is the rule of the game. -/
theorem life_cell_iff (m : LifeMatrix) (j : Fin 21) (i : Fin 7) :
    life_cell m j.val i.val = true ↔ lifeRule m j i := by
  unfold life_cell lifeRule
  rw [life_neighbors_eq, cell_fin]
  generalize torusNeighbors m j i = n
  cases m j i
  · simp
  · simp
    omega

/-! ## C21: one generation of the Game of Life -/

/-- C21. For every 21x7 matrix and every buffer, after one generation step,
for every row `i` and column `j`, bit `j` of the new `buffer[i]` is set if and
only if the old cell `(j, i)` was dead with exactly 3 live neighbours or alive
with exactly 2 or 3, the 8 neighbours being taken with wrap-around on the torus
of 21 columns by 7 rows and read from the old matrix; the new `matrix[j][i]` is
true under the same condition; and the bits 21 and above of every new buffer
row are 0. -/
theorem C21_life_generation (matrix : LifeMatrix) (buffer : ldisplay_buffer_t)
    (i : Fin 7) (j : Fin 21) :
    (((life_generation matrix buffer).2 i).testBit j.val = true ↔ lifeRule matrix j i) ∧
    ((life_generation matrix buffer).1 j i = true ↔ lifeRule matrix j i) ∧
    (∀ n, 21 ≤ n → ((life_generation matrix buffer).2 i).testBit n = false) ∧
    (life_generation matrix buffer).2 i < 2 ^ 21 := by
  obtain ⟨o1, _, o3⟩ := life_outer_spec matrix 8 0 (matrix, buffer) (by decide)
  have hhigh : ∀ n, 21 ≤ n → ((life_generation matrix buffer).2 i).testBit n = false := by
    intro n hn
    cases hb : ((life_generation matrix buffer).2 i).testBit n
    · rfl
    · have := ((o3 i (Nat.zero_le _) n).mp hb).1
      omega
  refine ⟨?_, ?_, hhigh, Nat.lt_pow_two_of_testBit _ hhigh⟩
  · show ((life_outer matrix 8 0 (matrix, buffer)).2 i).testBit j.val = true ↔ _
    rw [o3 i (Nat.zero_le _) j.val, life_cell_iff]
    exact ⟨fun h => h.2, fun h => ⟨j.isLt, h⟩⟩
  · show (life_outer matrix 8 0 (matrix, buffer)).1 j i = true ↔ _
    rw [o1 j i, if_pos (Nat.zero_le _), life_cell_iff]

/-- An instance of C21: one generation of the glider.  The dead cell in column
13 of row 3 has three live neighbours and comes alive; the live cell in column
13 of row 4 has one live neighbour and dies. -/
theorem C21_life_generation_witness :
    ((life_generation sampleGlider (fun _ => 7)).2 3).testBit 13 = true ∧
    ¬ ((life_generation sampleGlider (fun _ => 7)).1 13 4 = true) ∧
    (life_generation sampleGlider (fun _ => 7)).2 3 = 2 ^ 13 + 2 ^ 11 :=
  ⟨(C21_life_generation sampleGlider (fun _ => 7) 3 13).1.mpr
      (Or.inl ⟨by decide, by decide⟩),
    by decide, by decide⟩

end LedDisplay
